import Mathlib

/-!
SubFlow: the AIA G702/G703 billing calculator and the transaction ledger.

A shallow embedding of `internal/core/service/calculator.go`,
`internal/core/entity/transaction.go`, `internal/core/service/ledger.go`,
`internal/adapter/repository/transaction_memory.go`,
`internal/core/entity/project.go`, `internal/core/entity/user.go` and the
calculation of `tools/generate_report.go`.

Go's `int64` is modelled as `Int` together with an explicit two's-complement
reduction `wrap64` applied after every arithmetic operation, so that the
embedding follows the machine arithmetic of the source also where it overflows.
Go's integer division truncates toward zero (`Int.tdiv`) and panics on a zero
divisor (`div64` returns `none`).

Values the source draws from its environment (the identifier of `uuid.New()`,
the reading of `time.Now()`, the order in which `range` visits a map) are
explicit arguments. The recursion of `formatNumber` carries a depth bound.
-/

namespace SubFlow

/-! ## Machine integers -/

/-- The smallest `int64` value, `-2^63`. -/
def minInt64 : Int := -9223372036854775808

/-- The largest `int64` value, `2^63 - 1`. -/
def maxInt64 : Int := 9223372036854775807

/-- The integer `x` is representable as an `int64`. -/
def inInt64 (x : Int) : Prop := minInt64 ≤ x ∧ x ≤ maxInt64

instance (x : Int) : Decidable (inInt64 x) := by
  unfold inInt64
  exact inferInstance

/-- Two's-complement reduction of an integer into the `int64` range. -/
def wrap64 (x : Int) : Int :=
  (x + 9223372036854775808) % 18446744073709551616 - 9223372036854775808

/-- Go `a + b` on `int64`. -/
def add64 (a b : Int) : Int := wrap64 (a + b)

/-- Go `a - b` on `int64`. -/
def sub64 (a b : Int) : Int := wrap64 (a - b)

/-- Go `a * b` on `int64`. -/
def mul64 (a b : Int) : Int := wrap64 (a * b)

/-- Go `a / b` on `int64` for a divisor known to be non-zero: the quotient is
truncated toward zero (and `minInt64 / -1` wraps). -/
def quo64 (a b : Int) : Int := wrap64 (Int.tdiv a b)

/-- Go `a / b` on `int64`: `none` stands for the run-time panic
"integer divide by zero". -/
def div64 (a b : Int) : Option Int :=
  if b = 0 then none else some (quo64 a b)

/-! ## Domain errors (`internal/core/entity/errors.go`) -/

/-- The sentinel errors declared in `entity/errors.go`. -/
inductive EntityError
  | ErrProjectNotFound
  | ErrProjectNameRequired
  | ErrProjectCodeRequired
  | ErrInvalidContractAmount
  | ErrProjectNotModifiable
  | ErrTransactionNotFound
  | ErrInvalidTransactionType
  | ErrInvalidAmount
  | ErrCurrencyMismatch
  | ErrUserNotFound
  | ErrInvalidEmail
  | ErrEmailAlreadyExists
  | ErrUnauthorized
  | ErrTenantNotFound
  | ErrTenantInactive
  | ErrContractNotFound
  | ErrContractAlreadyExists
  | ErrRetainageExceedsTotal
  | ErrNegativeBalance
  deriving DecidableEq, Repr

/-- Outcome of a Go function returning `(*T, error)`: a value with a nil error,
a nil value with an error, or a run-time panic on an integer division by zero. -/
inductive GoResult (α : Type)
  | ok (value : α)
  | err (e : EntityError)
  | divideByZero
  deriving DecidableEq, Repr

/-! ## Billing calculator (`internal/core/service/calculator.go`) -/

/-- All data needed for the AIA G702/G703 calculation; every field is an `int64`. -/
structure AIABillingInput where
  OriginalContractSum : Int
  ApprovedChangeOrders : Int
  PreviousWorkCompleted : Int
  CurrentWorkCompleted : Int
  StoredMaterials : Int
  PreviousCertificates : Int
  LaborRetainageRate : Int
  MaterialRetainageRate : Int
  deriving DecidableEq, Repr

/-- Every field of the input is a value of the Go type `int64`. -/
def AIABillingInput.wellFormed (i : AIABillingInput) : Prop :=
  inInt64 i.OriginalContractSum ∧ inInt64 i.ApprovedChangeOrders ∧
  inInt64 i.PreviousWorkCompleted ∧ inInt64 i.CurrentWorkCompleted ∧
  inInt64 i.StoredMaterials ∧ inInt64 i.PreviousCertificates ∧
  inInt64 i.LaborRetainageRate ∧ inInt64 i.MaterialRetainageRate

instance (i : AIABillingInput) : Decidable i.wellFormed := by
  unfold AIABillingInput.wellFormed
  exact inferInstance

/-- The calculated values per AIA standards. -/
structure AIABillingResult where
  ContractSum : Int
  TotalWorkCompleted : Int
  TotalCompletedAndStored : Int
  LaborRetainage : Int
  MaterialRetainage : Int
  TotalRetainage : Int
  TotalEarned : Int
  LessPreviousCerts : Int
  CurrentPaymentDue : Int
  PercentComplete : Int
  BalanceToFinish : Int
  deriving DecidableEq, Repr

/-- Go `calculatePercentage`: `amount * basisPoints / 10000` in `int64`
arithmetic, and `0` when either operand is not positive. -/
def calculatePercentage (amount basisPoints : Int) : Int :=
  if amount ≤ 0 ∨ basisPoints ≤ 0 then 0
  else quo64 (mul64 amount basisPoints) 10000

/-- Go `validateInput`: `none` is the nil error. -/
def validateInput (input : AIABillingInput) : Option EntityError :=
  if input.OriginalContractSum < 0 then some EntityError.ErrInvalidContractAmount
  else if input.PreviousWorkCompleted < 0 ∨ input.CurrentWorkCompleted < 0 then
    some EntityError.ErrInvalidAmount
  else if input.StoredMaterials < 0 then some EntityError.ErrInvalidAmount
  else none

/-- Go `Calculate`: the field assignments of the source in their order. The
eleven fields of the result start at zero, so `PercentComplete` stays `0` when
the guard `ContractSum > 0` fails. -/
def Calculate (input : AIABillingInput) : GoResult AIABillingResult :=
  match validateInput input with
  | some e => GoResult.err e
  | none =>
    let contractSum := add64 input.OriginalContractSum input.ApprovedChangeOrders
    let totalWorkCompleted := add64 input.PreviousWorkCompleted input.CurrentWorkCompleted
    let totalCompletedAndStored := add64 totalWorkCompleted input.StoredMaterials
    let laborRetainage := calculatePercentage totalWorkCompleted input.LaborRetainageRate
    let materialRetainage := calculatePercentage input.StoredMaterials input.MaterialRetainageRate
    let totalRetainage := add64 laborRetainage materialRetainage
    let totalEarned := sub64 totalCompletedAndStored totalRetainage
    let lessPreviousCerts := input.PreviousCertificates
    let currentPaymentDue := sub64 totalEarned lessPreviousCerts
    let percentComplete : Option Int :=
      if contractSum > 0 then div64 (mul64 totalCompletedAndStored 10000) contractSum
      else some 0
    match percentComplete with
    | none => GoResult.divideByZero
    | some pc =>
      GoResult.ok
        { ContractSum := contractSum
          TotalWorkCompleted := totalWorkCompleted
          TotalCompletedAndStored := totalCompletedAndStored
          LaborRetainage := laborRetainage
          MaterialRetainage := materialRetainage
          TotalRetainage := totalRetainage
          TotalEarned := totalEarned
          LessPreviousCerts := lessPreviousCerts
          CurrentPaymentDue := currentPaymentDue
          PercentComplete := pc
          BalanceToFinish := sub64 contractSum totalCompletedAndStored }

/-- The input of `TestCalculator_BasicCalculation`. -/
def basicInput : AIABillingInput :=
  { OriginalContractSum := 100000000
    ApprovedChangeOrders := 5000000
    PreviousWorkCompleted := 30000000
    CurrentWorkCompleted := 15000000
    StoredMaterials := 5000000
    PreviousCertificates := 25000000
    LaborRetainageRate := 1000
    MaterialRetainageRate := 500 }

/-- An accepted input with a negative labor retainage rate and a material
product `10^15 * 10000` above `2^63 - 1`. -/
def retainageOffDomainInput : AIABillingInput :=
  { OriginalContractSum := 0
    ApprovedChangeOrders := 0
    PreviousWorkCompleted := 10000
    CurrentWorkCompleted := 0
    StoredMaterials := 1000000000000000
    PreviousCertificates := 0
    LaborRetainageRate := -1
    MaterialRetainageRate := 10000 }

/-- An accepted input at the boundary rates `10000` and `0`, whose labor product
`922337203685477 * 10000` is the largest multiple of `10000` below `2^63`. -/
def retainageBoundaryInput : AIABillingInput :=
  { OriginalContractSum := 922337203685477
    ApprovedChangeOrders := 0
    PreviousWorkCompleted := 922337203685000
    CurrentWorkCompleted := 477
    StoredMaterials := 5000000
    PreviousCertificates := 0
    LaborRetainageRate := 10000
    MaterialRetainageRate := 0 }

/-- The result `Calculate` returns on `basicInput`. -/
def basicResult : AIABillingResult :=
  { ContractSum := 105000000
    TotalWorkCompleted := 45000000
    TotalCompletedAndStored := 50000000
    LaborRetainage := 4500000
    MaterialRetainage := 250000
    TotalRetainage := 4750000
    TotalEarned := 45250000
    LessPreviousCerts := 25000000
    CurrentPaymentDue := 20250000
    PercentComplete := 4761
    BalanceToFinish := 55000000 }

/-- An accepted input whose contract sum `(2^63 - 1) + 1` leaves `int64`. -/
def contractSumOverflowInput : AIABillingInput :=
  { OriginalContractSum := 9223372036854775807
    ApprovedChangeOrders := 1
    PreviousWorkCompleted := 0
    CurrentWorkCompleted := 0
    StoredMaterials := 0
    PreviousCertificates := 0
    LaborRetainageRate := 0
    MaterialRetainageRate := 0 }

/-- An accepted input on which the sum of work and stored materials, the earned
total and the payment due each leave `int64`. -/
def totalsOverflowInput : AIABillingInput :=
  { OriginalContractSum := 0
    ApprovedChangeOrders := 0
    PreviousWorkCompleted := 9223372036854775807
    CurrentWorkCompleted := 0
    StoredMaterials := 1
    PreviousCertificates := -922337203685477
    LaborRetainageRate := 1
    MaterialRetainageRate := 0 }

/-- An accepted input with a zero contract sum whose work sum
`(2^63 - 1) + 1` wraps to `-2^63`. -/
def zeroContractWrappedInput : AIABillingInput :=
  { OriginalContractSum := 0
    ApprovedChangeOrders := 0
    PreviousWorkCompleted := 9223372036854775807
    CurrentWorkCompleted := 1
    StoredMaterials := 0
    PreviousCertificates := 0
    LaborRetainageRate := 0
    MaterialRetainageRate := 0 }

/-- An accepted input whose deductive change order cancels the original sum. -/
def cancelledContractInput : AIABillingInput :=
  { OriginalContractSum := 5000000
    ApprovedChangeOrders := -5000000
    PreviousWorkCompleted := 1000000
    CurrentWorkCompleted := 200000
    StoredMaterials := 30000
    PreviousCertificates := 0
    LaborRetainageRate := 1000
    MaterialRetainageRate := 500 }

/-- An accepted input with a large deductive change order, on which
`ContractSum - TotalCompletedAndStored = -10^19` lies below `-2^63`. -/
def balanceOverflowInput : AIABillingInput :=
  { OriginalContractSum := 0
    ApprovedChangeOrders := -5000000000000000000
    PreviousWorkCompleted := 5000000000000000000
    CurrentWorkCompleted := 0
    StoredMaterials := 0
    PreviousCertificates := 0
    LaborRetainageRate := 0
    MaterialRetainageRate := 0 }

/-- An accepted over-billed input: completed work exceeds the contract sum. -/
def overBilledInput : AIABillingInput :=
  { OriginalContractSum := 100000000
    ApprovedChangeOrders := -20000000
    PreviousWorkCompleted := 70000000
    CurrentWorkCompleted := 15000000
    StoredMaterials := 5000000
    PreviousCertificates := 0
    LaborRetainageRate := 1000
    MaterialRetainageRate := 500 }

/-- The result `Calculate` returns on `overBilledInput`. -/
def overBilledResult : AIABillingResult :=
  { ContractSum := 80000000
    TotalWorkCompleted := 85000000
    TotalCompletedAndStored := 90000000
    LaborRetainage := 8500000
    MaterialRetainage := 250000
    TotalRetainage := 8750000
    TotalEarned := 81250000
    LessPreviousCerts := 0
    CurrentPaymentDue := 81250000
    PercentComplete := 11250
    BalanceToFinish := -10000000 }

/-- The billing calculation engine; its only field is never read. -/
structure Calculator where
  architectSignature : String
  deriving DecidableEq, Repr

/-- Go `NewCalculator`. -/
def NewCalculator : Calculator :=
  { architectSignature := "Muhammet-Ali-Buyuk-SF2026" }

/-- Go `(c *Calculator) Calculate`, with the receiver made explicit: neither
`Calculate` nor the two helpers it calls read the receiver. -/
def Calculator.Calculate (_c : Calculator) (input : AIABillingInput) :
    GoResult AIABillingResult :=
  SubFlow.Calculate input

/-- The input of `TestCalculator_FullCompletion`. -/
def fullCompletionInput : AIABillingInput :=
  { OriginalContractSum := 100000000
    ApprovedChangeOrders := 0
    PreviousWorkCompleted := 100000000
    CurrentWorkCompleted := 0
    StoredMaterials := 0
    PreviousCertificates := 90000000
    LaborRetainageRate := 1000
    MaterialRetainageRate := 500 }

/-- The result `Calculate` returns on `fullCompletionInput`. -/
def fullCompletionResult : AIABillingResult :=
  { ContractSum := 100000000
    TotalWorkCompleted := 100000000
    TotalCompletedAndStored := 100000000
    LaborRetainage := 10000000
    MaterialRetainage := 0
    TotalRetainage := 10000000
    TotalEarned := 90000000
    LessPreviousCerts := 90000000
    CurrentPaymentDue := 0
    PercentComplete := 10000
    BalanceToFinish := 0 }

/-- A fully completed contract of `10^15` cents, whose product
`TotalCompletedAndStored * 10000 = 10^19` leaves `int64`. -/
def fullCompletionLargeInput : AIABillingInput :=
  { OriginalContractSum := 1000000000000000
    ApprovedChangeOrders := 0
    PreviousWorkCompleted := 1000000000000000
    CurrentWorkCompleted := 0
    StoredMaterials := 0
    PreviousCertificates := 0
    LaborRetainageRate := 1000
    MaterialRetainageRate := 500 }

/-- The input of `TestCalculator_ZeroValues`. -/
def zeroValuesInput : AIABillingInput :=
  { OriginalContractSum := 100000000
    ApprovedChangeOrders := 0
    PreviousWorkCompleted := 0
    CurrentWorkCompleted := 0
    StoredMaterials := 0
    PreviousCertificates := 0
    LaborRetainageRate := 1000
    MaterialRetainageRate := 500 }

/-- The result `Calculate` returns on `zeroValuesInput`. -/
def zeroValuesResult : AIABillingResult :=
  { ContractSum := 100000000
    TotalWorkCompleted := 0
    TotalCompletedAndStored := 0
    LaborRetainage := 0
    MaterialRetainage := 0
    TotalRetainage := 0
    TotalEarned := 0
    LessPreviousCerts := 0
    CurrentPaymentDue := 0
    PercentComplete := 0
    BalanceToFinish := 100000000 }

/-! ## Currency formatting (`internal/core/service/calculator.go`) -/

/-- Go `a % b` on `int64` for a non-zero divisor: the remainder of the
truncated division. -/
def rem64 (a b : Int) : Int := wrap64 (Int.tmod a b)

/-- Go `-a` on `int64`. -/
def neg64 (a : Int) : Int := wrap64 (-a)

/-- Go `byte('0' + d)`: the conversion to `byte` keeps the low eight bits. -/
def digitByte (d : Int) : Char := Char.ofNat ((48 + d) % 256).toNat

/-- The loop of Go `itoa`: while `n > 0`, prepend the digit `n % 10` and divide
`n` by `10`. The first argument bounds the number of iterations. -/
def itoaLoop : Nat → Int → List Char → List Char
  | 0, _, result => result
  | fuel + 1, n, result =>
    if n > 0 then itoaLoop fuel (quo64 n 10) (digitByte (rem64 n 10) :: result)
    else result

/-- Go `itoa`. The loop divides a positive `n` by `10` at every turn, so `n`
iterations are always enough. -/
def itoa (n : Int) : String :=
  if n = 0 then "0" else String.mk (itoaLoop n.toNat n [])

/-- Go `padZero`. -/
def padZero (n : Int) : String :=
  if n < 10 then "0" ++ itoa n else itoa n

/-- Go `padThree`. -/
def padThree (n : Int) : String :=
  if n < 10 then "00" ++ itoa n
  else if n < 100 then "0" ++ itoa n
  else itoa n

/-- Go `formatNumber`, with a bound on the recursion depth: `none` when the
bound is exhausted before the recursion ends. -/
def formatNumber : Nat → Int → Option String
  | 0, _ => none
  | fuel + 1, n =>
    if n < 0 then (formatNumber fuel (neg64 n)).map (fun s => "-" ++ s)
    else if n < 1000 then some (itoa n)
    else (formatNumber fuel (quo64 n 1000)).map
      (fun s => s ++ "," ++ padThree (rem64 n 1000))

/-- Go `formatWithSymbol`. -/
def formatWithSymbol (fuel : Nat) (major minor : Int) (symbol : String) : Option String :=
  (formatNumber fuel major).map (fun s => symbol ++ s ++ "." ++ padZero minor)

/-- Go `FormatCurrency`; `fuel` bounds the recursion depth of `formatNumber`. -/
def FormatCurrency (fuel : Nat) (cents : Int) (currency : String) : Option String :=
  let major := quo64 cents 100
  let minor := rem64 cents 100
  let minor := if minor < 0 then neg64 minor else minor
  if currency = "TRY" then formatWithSymbol fuel major minor "₺"
  else if currency = "USD" then formatWithSymbol fuel major minor "$"
  else if currency = "EUR" then formatWithSymbol fuel major minor "€"
  else formatWithSymbol fuel major minor (currency ++ " ")

/-! ## Currency formatting, as the specification words it -/

/-- The decimal numeral of `n` without leading zeros, most significant digit
first; the numeral of `0` is the single digit `0`. -/
def decimalNumeralSpec (n : Nat) : List Char :=
  if n = 0 then ['0'] else (Nat.digits 10 n).reverse.map Nat.digitChar

/-- A comma between every group of three digits counted from the right: a digit
is followed by a comma exactly when the digits to its right are a positive
multiple of three in number. -/
def groupThousandsSpec : List Char → List Char
  | [] => []
  | d :: rest =>
    if rest ≠ [] ∧ rest.length % 3 = 0 then d :: ',' :: groupThousandsSpec rest
    else d :: groupThousandsSpec rest

/-- The grouped numeral of `n`, as in `1,234`. -/
def groupedSpec (n : Nat) : String :=
  String.mk (groupThousandsSpec (decimalNumeralSpec n))

/-- The two-digit, zero-padded numeral of `m < 100`. -/
def twoDigitsSpec (m : Nat) : String :=
  String.mk [Nat.digitChar (m / 10 % 10), Nat.digitChar (m % 10)]

/-- The prefix of a currency code: a symbol for `TRY`, `USD` and `EUR`, the
code followed by a space otherwise. -/
def currencyPrefixSpec (code : String) : String :=
  if code = "TRY" then "₺"
  else if code = "USD" then "$"
  else if code = "EUR" then "€"
  else code ++ " "

/-! ## Transactions (`internal/core/entity/transaction.go`) -/

/-- Go `uuid.UUID`, as a number. -/
abbrev UUID := Nat

/-- Go `time.Time`, as an instant on an integer time line. -/
abbrev Time := Int

/-- Go `TransactionType`, a string type: values outside the six constants exist. -/
abbrev TransactionType := String

def TransactionTypeInvoice : TransactionType := "INVOICE"

def TransactionTypePayment : TransactionType := "PAYMENT"

def TransactionTypeRetainageHeld : TransactionType := "RETAINAGE_HELD"

def TransactionTypeRetainageRelease : TransactionType := "RETAINAGE_RELEASE"

def TransactionTypeAdjustment : TransactionType := "ADJUSTMENT"

def TransactionTypeDeduction : TransactionType := "DEDUCTION"

/-- Additional context for transactions. -/
structure TransactionMetadata where
  BankReceiptNo : String
  InvoiceNo : String
  ApplicationPeriod : String
  Notes : String
  VendorName : String
  RetainageRate : String
  deriving DecidableEq, Repr

/-- A financial event of the ledger. The field `Type` of the source is `TxType`
here. `Metadata`, a `json.RawMessage` in the source, is represented by the
metadata value whose JSON encoding it holds (`none` for a nil message). -/
structure Transaction where
  ID : UUID
  ProjectID : UUID
  ContractID : Option UUID
  TxType : TransactionType
  AmountCents : Int
  Currency : String
  EffectiveDate : Time
  Description : String
  ReferenceNo : String
  Metadata : Option TransactionMetadata
  CreatedAt : Time
  CreatedBy : UUID
  deriving DecidableEq, Repr

/-- An error value of Go: one of the sentinel errors of the domain, or an error
raised by a collaborator outside the core (JSON encoder, storage driver). -/
inductive GoError
  | entity (e : EntityError)
  | external (message : String)
  deriving DecidableEq, Repr

/-- Go `NewTransaction`; the identifier drawn by `uuid.New()` and the reading of
`time.Now()` are inputs. -/
def NewTransaction (id : UUID) (now : Time) (projectID : UUID) (txType : TransactionType)
    (amountCents : Int) (currency : String) (createdBy : UUID) : Transaction :=
  { ID := id
    ProjectID := projectID
    ContractID := none
    TxType := txType
    AmountCents := amountCents
    Currency := currency
    EffectiveDate := now
    Description := ""
    ReferenceNo := ""
    Metadata := none
    CreatedAt := now
    CreatedBy := createdBy }

/-- Go `TransactionType.IsValid`. -/
def TransactionType.IsValid (tt : TransactionType) : Bool :=
  tt == TransactionTypeInvoice || tt == TransactionTypePayment ||
  tt == TransactionTypeRetainageHeld || tt == TransactionTypeRetainageRelease ||
  tt == TransactionTypeAdjustment || tt == TransactionTypeDeduction

/-- Go `Transaction.Validate`: `none` is the nil error. -/
def Transaction.Validate (t : Transaction) : Option EntityError :=
  if t.AmountCents ≤ 0 then some EntityError.ErrInvalidAmount
  else if !TransactionType.IsValid t.TxType then some EntityError.ErrInvalidTransactionType
  else none

/-- Go `Transaction.SetMetadata`: the updated transaction and the error.
`json.Marshal` has no failing case on a struct of six strings, so the error is
always nil. -/
def Transaction.SetMetadata (t : Transaction) (md : TransactionMetadata) :
    Transaction × Option GoError :=
  ({ t with Metadata := some md }, none)

/-- The zero value of `TransactionMetadata`. -/
def emptyMetadata : TransactionMetadata :=
  { BankReceiptNo := "", InvoiceNo := "", ApplicationPeriod := "", Notes := "",
    VendorName := "", RetainageRate := "" }

/-- Go `Transaction.IsCredit`. -/
def Transaction.IsCredit (t : Transaction) : Bool :=
  t.TxType == TransactionTypePayment || t.TxType == TransactionTypeRetainageRelease

/-- Go `Transaction.IsDebit`. -/
def Transaction.IsDebit (t : Transaction) : Bool :=
  t.TxType == TransactionTypeInvoice || t.TxType == TransactionTypeDeduction

/-- The closed enumeration of the specification: one of the six values
`INVOICE`, `PAYMENT`, `RETAINAGE_HELD`, `RETAINAGE_RELEASE`, `ADJUSTMENT`,
`DEDUCTION`. -/
def inEnumerationSpec (tt : TransactionType) : Prop :=
  tt = "INVOICE" ∨ tt = "PAYMENT" ∨ tt = "RETAINAGE_HELD" ∨ tt = "RETAINAGE_RELEASE" ∨
  tt = "ADJUSTMENT" ∨ tt = "DEDUCTION"

/-! ## Ledger service (`internal/core/service/ledger.go`) -/

/-- The financial state of a project. -/
structure LedgerSummary where
  ProjectID : UUID
  TotalInvoiced : Int
  TotalPaid : Int
  TotalRetained : Int
  CurrentBalance : Int
  Currency : String
  TransactionCount : Int
  deriving DecidableEq, Repr

/-- The persistence port, over a store state `σ`. Of its four methods the
recording operations of the ledger call `Save` only: it returns the state after
the call and the error (`none` for nil). -/
structure TransactionRepository (σ : Type) where
  Save : σ → Transaction → σ × Option GoError

/-- Go `LedgerService`. -/
structure LedgerService (σ : Type) where
  repo : TransactionRepository σ
  architect : String

/-- Go `NewLedgerService`. -/
def NewLedgerService {σ : Type} (repo : TransactionRepository σ) : LedgerService σ :=
  { repo := repo, architect := "Muhammet-Ali-Buyuk" }

/-- Go `IEEE-754` `float64`, by its bit pattern; the only one in the core is a
parameter that is never read. -/
abbrev Float64 := Nat

/-- Go `RecordInvoice`: the store state after the call, and the transaction or
the error. -/
def LedgerService.RecordInvoice {σ : Type} (s : LedgerService σ) (store : σ)
    (id : UUID) (now : Time) (projectID : UUID) (amountCents : Int)
    (currency invoiceNo : String) (createdBy : UUID) : σ × Except GoError Transaction :=
  let tx := NewTransaction id now projectID TransactionTypeInvoice amountCents currency createdBy
  let tx := { tx with ReferenceNo := invoiceNo }
  match tx.SetMetadata { emptyMetadata with InvoiceNo := invoiceNo } with
  | (_, some err) => (store, Except.error err)
  | (tx, none) =>
    match tx.Validate with
    | some err => (store, Except.error (GoError.entity err))
    | none =>
      match s.repo.Save store tx with
      | (store, some err) => (store, Except.error err)
      | (store, none) => (store, Except.ok tx)

/-- Go `RecordPayment`. -/
def LedgerService.RecordPayment {σ : Type} (s : LedgerService σ) (store : σ)
    (id : UUID) (now : Time) (projectID : UUID) (amountCents : Int)
    (currency bankReceiptNo : String) (createdBy : UUID) : σ × Except GoError Transaction :=
  let tx := NewTransaction id now projectID TransactionTypePayment amountCents currency createdBy
  let tx := { tx with ReferenceNo := bankReceiptNo }
  match tx.SetMetadata { emptyMetadata with BankReceiptNo := bankReceiptNo } with
  | (_, some err) => (store, Except.error err)
  | (tx, none) =>
    match tx.Validate with
    | some err => (store, Except.error (GoError.entity err))
    | none =>
      match s.repo.Save store tx with
      | (store, some err) => (store, Except.error err)
      | (store, none) => (store, Except.ok tx)

/-- Go `RecordRetainageHeld`; the parameter `rate` is not read. -/
def LedgerService.RecordRetainageHeld {σ : Type} (s : LedgerService σ) (store : σ)
    (id : UUID) (now : Time) (projectID : UUID) (amountCents : Int)
    (currency : String) (_rate : Float64) (createdBy : UUID) :
    σ × Except GoError Transaction :=
  let tx := NewTransaction id now projectID TransactionTypeRetainageHeld amountCents currency
    createdBy
  let tx := { tx with Description := "Retainage withheld" }
  match tx.Validate with
  | some err => (store, Except.error (GoError.entity err))
  | none =>
    match s.repo.Save store tx with
    | (store, some err) => (store, Except.error err)
    | (store, none) => (store, Except.ok tx)

/-- Go `RecordRetainageRelease`. -/
def LedgerService.RecordRetainageRelease {σ : Type} (s : LedgerService σ) (store : σ)
    (id : UUID) (now : Time) (projectID : UUID) (amountCents : Int)
    (currency : String) (createdBy : UUID) : σ × Except GoError Transaction :=
  let tx := NewTransaction id now projectID TransactionTypeRetainageRelease amountCents
    currency createdBy
  let tx := { tx with Description := "Retainage released" }
  match tx.Validate with
  | some err => (store, Except.error (GoError.entity err))
  | none =>
    match s.repo.Save store tx with
    | (store, some err) => (store, Except.error err)
    | (store, none) => (store, Except.ok tx)

/-! ## In-memory repository (`internal/adapter/repository/transaction_memory.go`) -/

/-- Go `InMemoryTransactionRepository`. The map from identifiers to transactions
is the list of its entries, without any meaning attached to their order; the
mutex is left out. The source stores pointers, here the stored values are
immutable. -/
structure InMemoryTransactionRepository where
  transactions : List (UUID × Transaction)
  architect : String
  deriving DecidableEq, Repr

/-- Go `NewInMemoryTransactionRepository`. -/
def NewInMemoryTransactionRepository : InMemoryTransactionRepository :=
  { transactions := [], architect := "Muhammet-Ali-Buyuk" }

/-- Go `Save`: the map assignment `r.transactions[tx.ID] = tx` drops any entry
under the same key and binds the key to `tx`; the error is always nil. -/
def InMemoryTransactionRepository.Save (r : InMemoryTransactionRepository)
    (tx : Transaction) : InMemoryTransactionRepository × Option GoError :=
  ({ r with transactions :=
      r.transactions.filter (fun kv => kv.1 != tx.ID) ++ [(tx.ID, tx)] }, none)

/-- Go `FindByID`. -/
def InMemoryTransactionRepository.FindByID (r : InMemoryTransactionRepository)
    (id : UUID) : Except GoError Transaction :=
  match r.transactions.find? (fun kv => kv.1 == id) with
  | some kv => Except.ok kv.2
  | none => Except.error (GoError.entity EntityError.ErrTransactionNotFound)

/-- An order in which `range r.transactions` may visit the entries of the map:
any arrangement of them. -/
structure RangeOrder (r : InMemoryTransactionRepository) where
  entries : List (UUID × Transaction)
  perm : entries.Perm r.transactions

/-- The order in which the entries are listed. -/
def RangeOrder.listed (r : InMemoryTransactionRepository) : RangeOrder r :=
  { entries := r.transactions, perm := List.Perm.refl _ }

/-- Go `FindByProjectID`, for the order `o` its `range` loop takes. -/
def InMemoryTransactionRepository.FindByProjectID (r : InMemoryTransactionRepository)
    (o : RangeOrder r) (projectID : UUID) : Except GoError (List Transaction) :=
  Except.ok ((o.entries.filter (fun kv => kv.2.ProjectID == projectID)).map (fun kv => kv.2))

/-- The body of the loop of Go `GetProjectSummary`. -/
def summaryLoopBody (summary : LedgerSummary) (tx : Transaction) : LedgerSummary :=
  let summary := { summary with Currency := tx.Currency }
  if tx.TxType = TransactionTypeInvoice then
    { summary with TotalInvoiced := add64 summary.TotalInvoiced tx.AmountCents }
  else if tx.TxType = TransactionTypePayment then
    { summary with TotalPaid := add64 summary.TotalPaid tx.AmountCents }
  else if tx.TxType = TransactionTypeRetainageHeld then
    { summary with TotalRetained := add64 summary.TotalRetained tx.AmountCents }
  else if tx.TxType = TransactionTypeRetainageRelease then
    { summary with TotalRetained := sub64 summary.TotalRetained tx.AmountCents }
  else summary

/-- Go `GetProjectSummary`, for the order `o` the loop of `FindByProjectID`
takes. -/
def InMemoryTransactionRepository.GetProjectSummary (r : InMemoryTransactionRepository)
    (o : RangeOrder r) (projectID : UUID) : Except GoError LedgerSummary :=
  match r.FindByProjectID o projectID with
  | Except.error err => Except.error err
  | Except.ok transactions =>
    let summary : LedgerSummary :=
      { ProjectID := projectID
        TotalInvoiced := 0
        TotalPaid := 0
        TotalRetained := 0
        CurrentBalance := 0
        Currency := ""
        TransactionCount := transactions.length }
    let summary := transactions.foldl summaryLoopBody summary
    Except.ok { summary with
      CurrentBalance := sub64 summary.TotalInvoiced summary.TotalPaid }

/-- Go `Clear`. -/
def InMemoryTransactionRepository.Clear (r : InMemoryTransactionRepository) :
    InMemoryTransactionRepository :=
  { r with transactions := [] }

/-- The in-memory repository behind the persistence port. -/
def inMemoryPort : TransactionRepository InMemoryTransactionRepository :=
  { Save := InMemoryTransactionRepository.Save }

/-- A ledger service over the in-memory repository. -/
def inMemoryLedger : LedgerService InMemoryTransactionRepository :=
  NewLedgerService inMemoryPort

/-- A repository whose state counts the calls of `Save`. -/
def countingPort : TransactionRepository Nat :=
  { Save := fun calls _ => (calls + 1, none) }

/-- A ledger service over the counting repository. -/
def countingLedger : LedgerService Nat :=
  NewLedgerService countingPort

/-- An invoice of `5000` minor units under the identifier `1`. -/
def storedInvoice : Transaction :=
  NewTransaction 1 100 7 TransactionTypeInvoice 5000 "TRY" 9

/-- Another transaction under the same identifier `1`. -/
def collidingPayment : Transaction :=
  NewTransaction 1 200 8 TransactionTypePayment 999999 "USD" 3

/-- A transaction under another identifier. -/
def otherInvoice : Transaction :=
  NewTransaction 2 300 7 TransactionTypeInvoice 40 "TRY" 9

/-- The operations of the in-memory repository. -/
inductive RepoOp
  | save (tx : Transaction)
  | findByID (id : UUID)
  | findByProjectID (projectID : UUID)
  | getProjectSummary (projectID : UUID)
  | clear
  deriving DecidableEq, Repr

/-- The state of the repository after one operation: `Save` and `Clear` write,
the three read operations leave the map as it is. -/
def InMemoryTransactionRepository.applyOp (r : InMemoryTransactionRepository) :
    RepoOp → InMemoryTransactionRepository
  | RepoOp.save tx => (r.Save tx).1
  | RepoOp.findByID _ => r
  | RepoOp.findByProjectID _ => r
  | RepoOp.getProjectSummary _ => r
  | RepoOp.clear => r.Clear

/-- The state of the repository after a sequence of operations. -/
def InMemoryTransactionRepository.runOps (r : InMemoryTransactionRepository)
    (ops : List RepoOp) : InMemoryTransactionRepository :=
  ops.foldl InMemoryTransactionRepository.applyOp r

/-- The two recording operations that enter the balance. -/
inductive CallKind
  | invoice
  | payment
  deriving DecidableEq, Repr

/-- A call of `RecordInvoice` or `RecordPayment` on a given project: its
arguments, the identifier `uuid.New()` stamps and the reading of the clock. -/
structure LedgerCall where
  kind : CallKind
  id : UUID
  now : Time
  amountCents : Int
  currency : String
  reference : String
  createdBy : UUID
  deriving DecidableEq, Repr

/-- One call against the ledger service. -/
def LedgerService.recordCall {σ : Type} (s : LedgerService σ) (projectID : UUID)
    (store : σ) (c : LedgerCall) : σ × Except GoError Transaction :=
  match c.kind with
  | CallKind.invoice =>
    s.RecordInvoice store c.id c.now projectID c.amountCents c.currency c.reference c.createdBy
  | CallKind.payment =>
    s.RecordPayment store c.id c.now projectID c.amountCents c.currency c.reference c.createdBy

/-- A sequence of calls, one after the other: the final store state and the
outcome of every call. -/
def LedgerService.recordAll {σ : Type} (s : LedgerService σ) (projectID : UUID) :
    σ → List LedgerCall → σ × List (Except GoError Transaction)
  | store, [] => (store, [])
  | store, c :: cs =>
    let step := s.recordCall projectID store c
    let rest := LedgerService.recordAll s projectID step.1 cs
    (rest.1, step.2 :: rest.2)

/-- The sum of the amounts of the invoice calls. -/
def invoiceTotal (calls : List LedgerCall) : Int :=
  ((calls.filter (fun c => c.kind = CallKind.invoice)).map (fun c => c.amountCents)).sum

/-- The sum of the amounts of the payment calls. -/
def paymentTotal (calls : List LedgerCall) : Int :=
  ((calls.filter (fun c => c.kind = CallKind.payment)).map (fun c => c.amountCents)).sum

/-- The transaction a call builds before validating and saving it. -/
def LedgerCall.transaction (projectID : UUID) (c : LedgerCall) : Transaction :=
  match c.kind with
  | CallKind.invoice =>
    { NewTransaction c.id c.now projectID TransactionTypeInvoice c.amountCents c.currency
        c.createdBy with
      ReferenceNo := c.reference
      Metadata := some { emptyMetadata with InvoiceNo := c.reference } }
  | CallKind.payment =>
    { NewTransaction c.id c.now projectID TransactionTypePayment c.amountCents c.currency
        c.createdBy with
      ReferenceNo := c.reference
      Metadata := some { emptyMetadata with BankReceiptNo := c.reference } }

/-- The sum of the amounts of the transactions of one type. -/
def sumOfType (ty : TransactionType) (l : List Transaction) : Int :=
  ((l.filter (fun t => t.TxType = ty)).map (fun t => t.AmountCents)).sum

/-- Two invoices whose amounts add up to `2^63`. -/
def overflowingInvoices : List LedgerCall :=
  [ { kind := CallKind.invoice, id := 1, now := 100, amountCents := 9223372036854775807,
      currency := "TRY", reference := "INV-1", createdBy := 9 },
    { kind := CallKind.invoice, id := 2, now := 101, amountCents := 1,
      currency := "TRY", reference := "INV-2", createdBy := 9 } ]

/-- Two invoices and a payment. -/
def sampleCalls : List LedgerCall :=
  [ { kind := CallKind.invoice, id := 1, now := 100, amountCents := 5000,
      currency := "TRY", reference := "INV-1", createdBy := 9 },
    { kind := CallKind.payment, id := 2, now := 101, amountCents := 1200,
      currency := "TRY", reference := "RCPT-1", createdBy := 9 },
    { kind := CallKind.invoice, id := 3, now := 102, amountCents := 300,
      currency := "TRY", reference := "INV-2", createdBy := 9 } ]

/-- The calls of `sampleCalls` in another order. -/
def sampleCallsReordered : List LedgerCall :=
  [ { kind := CallKind.invoice, id := 3, now := 102, amountCents := 300,
      currency := "TRY", reference := "INV-2", createdBy := 9 },
    { kind := CallKind.invoice, id := 1, now := 100, amountCents := 5000,
      currency := "TRY", reference := "INV-1", createdBy := 9 },
    { kind := CallKind.payment, id := 2, now := 101, amountCents := 1200,
      currency := "TRY", reference := "RCPT-1", createdBy := 9 } ]

/-- A retainage transaction, neither credit nor debit. -/
def heldRetainage : Transaction :=
  NewTransaction 5 400 7 TransactionTypeRetainageHeld 250 "TRY" 9

/-- The entries form a map as `Save` fills it: no key occurs twice, and every
transaction is filed under its own identifier. -/
def InMemoryTransactionRepository.isMap (r : InMemoryTransactionRepository) : Prop :=
  (r.transactions.map (fun kv => kv.1)).Nodup ∧ ∀ kv ∈ r.transactions, kv.1 = kv.2.ID

instance (r : InMemoryTransactionRepository) : Decidable r.isMap := by
  unfold InMemoryTransactionRepository.isMap
  exact inferInstance

/-- The stored transactions of a project, in the order the entries are listed. -/
def InMemoryTransactionRepository.ofProject (r : InMemoryTransactionRepository)
    (projectID : UUID) : List Transaction :=
  (r.transactions.filter (fun kv => kv.2.ProjectID == projectID)).map (fun kv => kv.2)

/-- A store holding the two invoices `storedInvoice` (effective at `100`) and
`otherInvoice` (effective at `300`) of project `7`. -/
def twoInvoicesStore : InMemoryTransactionRepository :=
  NewInMemoryTransactionRepository.runOps [RepoOp.save storedInvoice, RepoOp.save otherInvoice]

/-- The ordering contract of the specification: effective date descending and,
among equal effective dates, creation time descending. -/
def orderedNewestFirstSpec (l : List Transaction) : Prop :=
  l.Pairwise (fun a b => b.EffectiveDate < a.EffectiveDate ∨
    (b.EffectiveDate = a.EffectiveDate ∧ b.CreatedAt ≤ a.CreatedAt))

instance (l : List Transaction) : Decidable (orderedNewestFirstSpec l) := by
  unfold orderedNewestFirstSpec
  exact inferInstance

/-- A store holding two invoices of project `7` whose amounts add up to `2^63`. -/
def overflowingStore : InMemoryTransactionRepository :=
  NewInMemoryTransactionRepository.runOps
    [RepoOp.save (NewTransaction 1 100 7 TransactionTypeInvoice 9223372036854775807 "TRY" 9),
      RepoOp.save (NewTransaction 2 101 7 TransactionTypeInvoice 1 "TRY" 9)]

/-- A store holding one transaction of each of five types for project `7` and
an invoice of project `8`. -/
def mixedStore : InMemoryTransactionRepository :=
  NewInMemoryTransactionRepository.runOps
    [RepoOp.save (NewTransaction 1 100 7 TransactionTypeInvoice 5000 "TRY" 9),
      RepoOp.save (NewTransaction 2 101 7 TransactionTypePayment 1200 "TRY" 9),
      RepoOp.save (NewTransaction 3 102 7 TransactionTypeRetainageHeld 250 "TRY" 9),
      RepoOp.save (NewTransaction 4 103 7 TransactionTypeRetainageRelease 100 "TRY" 9),
      RepoOp.save (NewTransaction 5 104 8 TransactionTypeInvoice 999 "USD" 9),
      RepoOp.save (NewTransaction 6 105 7 TransactionTypeAdjustment 77 "EUR" 9)]

/-- An invoice of project `8` under the identifier `10`. -/
def foreignInvoice : Transaction :=
  NewTransaction 10 500 8 TransactionTypeInvoice 123456 "USD" 3

/-! ## Projects (`internal/core/entity/project.go`) -/

/-- Go `ProjectStatus`, a string type. -/
abbrev ProjectStatus := String

def ProjectStatusDraft : ProjectStatus := "DRAFT"
def ProjectStatusActive : ProjectStatus := "ACTIVE"
def ProjectStatusOnHold : ProjectStatus := "ON_HOLD"
def ProjectStatusCompleted : ProjectStatus := "COMPLETED"
def ProjectStatusCancelled : ProjectStatus := "CANCELLED"

/-- The zero value of `time.Time`, which a struct literal gives to a time field
it does not mention. -/
def zeroTime : Time := 0

/-- Go `Project`. `DeletedAt` is a pointer, `none` for nil. -/
structure Project where
  ID : UUID
  TenantID : UUID
  Name : String
  Code : String
  Description : String
  Status : ProjectStatus
  ContractAmount : Int
  Currency : String
  StartDate : Time
  EstimatedEndDate : Time
  LaborRetainageRate : Float64
  MaterialRetainageRate : Float64
  CreatedAt : Time
  UpdatedAt : Time
  DeletedAt : Option Time
  deriving DecidableEq, Repr

/-- The `float64` nearest to `0.10`. -/
def float64OneTenth : Float64 := 4591870180066957722

/-- The `float64` nearest to `0.05`. -/
def float64OneTwentieth : Float64 := 4587366580439587226

/-- Go `NewProject`; `id` is the value of `uuid.New()` and `now` the reading of
`time.Now()`. The fields the literal leaves out take their zero values. -/
def NewProject (id : UUID) (now : Time) (tenantID : UUID) (name code : String) : Project :=
  { ID := id
    TenantID := tenantID
    Name := name
    Code := code
    Description := ""
    Status := ProjectStatusDraft
    ContractAmount := 0
    Currency := "TRY"
    StartDate := zeroTime
    EstimatedEndDate := zeroTime
    LaborRetainageRate := float64OneTenth
    MaterialRetainageRate := float64OneTwentieth
    CreatedAt := now
    UpdatedAt := now
    DeletedAt := none }

/-- Go `(*Project).Validate`; `none` is nil. -/
def Project.Validate (p : Project) : Option EntityError :=
  if p.Name = "" then some EntityError.ErrProjectNameRequired
  else if p.Code = "" then some EntityError.ErrProjectCodeRequired
  else if p.ContractAmount < 0 then some EntityError.ErrInvalidContractAmount
  else none

/-- Go `(*Project).IsActive`. -/
def Project.IsActive (p : Project) : Bool :=
  p.Status == ProjectStatusActive

/-- Go `(*Project).CanBeModified`. -/
def Project.CanBeModified (p : Project) : Bool :=
  p.Status == ProjectStatusDraft || p.Status == ProjectStatusActive

/-! ## Users (`internal/core/entity/user.go`) -/

/-- Go `UserRole`, a string type. -/
abbrev UserRole := String

def UserRoleAdmin : UserRole := "ADMIN"
def UserRoleManager : UserRole := "MANAGER"
def UserRoleAccountant : UserRole := "ACCOUNTANT"
def UserRoleViewer : UserRole := "VIEWER"

/-- Go `User`. `LastLoginAt` is a pointer, `none` for nil. -/
structure User where
  ID : UUID
  TenantID : UUID
  Email : String
  PasswordHash : String
  FirstName : String
  LastName : String
  Role : UserRole
  IsActive : Bool
  LastLoginAt : Option Time
  CreatedAt : Time
  UpdatedAt : Time
  deriving DecidableEq, Repr

/-- Go `NewUser`; `id` is the value of `uuid.New()` and `now` the reading of
`time.Now()`. -/
def NewUser (id : UUID) (now : Time) (tenantID : UUID) (email firstName lastName : String)
    (role : UserRole) : User :=
  { ID := id
    TenantID := tenantID
    Email := email
    PasswordHash := ""
    FirstName := firstName
    LastName := lastName
    Role := role
    IsActive := true
    LastLoginAt := none
    CreatedAt := now
    UpdatedAt := now }

/-- Go `(*User).FullName`. -/
def User.FullName (u : User) : String :=
  u.FirstName ++ " " ++ u.LastName

/-- Go `(*User).CanManageProjects`. -/
def User.CanManageProjects (u : User) : Bool :=
  u.Role == UserRoleAdmin || u.Role == UserRoleManager

/-- Go `(*User).CanViewFinancials`. -/
def User.CanViewFinancials (u : User) : Bool :=
  u.Role == UserRoleAdmin || u.Role == UserRoleManager || u.Role == UserRoleAccountant

/-- Go `(*User).CanApprovePayments`. -/
def User.CanApprovePayments (u : User) : Bool :=
  u.Role == UserRoleAdmin || u.Role == UserRoleManager

/-! ## Balance recomputation (`internal/core/service/ledger.go`) -/

/-- One iteration of the loop of `CalculateBalance`: the `switch` on the type of
the transaction. A type without a case leaves the balance as it is. -/
def balanceLoopBody (balance : Int) (tx : Transaction) : Int :=
  if tx.TxType = TransactionTypeInvoice then add64 balance tx.AmountCents
  else if tx.TxType = TransactionTypePayment then sub64 balance tx.AmountCents
  else if tx.TxType = TransactionTypeRetainageHeld then balance
  else if tx.TxType = TransactionTypeRetainageRelease then sub64 balance tx.AmountCents
  else if tx.TxType = TransactionTypeDeduction then sub64 balance tx.AmountCents
  else balance

/-- Go `(*LedgerService).CalculateBalance`; the receiver is not read. -/
def LedgerService.CalculateBalance {σ : Type} (_s : LedgerService σ)
    (transactions : List Transaction) : Int :=
  transactions.foldl balanceLoopBody 0

/-! ## Report tool (`tools/generate_report.go`) -/

namespace ReportTool

/-- Go `AIABillingInput` of the report tool. -/
structure AIABillingInput where
  ProjectName : String
  ProjectCode : String
  ContractorName : String
  OwnerName : String
  ArchitectName : String
  ContractDate : String
  ApplicationNo : Int
  PeriodTo : String
  OriginalContractSum : Int
  NetChangeByChangeOrders : Int
  TotalCompletedAndStoredToDate : Int
  RetainagePercent : Int
  LessPreviousCertificates : Int
  WorkCompletedPreviousApp : Int
  WorkCompletedThisPeriod : Int
  MaterialsStoredToDate : Int
  deriving DecidableEq, Repr

/-- Go `AIABillingResult` of the report tool. -/
structure AIABillingResult where
  ContractSumToDate : Int
  TotalCompletedAndStored : Int
  Retainage : Int
  TotalEarnedLessRetainage : Int
  LessPreviousCertificates : Int
  CurrentPaymentDue : Int
  BalanceToFinishPlusRetain : Int
  PercentComplete : Int
  deriving DecidableEq, Repr

/-- Go `calculate` of the report tool. One retainage rate is applied to the
whole of the completed and stored amount, with no guard on its sign. The
division of the percentage is reached with a positive divisor only. The handler
of `tools/api_test_server.go` computes its retainage by the same expression. -/
def calculate (input : AIABillingInput) : AIABillingResult :=
  let contractSumToDate := add64 input.OriginalContractSum input.NetChangeByChangeOrders
  let totalCompletedAndStored :=
    add64 (add64 input.WorkCompletedPreviousApp input.WorkCompletedThisPeriod)
      input.MaterialsStoredToDate
  let retainage := quo64 (mul64 totalCompletedAndStored input.RetainagePercent) 10000
  let totalEarnedLessRetainage := sub64 totalCompletedAndStored retainage
  let lessPreviousCertificates := input.LessPreviousCertificates
  let currentPaymentDue := sub64 totalEarnedLessRetainage lessPreviousCertificates
  let balanceToFinishPlusRetain :=
    add64 (sub64 contractSumToDate totalCompletedAndStored) retainage
  let percentComplete :=
    if contractSumToDate > 0 then quo64 (mul64 totalCompletedAndStored 10000) contractSumToDate
    else 0
  { ContractSumToDate := contractSumToDate
    TotalCompletedAndStored := totalCompletedAndStored
    Retainage := retainage
    TotalEarnedLessRetainage := totalEarnedLessRetainage
    LessPreviousCertificates := lessPreviousCertificates
    CurrentPaymentDue := currentPaymentDue
    BalanceToFinishPlusRetain := balanceToFinishPlusRetain
    PercentComplete := percentComplete }

end ReportTool

/-- The input of the report tool that carries the amounts of a service input
and one retainage rate for labour and materials alike. -/
def reportInputOf (input : AIABillingInput) (rate : Int) : ReportTool.AIABillingInput :=
  { ProjectName := ""
    ProjectCode := ""
    ContractorName := ""
    OwnerName := ""
    ArchitectName := ""
    ContractDate := ""
    ApplicationNo := 1
    PeriodTo := ""
    OriginalContractSum := input.OriginalContractSum
    NetChangeByChangeOrders := input.ApprovedChangeOrders
    TotalCompletedAndStoredToDate := 0
    RetainagePercent := rate
    LessPreviousCertificates := input.PreviousCertificates
    WorkCompletedPreviousApp := input.PreviousWorkCompleted
    WorkCompletedThisPeriod := input.CurrentWorkCompleted
    MaterialsStoredToDate := input.StoredMaterials }

/-- An accepted input whose labor retainage rate is `20000` basis points, twice
the whole. -/
def excessiveRateInput : AIABillingInput :=
  { OriginalContractSum := 100000
    ApprovedChangeOrders := 0
    PreviousWorkCompleted := 10000
    CurrentWorkCompleted := 0
    StoredMaterials := 0
    PreviousCertificates := 0
    LaborRetainageRate := 20000
    MaterialRetainageRate := 0 }

/-- An accepted input with the rate `1000` for labour and materials, on which
each component is too small to retain anything while their sum is not. -/
def sameRateInput : AIABillingInput :=
  { OriginalContractSum := 100000
    ApprovedChangeOrders := 0
    PreviousWorkCompleted := 3
    CurrentWorkCompleted := 2
    StoredMaterials := 5
    PreviousCertificates := 0
    LaborRetainageRate := 1000
    MaterialRetainageRate := 1000 }

/-- An accepted input one minor unit short of completion. -/
def almostCompleteInput : AIABillingInput :=
  { OriginalContractSum := 1000000000000
    ApprovedChangeOrders := 0
    PreviousWorkCompleted := 999999999999
    CurrentWorkCompleted := 0
    StoredMaterials := 0
    PreviousCertificates := 0
    LaborRetainageRate := 1000
    MaterialRetainageRate := 500 }

/-- Two invoices whose amounts add up to `2^63`, as a transaction list. -/
def overflowingHistory : List Transaction :=
  [NewTransaction 1 100 7 TransactionTypeInvoice 9223372036854775807 "TRY" 9,
    NewTransaction 2 101 7 TransactionTypeInvoice 1 "TRY" 9]

/-- One transaction of each of the six types and one of a type outside them. -/
def auditHistory : List Transaction :=
  [NewTransaction 1 100 7 TransactionTypeInvoice 5000 "TRY" 9,
    NewTransaction 2 101 7 TransactionTypePayment 1200 "TRY" 9,
    NewTransaction 3 102 7 TransactionTypeRetainageHeld 250 "TRY" 9,
    NewTransaction 4 103 7 TransactionTypeRetainageRelease 100 "TRY" 9,
    NewTransaction 5 104 7 TransactionTypeAdjustment 77 "TRY" 9,
    NewTransaction 6 105 7 TransactionTypeDeduction 30 "TRY" 9,
    NewTransaction 7 106 7 "REFUND" 999 "TRY" 9]

/-- A store holding the transactions of `auditHistory`. -/
def auditStore : InMemoryTransactionRepository :=
  NewInMemoryTransactionRepository.runOps (auditHistory.map RepoOp.save)

/-- A store holding three retainage releases of project `7` whose amounts
`2^63 - 1`, `2^63 - 1` and `2` add up to `2^64`. -/
def wrappingReleasesStore : InMemoryTransactionRepository :=
  NewInMemoryTransactionRepository.runOps
    [RepoOp.save (NewTransaction 1 100 7 TransactionTypeRetainageRelease
        9223372036854775807 "TRY" 9),
      RepoOp.save (NewTransaction 2 101 7 TransactionTypeRetainageRelease
        9223372036854775807 "TRY" 9),
      RepoOp.save (NewTransaction 3 102 7 TransactionTypeRetainageRelease 2 "TRY" 9)]

/-- Whether a transaction type has a case that changes the balance in the
`switch` of `CalculateBalance`. -/
def countsInBalance (t : Transaction) : Bool :=
  t.TxType = TransactionTypeInvoice || t.TxType = TransactionTypePayment ||
    t.TxType = TransactionTypeRetainageRelease || t.TxType = TransactionTypeDeduction

/-- The text left when every `,` and every `.` is removed. -/
def stripSeparatorsSpec (l : List Char) : List Char :=
  l.filter (fun c => c != ',' && c != '.')

/-- The value of a string of decimal digits, most significant digit first. -/
def numeralValueSpec (l : List Char) : Nat :=
  l.foldl (fun acc c => 10 * acc + (c.toNat - 48)) 0

/-- The groups that follow the first one, each behind its comma. -/
def commaTailSpec : List (List Char) → List Char
  | [] => []
  | g :: gs => ',' :: (g ++ commaTailSpec gs)

/-- The amount `c` of minor units after the currency prefix: the grouped numeral
of `c / 100`, a point, and the two digits of `c % 100`. -/
def amountBodySpec (c : Nat) : List Char :=
  groupThousandsSpec (decimalNumeralSpec (c / 100)) ++
    '.' :: [Nat.digitChar (c % 100 / 10 % 10), Nat.digitChar (c % 100 % 10)]

/-- A repository that counts the calls of `Save` and fails the first of them
with the error `e`: what it answers depends on its state. -/
def failOncePort (e : GoError) : TransactionRepository Nat :=
  { Save := fun calls _ => if calls = 0 then (1, some e) else (calls + 1, none) }

/-- A ledger service over the repository that fails once. -/
def failOnceLedger (e : GoError) : LedgerService Nat :=
  NewLedgerService (failOncePort e)

/-! ## Arithmetic lemmas -/

theorem wrap64_eq_self {x : Int} (h : inInt64 x) : wrap64 x = x := by
  unfold inInt64 minInt64 maxInt64 at h
  unfold wrap64
  omega

theorem wrap64_inInt64 (x : Int) : inInt64 (wrap64 x) := by
  unfold inInt64 minInt64 maxInt64 wrap64
  omega

theorem floor_rat_div (x : Int) : ⌊((x : Int) : ℚ) / 10000⌋ = x / 10000 := by
  have h := Rat.floor_intCast_div_natCast x 10000
  simpa using h

theorem tdiv_of_nonneg {a b : Int} (ha : 0 ≤ a) (hb : 0 ≤ b) : Int.tdiv a b = a / b :=
  Int.tdiv_eq_ediv ha hb

/-- On non-negative operands whose product fits in `int64`,
`calculatePercentage` is the floor division of the product by `10000`. -/
theorem calculatePercentage_of_fits {amount rate : Int} (ha : 0 ≤ amount) (hr : 0 ≤ rate)
    (hp : amount * rate ≤ maxInt64) :
    calculatePercentage amount rate = amount * rate / 10000 := by
  unfold calculatePercentage
  by_cases hz : amount ≤ 0 ∨ rate ≤ 0
  · rw [if_pos hz]
    have h0 : amount * rate = 0 := by
      rcases hz with h | h
      · have : amount = 0 := le_antisymm h ha
        simp [this]
      · have : rate = 0 := le_antisymm h hr
        simp [this]
    simp [h0]
  · rw [if_neg hz]
    have hnn : 0 ≤ amount * rate := mul_nonneg ha hr
    have hin : inInt64 (amount * rate) := by
      unfold inInt64 minInt64 maxInt64
      unfold maxInt64 at hp
      omega
    unfold quo64 mul64
    rw [wrap64_eq_self hin, tdiv_of_nonneg hnn (by decide)]
    apply wrap64_eq_self
    unfold inInt64 minInt64 maxInt64
    unfold maxInt64 at hp
    omega

/-- A validated input makes `Calculate` return a result, whose fields are the
eleven assignments of the source. -/
theorem Calculate_of_valid {input : AIABillingInput} (hv : validateInput input = none) :
    Calculate input = GoResult.ok
      { ContractSum := add64 input.OriginalContractSum input.ApprovedChangeOrders
        TotalWorkCompleted := add64 input.PreviousWorkCompleted input.CurrentWorkCompleted
        TotalCompletedAndStored :=
          add64 (add64 input.PreviousWorkCompleted input.CurrentWorkCompleted)
            input.StoredMaterials
        LaborRetainage :=
          calculatePercentage (add64 input.PreviousWorkCompleted input.CurrentWorkCompleted)
            input.LaborRetainageRate
        MaterialRetainage :=
          calculatePercentage input.StoredMaterials input.MaterialRetainageRate
        TotalRetainage :=
          add64
            (calculatePercentage (add64 input.PreviousWorkCompleted input.CurrentWorkCompleted)
              input.LaborRetainageRate)
            (calculatePercentage input.StoredMaterials input.MaterialRetainageRate)
        TotalEarned :=
          sub64
            (add64 (add64 input.PreviousWorkCompleted input.CurrentWorkCompleted)
              input.StoredMaterials)
            (add64
              (calculatePercentage (add64 input.PreviousWorkCompleted input.CurrentWorkCompleted)
                input.LaborRetainageRate)
              (calculatePercentage input.StoredMaterials input.MaterialRetainageRate))
        LessPreviousCerts := input.PreviousCertificates
        CurrentPaymentDue :=
          sub64
            (sub64
              (add64 (add64 input.PreviousWorkCompleted input.CurrentWorkCompleted)
                input.StoredMaterials)
              (add64
                (calculatePercentage
                  (add64 input.PreviousWorkCompleted input.CurrentWorkCompleted)
                  input.LaborRetainageRate)
                (calculatePercentage input.StoredMaterials input.MaterialRetainageRate)))
            input.PreviousCertificates
        PercentComplete :=
          if add64 input.OriginalContractSum input.ApprovedChangeOrders > 0 then
            quo64
              (mul64
                (add64 (add64 input.PreviousWorkCompleted input.CurrentWorkCompleted)
                  input.StoredMaterials) 10000)
              (add64 input.OriginalContractSum input.ApprovedChangeOrders)
          else 0
        BalanceToFinish :=
          sub64 (add64 input.OriginalContractSum input.ApprovedChangeOrders)
            (add64 (add64 input.PreviousWorkCompleted input.CurrentWorkCompleted)
              input.StoredMaterials) } := by
  unfold Calculate
  rw [hv]
  by_cases hc : add64 input.OriginalContractSum input.ApprovedChangeOrders > 0
  · have hne : add64 input.OriginalContractSum input.ApprovedChangeOrders ≠ 0 := ne_of_gt hc
    simp only [if_pos hc, div64, if_neg hne]
  · simp only [if_neg hc]

/-- The four sign checks of `validateInput`. -/
theorem validateInput_eq_none_iff (input : AIABillingInput) :
    validateInput input = none ↔
      0 ≤ input.OriginalContractSum ∧ 0 ≤ input.PreviousWorkCompleted ∧
      0 ≤ input.CurrentWorkCompleted ∧ 0 ≤ input.StoredMaterials := by
  unfold validateInput
  split_ifs with h1 h2 h3
  · simp; omega
  · simp; omega
  · simp; omega
  · simp; omega

theorem validateInput_contract {input : AIABillingInput}
    (h : input.OriginalContractSum < 0) :
    validateInput input = some EntityError.ErrInvalidContractAmount := by
  unfold validateInput
  rw [if_pos h]

theorem validateInput_amount {input : AIABillingInput}
    (h0 : 0 ≤ input.OriginalContractSum)
    (h : input.PreviousWorkCompleted < 0 ∨ input.CurrentWorkCompleted < 0 ∨
      input.StoredMaterials < 0) :
    validateInput input = some EntityError.ErrInvalidAmount := by
  unfold validateInput
  rw [if_neg (not_lt.mpr h0)]
  split_ifs with h2 h3
  · rfl
  · rfl
  · exfalso
    rcases h with h | h | h
    · exact h2 (Or.inl h)
    · exact h2 (Or.inr h)
    · exact h3 h

theorem Calculate_of_invalid {input : AIABillingInput} {e : EntityError}
    (h : validateInput input = some e) : Calculate input = GoResult.err e := by
  unfold Calculate
  rw [h]

theorem validateInput_of_ok {input : AIABillingInput} {r : AIABillingResult}
    (h : Calculate input = GoResult.ok r) : validateInput input = none := by
  cases hv : validateInput input with
  | none => rfl
  | some e =>
    rw [Calculate_of_invalid hv] at h
    cases h

/-- The eleven assignments of `Calculate`, read off a returned result. -/
theorem Calculate_fields {input : AIABillingInput} {r : AIABillingResult}
    (h : Calculate input = GoResult.ok r) :
    r.ContractSum = add64 input.OriginalContractSum input.ApprovedChangeOrders ∧
    r.TotalWorkCompleted = add64 input.PreviousWorkCompleted input.CurrentWorkCompleted ∧
    r.TotalCompletedAndStored = add64 r.TotalWorkCompleted input.StoredMaterials ∧
    r.LaborRetainage = calculatePercentage r.TotalWorkCompleted input.LaborRetainageRate ∧
    r.MaterialRetainage =
      calculatePercentage input.StoredMaterials input.MaterialRetainageRate ∧
    r.TotalRetainage = add64 r.LaborRetainage r.MaterialRetainage ∧
    r.TotalEarned = sub64 r.TotalCompletedAndStored r.TotalRetainage ∧
    r.LessPreviousCerts = input.PreviousCertificates ∧
    r.CurrentPaymentDue = sub64 r.TotalEarned r.LessPreviousCerts ∧
    r.PercentComplete =
      (if r.ContractSum > 0 then quo64 (mul64 r.TotalCompletedAndStored 10000) r.ContractSum
       else 0) ∧
    r.BalanceToFinish = sub64 r.ContractSum r.TotalCompletedAndStored := by
  have hv := validateInput_of_ok h
  rw [Calculate_of_valid hv] at h
  cases h
  exact ⟨rfl, rfl, rfl, rfl, rfl, rfl, rfl, rfl, rfl, rfl, rfl⟩

/-! ## Retainage (C1 to C4) -/

/-- C1 (counterexample): on an accepted, well-formed input with labor rate `-1`
and material product `10^15 * 10000`, the labor retainage is `0` where the floor
formula gives `-1`, and the material retainage is `-844674407370955` where the
floor formula gives `10^15`. -/
theorem Calculate_retainage_floor_fails :
    retainageOffDomainInput.wellFormed ∧
    ∃ r, Calculate retainageOffDomainInput = GoResult.ok r ∧
      r.LaborRetainage = 0 ∧
      ⌊((r.TotalWorkCompleted * retainageOffDomainInput.LaborRetainageRate : Int) : ℚ)
        / 10000⌋ = -1 ∧
      r.MaterialRetainage = -844674407370955 ∧
      ⌊((retainageOffDomainInput.StoredMaterials *
          retainageOffDomainInput.MaterialRetainageRate : Int) : ℚ) / 10000⌋
        = 1000000000000000 := by
  refine ⟨by decide, _, rfl, by decide, ?_, by decide, ?_⟩
  · rw [floor_rat_div]
    decide
  · rw [floor_rat_div]
    decide

/-- Whatever its arguments, the value of `calculatePercentage` is a ten-thousandth
of an `int64`. -/
theorem calculatePercentage_range (amount rate : Int) :
    -922337203685477 ≤ calculatePercentage amount rate ∧
    calculatePercentage amount rate ≤ 922337203685477 := by
  unfold calculatePercentage
  split_ifs
  · exact ⟨by decide, by decide⟩
  · unfold quo64 mul64
    have hw := wrap64_inInt64 (amount * rate)
    generalize wrap64 (amount * rate) = w at hw
    unfold inInt64 minInt64 maxInt64 at hw
    have hq : -922337203685477 ≤ Int.tdiv w 10000 ∧ Int.tdiv w 10000 ≤ 922337203685477 := by
      by_cases h0 : 0 ≤ w
      · rw [Int.tdiv_eq_ediv h0 (by decide)]
        omega
      · have hneg : w = -(-w) := by omega
        rw [hneg, Int.neg_tdiv, Int.tdiv_eq_ediv (by omega) (by decide)]
        omega
    generalize Int.tdiv w 10000 = q at hq
    unfold wrap64
    omega

/-- C1 (amended): for every accepted input `Calculate` returns a result with
`TotalRetainage = LaborRetainage + MaterialRetainage`. In it
`LaborRetainage = floor (TotalWorkCompleted * LaborRetainageRate / 10000)`
whenever `TotalWorkCompleted ≥ 0` (the work sum has not wrapped), the labor rate
is non-negative and the product is at most `2^63 - 1`, and
`MaterialRetainage = floor (StoredMaterials * MaterialRetainageRate / 10000)`
whenever the material rate is non-negative and the product is at most
`2^63 - 1`. A component whose rate is zero or negative is `0`. -/
theorem Calculate_retainage_floor (input : AIABillingInput)
    (hv : validateInput input = none) :
    ∃ r, Calculate input = GoResult.ok r ∧
      r.TotalRetainage = r.LaborRetainage + r.MaterialRetainage ∧
      (0 ≤ r.TotalWorkCompleted → 0 ≤ input.LaborRetainageRate →
        r.TotalWorkCompleted * input.LaborRetainageRate ≤ maxInt64 →
        r.LaborRetainage =
          ⌊((r.TotalWorkCompleted * input.LaborRetainageRate : Int) : ℚ) / 10000⌋) ∧
      (0 ≤ input.MaterialRetainageRate →
        input.StoredMaterials * input.MaterialRetainageRate ≤ maxInt64 →
        r.MaterialRetainage =
          ⌊((input.StoredMaterials * input.MaterialRetainageRate : Int) : ℚ) / 10000⌋) ∧
      (input.LaborRetainageRate ≤ 0 → r.LaborRetainage = 0) ∧
      (input.MaterialRetainageRate ≤ 0 → r.MaterialRetainage = 0) := by
  obtain ⟨_, _, _, hs⟩ := (validateInput_eq_none_iff input).1 hv
  obtain ⟨r, hr⟩ : ∃ r, Calculate input = GoResult.ok r := ⟨_, Calculate_of_valid hv⟩
  obtain ⟨_, _, _, h4, h5, h6, _⟩ := Calculate_fields hr
  refine ⟨r, hr, ?_, ?_, ?_, ?_, ?_⟩
  · have bL := calculatePercentage_range r.TotalWorkCompleted input.LaborRetainageRate
    have bM := calculatePercentage_range input.StoredMaterials input.MaterialRetainageRate
    rw [← h4] at bL
    rw [← h5] at bM
    rw [h6]
    apply wrap64_eq_self
    unfold inInt64 minInt64 maxInt64
    omega
  · intro hw hl hp
    rw [h4, calculatePercentage_of_fits hw hl hp, floor_rat_div]
  · intro hm hp
    rw [h5, calculatePercentage_of_fits hs hm hp, floor_rat_div]
  · intro hl
    rw [h4]
    unfold calculatePercentage
    rw [if_pos (Or.inr hl)]
  · intro hm
    rw [h5]
    unfold calculatePercentage
    rw [if_pos (Or.inr hm)]

/-- C1 (witness): the amended statement at the boundary rates `10000` and `0`
with the labor product just below `2^63`. -/
theorem Calculate_retainage_floor_witness :
    validateInput retainageBoundaryInput = none ∧
    ∃ r, Calculate retainageBoundaryInput = GoResult.ok r ∧
      r.TotalRetainage = r.LaborRetainage + r.MaterialRetainage ∧
      r.LaborRetainage =
        ⌊((r.TotalWorkCompleted * retainageBoundaryInput.LaborRetainageRate : Int) : ℚ)
          / 10000⌋ ∧
      r.MaterialRetainage =
        ⌊((retainageBoundaryInput.StoredMaterials *
          retainageBoundaryInput.MaterialRetainageRate : Int) : ℚ) / 10000⌋ ∧
      r.MaterialRetainage = 0 := by
  obtain ⟨r, hr, h1, h2, h3, _, h5⟩ :=
    Calculate_retainage_floor retainageBoundaryInput (by decide)
  have e2 : r.TotalWorkCompleted = 922337203685477 :=
    (Calculate_fields hr).2.1.trans (by decide)
  refine ⟨by decide, r, hr, h1, h2 ?_ (by decide) ?_, h3 (by decide) (by decide),
    h5 (by decide)⟩
  · rw [e2]
    decide
  · rw [e2]
    decide

/-- C2: for `0 < amount ≤ 10^12` and `0 < rate ≤ 10000`, the product
`amount * rate` fits in `int64` and `calculatePercentage amount rate` is the
mathematical `floor (amount * rate / 10000)`. -/
theorem calculatePercentage_exact_realistic (amount rate : Int)
    (ha : 0 < amount) (ha2 : amount ≤ 1000000000000)
    (hr : 0 < rate) (hr2 : rate ≤ 10000) :
    inInt64 (amount * rate) ∧
    calculatePercentage amount rate = ⌊((amount * rate : Int) : ℚ) / 10000⌋ := by
  have hub : amount * rate ≤ 1000000000000 * 10000 :=
    mul_le_mul ha2 hr2 (le_of_lt hr) (by decide)
  have hnn : 0 ≤ amount * rate := mul_nonneg (le_of_lt ha) (le_of_lt hr)
  have hfit : amount * rate ≤ maxInt64 := by
    unfold maxInt64
    omega
  refine ⟨?_, ?_⟩
  · unfold inInt64 minInt64
    exact ⟨by omega, hfit⟩
  · rw [floor_rat_div]
    exact calculatePercentage_of_fits (le_of_lt ha) (le_of_lt hr) hfit

/-- C2 (witness): the upper corner `amount = 10^12`, `rate = 10000`. -/
theorem calculatePercentage_exact_realistic_witness :
    inInt64 (1000000000000 * 10000) ∧
    calculatePercentage 1000000000000 10000 =
      ⌊((1000000000000 * 10000 : Int) : ℚ) / 10000⌋ :=
  calculatePercentage_exact_realistic 1000000000000 10000 (by decide) (by decide)
    (by decide) (by decide)

/-- C3 (failing input): `amount = 10^15` cents (ten trillion dollars, below the
`9.2 * 10^15` of the source comment) and `rate = 10000` lie in the claimed
domain, yet the `int64` product wraps and `calculatePercentage` returns
`-844674407370955` where the floor formula gives `10^15`. -/
theorem calculatePercentage_overflow_below_threshold :
    (0 : Int) < 1000000000000000 ∧ (1000000000000000 : Int) ≤ 9200000000000000 ∧
    (0 : Int) < 10000 ∧ (10000 : Int) ≤ 10000 ∧
    ¬ inInt64 (1000000000000000 * 10000) ∧
    calculatePercentage 1000000000000000 10000 = -844674407370955 ∧
    ⌊((1000000000000000 * 10000 : Int) : ℚ) / 10000⌋ = 1000000000000000 := by
  refine ⟨by decide, by decide, by decide, by decide, by decide, by decide, ?_⟩
  rw [floor_rat_div]
  decide

/-- C4: `calculatePercentage amount rate = 0` whenever `amount ≤ 0` or
`rate ≤ 0`; in particular the result is then never negative. -/
theorem calculatePercentage_nonpositive (amount rate : Int)
    (h : amount ≤ 0 ∨ rate ≤ 0) :
    calculatePercentage amount rate = 0 ∧ ¬ calculatePercentage amount rate < 0 := by
  have h0 : calculatePercentage amount rate = 0 := by
    unfold calculatePercentage
    rw [if_pos h]
  exact ⟨h0, by rw [h0]; decide⟩

/-- C4 (witness): a negative rate on the most negative amount. -/
theorem calculatePercentage_nonpositive_witness :
    (minInt64 ≤ 0 ∨ (-1000 : Int) ≤ 0) ∧
    calculatePercentage minInt64 (-1000) = 0 ∧
    ¬ calculatePercentage minInt64 (-1000) < 0 :=
  ⟨by decide, calculatePercentage_nonpositive minInt64 (-1000) (by decide)⟩

/-! ## Validation (C5) -/

/-- C5: `Calculate` returns an error exactly when one of `OriginalContractSum`,
`PreviousWorkCompleted`, `CurrentWorkCompleted`, `StoredMaterials` is negative;
the error is `ErrInvalidContractAmount` exactly when `OriginalContractSum < 0`
and `ErrInvalidAmount` exactly when it is not but one of the other three is
negative; every other input returns a result, whatever the remaining four
fields are, and no input makes it panic. -/
theorem Calculate_error_iff (input : AIABillingInput) :
    ((∃ e, Calculate input = GoResult.err e) ↔
      (input.OriginalContractSum < 0 ∨ input.PreviousWorkCompleted < 0 ∨
        input.CurrentWorkCompleted < 0 ∨ input.StoredMaterials < 0)) ∧
    (Calculate input = GoResult.err EntityError.ErrInvalidContractAmount ↔
      input.OriginalContractSum < 0) ∧
    (Calculate input = GoResult.err EntityError.ErrInvalidAmount ↔
      (0 ≤ input.OriginalContractSum ∧ (input.PreviousWorkCompleted < 0 ∨
        input.CurrentWorkCompleted < 0 ∨ input.StoredMaterials < 0))) ∧
    ((∃ r, Calculate input = GoResult.ok r) ↔
      (0 ≤ input.OriginalContractSum ∧ 0 ≤ input.PreviousWorkCompleted ∧
        0 ≤ input.CurrentWorkCompleted ∧ 0 ≤ input.StoredMaterials)) ∧
    Calculate input ≠ GoResult.divideByZero := by
  by_cases h0 : input.OriginalContractSum < 0
  · have hc := Calculate_of_invalid (validateInput_contract h0)
    rw [hc]
    simp [h0]
  · have h0n : 0 ≤ input.OriginalContractSum := not_lt.mp h0
    by_cases h1 : input.PreviousWorkCompleted < 0 ∨ input.CurrentWorkCompleted < 0 ∨
        input.StoredMaterials < 0
    · have hc := Calculate_of_invalid (validateInput_amount h0n h1)
      rw [hc]
      simp [h0, h0n, h1]
      intro hp hcur
      rcases h1 with h | h | h <;> omega
    · have hv : validateInput input = none := by
        rw [validateInput_eq_none_iff]
        omega
      rw [Calculate_of_valid hv]
      simp [h0, h0n, h1]
      omega

/-! ## Result fields (C6 to C10) -/

/-- C6 (counterexample): with `OriginalContractSum = 2^63 - 1` and
`ApprovedChangeOrders = 1` the input is accepted and `ContractSum` is `-2^63`,
not the integer sum `2^63`. -/
theorem Calculate_contractSum_wraps :
    contractSumOverflowInput.wellFormed ∧
    ∃ r, Calculate contractSumOverflowInput = GoResult.ok r ∧
      r.ContractSum = -9223372036854775808 ∧
      r.ContractSum ≠ contractSumOverflowInput.OriginalContractSum +
        contractSumOverflowInput.ApprovedChangeOrders :=
  ⟨by decide, _, rfl, by decide, by decide⟩

/-- C6 (amended): for every input accepted by `Calculate` whose integer sum
`OriginalContractSum + ApprovedChangeOrders` is representable in `int64`,
`ContractSum` is exactly that sum. -/
theorem Calculate_contractSum (input : AIABillingInput) (r : AIABillingResult)
    (h : Calculate input = GoResult.ok r)
    (hfit : inInt64 (input.OriginalContractSum + input.ApprovedChangeOrders)) :
    r.ContractSum = input.OriginalContractSum + input.ApprovedChangeOrders := by
  rw [(Calculate_fields h).1]
  exact wrap64_eq_self hfit

/-- C6 (witness): the basic test input, with contract sum `105000000`. -/
theorem Calculate_contractSum_witness :
    Calculate basicInput = GoResult.ok basicResult ∧
    inInt64 (basicInput.OriginalContractSum + basicInput.ApprovedChangeOrders) ∧
    basicResult.ContractSum =
      basicInput.OriginalContractSum + basicInput.ApprovedChangeOrders :=
  ⟨by decide, by decide, Calculate_contractSum basicInput basicResult (by decide) (by decide)⟩

/-- C7 (counterexample): on an accepted, well-formed input three of the stated
equalities fail over the integers: `TotalCompletedAndStored` is `-2^63` where
`TotalWorkCompleted + StoredMaterials` is `2^63`, and `TotalEarned` and
`CurrentPaymentDue` differ from the stated differences as well. -/
theorem Calculate_totals_wrap :
    totalsOverflowInput.wellFormed ∧
    ∃ r, Calculate totalsOverflowInput = GoResult.ok r ∧
      r.TotalWorkCompleted = 9223372036854775807 ∧
      r.TotalCompletedAndStored = -9223372036854775808 ∧
      r.TotalCompletedAndStored ≠
        r.TotalWorkCompleted + totalsOverflowInput.StoredMaterials ∧
      r.TotalRetainage = 922337203685477 ∧
      r.TotalEarned = 9222449699651090331 ∧
      r.TotalEarned ≠ r.TotalCompletedAndStored - r.TotalRetainage ∧
      r.CurrentPaymentDue = -9223372036854775808 ∧
      r.CurrentPaymentDue ≠ r.TotalEarned - totalsOverflowInput.PreviousCertificates :=
  ⟨by decide, _, rfl, by decide, by decide, by decide, by decide, by decide, by decide,
    by decide, by decide⟩

/-- C7 (amended): for every input accepted by `Calculate`,
`LessPreviousCerts = PreviousCertificates`, and each of
`TotalWorkCompleted = PreviousWorkCompleted + CurrentWorkCompleted`,
`TotalCompletedAndStored = TotalWorkCompleted + StoredMaterials`,
`TotalEarned = TotalCompletedAndStored - TotalRetainage` and
`CurrentPaymentDue = TotalEarned - PreviousCertificates` holds whenever its
right-hand side, computed over the integers, is representable in `int64`. -/
theorem Calculate_totals (input : AIABillingInput) (r : AIABillingResult)
    (h : Calculate input = GoResult.ok r) :
    (inInt64 (input.PreviousWorkCompleted + input.CurrentWorkCompleted) →
      r.TotalWorkCompleted = input.PreviousWorkCompleted + input.CurrentWorkCompleted) ∧
    (inInt64 (r.TotalWorkCompleted + input.StoredMaterials) →
      r.TotalCompletedAndStored = r.TotalWorkCompleted + input.StoredMaterials) ∧
    (inInt64 (r.TotalCompletedAndStored - r.TotalRetainage) →
      r.TotalEarned = r.TotalCompletedAndStored - r.TotalRetainage) ∧
    r.LessPreviousCerts = input.PreviousCertificates ∧
    (inInt64 (r.TotalEarned - input.PreviousCertificates) →
      r.CurrentPaymentDue = r.TotalEarned - input.PreviousCertificates) := by
  obtain ⟨_, h2, h3, _, _, _, h7, h8, h9, _, _⟩ := Calculate_fields h
  refine ⟨?_, ?_, ?_, h8, ?_⟩
  · intro hfit
    rw [h2]
    exact wrap64_eq_self hfit
  · intro hfit
    rw [h3]
    exact wrap64_eq_self hfit
  · intro hfit
    rw [h7]
    exact wrap64_eq_self hfit
  · intro hfit
    rw [h9, h8]
    exact wrap64_eq_self hfit

/-- C7 (witness): on the basic test input all five equalities hold. -/
theorem Calculate_totals_witness :
    Calculate basicInput = GoResult.ok basicResult ∧
    basicResult.TotalWorkCompleted =
      basicInput.PreviousWorkCompleted + basicInput.CurrentWorkCompleted ∧
    basicResult.TotalCompletedAndStored =
      basicResult.TotalWorkCompleted + basicInput.StoredMaterials ∧
    basicResult.TotalEarned =
      basicResult.TotalCompletedAndStored - basicResult.TotalRetainage ∧
    basicResult.LessPreviousCerts = basicInput.PreviousCertificates ∧
    basicResult.CurrentPaymentDue =
      basicResult.TotalEarned - basicInput.PreviousCertificates :=
  have H := Calculate_totals basicInput basicResult (by decide)
  ⟨by decide, H.1 (by decide), H.2.1 (by decide), H.2.2.1 (by decide), H.2.2.2.1,
    H.2.2.2.2 (by decide)⟩

/-- C8: for every input accepted by `Calculate` whose work and stored-material
amounts are at most `10^12` in magnitude (the bound is not needed on the
remaining monetary fields, nor on the rates), the product
`TotalCompletedAndStored * 10000` fits in `int64` and `PercentComplete` is the
truncated quotient of that product by `ContractSum` when `ContractSum > 0`, and
`0` when `ContractSum ≤ 0`. -/
theorem Calculate_percentComplete (input : AIABillingInput) (r : AIABillingResult)
    (h : Calculate input = GoResult.ok r)
    (b3 : |input.PreviousWorkCompleted| ≤ 1000000000000)
    (b4 : |input.CurrentWorkCompleted| ≤ 1000000000000)
    (b5 : |input.StoredMaterials| ≤ 1000000000000) :
    inInt64 (r.TotalCompletedAndStored * 10000) ∧
    r.PercentComplete =
      (if 0 < r.ContractSum then Int.tdiv (r.TotalCompletedAndStored * 10000) r.ContractSum
       else 0) := by
  obtain ⟨_, hp, hc, hs⟩ := (validateInput_eq_none_iff input).1 (validateInput_of_ok h)
  obtain ⟨h1, h2, h3, _, _, _, _, _, _, h10, _⟩ := Calculate_fields h
  rw [abs_le] at b3 b4 b5
  have e2 : r.TotalWorkCompleted =
      input.PreviousWorkCompleted + input.CurrentWorkCompleted := by
    rw [h2]
    apply wrap64_eq_self
    unfold inInt64 minInt64 maxInt64
    omega
  have e3 : r.TotalCompletedAndStored =
      input.PreviousWorkCompleted + input.CurrentWorkCompleted + input.StoredMaterials := by
    rw [h3, e2]
    apply wrap64_eq_self
    unfold inInt64 minInt64 maxInt64
    omega
  have hT0 : 0 ≤ r.TotalCompletedAndStored * 10000 := by omega
  have hT1 : r.TotalCompletedAndStored * 10000 ≤ 30000000000000000 := by omega
  have hin : inInt64 (r.TotalCompletedAndStored * 10000) := by
    unfold inInt64 minInt64 maxInt64
    omega
  refine ⟨hin, ?_⟩
  rw [h10]
  by_cases hpos : 0 < r.ContractSum
  · have hgt : r.ContractSum > 0 := hpos
    rw [if_pos hgt, if_pos hpos]
    unfold quo64 mul64
    rw [wrap64_eq_self hin, tdiv_of_nonneg hT0 (le_of_lt hpos)]
    apply wrap64_eq_self
    have q0 : 0 ≤ r.TotalCompletedAndStored * 10000 / r.ContractSum :=
      Int.ediv_nonneg hT0 (le_of_lt hpos)
    have q1 : r.TotalCompletedAndStored * 10000 / r.ContractSum ≤
        r.TotalCompletedAndStored * 10000 := Int.ediv_le_self _ hT0
    unfold inInt64 minInt64 maxInt64
    omega
  · have hgt : ¬ r.ContractSum > 0 := hpos
    rw [if_neg hgt, if_neg hpos]

/-- C8 (witness): on the basic test input `PercentComplete` is
`500000000000 / 105000000 = 4761`. -/
theorem Calculate_percentComplete_witness :
    Calculate basicInput = GoResult.ok basicResult ∧
    inInt64 (basicResult.TotalCompletedAndStored * 10000) ∧
    basicResult.PercentComplete =
      (if 0 < basicResult.ContractSum then
        Int.tdiv (basicResult.TotalCompletedAndStored * 10000) basicResult.ContractSum
       else 0) :=
  ⟨by decide, Calculate_percentComplete basicInput basicResult (by decide) (by decide)
    (by decide) (by decide)⟩

/-- C9 (counterexample): on an accepted, well-formed input with `ContractSum = 0`
whose work sum has wrapped, `TotalCompletedAndStored` and `BalanceToFinish` are
both `-2^63`, so `BalanceToFinish` is not the integer `-TotalCompletedAndStored`. -/
theorem Calculate_zero_contractSum_balance_fails :
    zeroContractWrappedInput.wellFormed ∧
    ∃ r, Calculate zeroContractWrappedInput = GoResult.ok r ∧
      r.ContractSum = 0 ∧
      r.TotalCompletedAndStored = -9223372036854775808 ∧
      r.BalanceToFinish = -9223372036854775808 ∧
      r.BalanceToFinish ≠ -r.TotalCompletedAndStored :=
  ⟨by decide, _, rfl, by decide, by decide, by decide, by decide⟩

/-- C9 (amended): for every accepted input with `ContractSum = 0`, `Calculate`
returns a result (no division by zero) with `PercentComplete = 0`, and
`BalanceToFinish = -TotalCompletedAndStored` unless `TotalCompletedAndStored`
is `-2^63`, in which case `BalanceToFinish` is `-2^63` as well. -/
theorem Calculate_zero_contractSum (input : AIABillingInput)
    (hv : validateInput input = none)
    (hcs : add64 input.OriginalContractSum input.ApprovedChangeOrders = 0) :
    ∃ r, Calculate input = GoResult.ok r ∧
      r.ContractSum = 0 ∧
      r.PercentComplete = 0 ∧
      ((r.TotalCompletedAndStored ≠ minInt64 ∧
          r.BalanceToFinish = -r.TotalCompletedAndStored) ∨
        (r.TotalCompletedAndStored = minInt64 ∧ r.BalanceToFinish = minInt64)) := by
  obtain ⟨r, hr⟩ : ∃ r, Calculate input = GoResult.ok r := ⟨_, Calculate_of_valid hv⟩
  obtain ⟨h1, _, h3, _, _, _, _, _, _, h10, h11⟩ := Calculate_fields hr
  have hc0 : r.ContractSum = 0 := by rw [h1, hcs]
  have hT : inInt64 r.TotalCompletedAndStored := by
    rw [h3]
    exact wrap64_inInt64 _
  refine ⟨r, hr, hc0, ?_, ?_⟩
  · rw [h10, hc0]
    exact if_neg (by decide)
  · rw [h11, hc0]
    unfold inInt64 minInt64 maxInt64 at hT
    unfold sub64 wrap64 minInt64
    omega

/-- C9 (witness): a deductive change order cancelling the original sum. -/
theorem Calculate_zero_contractSum_witness :
    validateInput cancelledContractInput = none ∧
    add64 cancelledContractInput.OriginalContractSum
      cancelledContractInput.ApprovedChangeOrders = 0 ∧
    ∃ r, Calculate cancelledContractInput = GoResult.ok r ∧
      r.ContractSum = 0 ∧
      r.PercentComplete = 0 ∧
      ((r.TotalCompletedAndStored ≠ minInt64 ∧
          r.BalanceToFinish = -r.TotalCompletedAndStored) ∨
        (r.TotalCompletedAndStored = minInt64 ∧ r.BalanceToFinish = minInt64)) :=
  ⟨by decide, by decide,
    Calculate_zero_contractSum cancelledContractInput (by decide) (by decide)⟩

/-- C10 (counterexample): on an accepted, well-formed input with
`ContractSum = -5 * 10^18` and `TotalCompletedAndStored = 5 * 10^18`, completion
exceeds the contract sum and yet `BalanceToFinish` is `8446744073709551616`:
positive, and not the integer difference `-10^19`. -/
theorem Calculate_balance_wraps :
    balanceOverflowInput.wellFormed ∧
    ∃ r, Calculate balanceOverflowInput = GoResult.ok r ∧
      r.ContractSum = -5000000000000000000 ∧
      r.TotalCompletedAndStored = 5000000000000000000 ∧
      r.TotalCompletedAndStored > r.ContractSum ∧
      r.BalanceToFinish = 8446744073709551616 ∧
      r.BalanceToFinish ≠ r.ContractSum - r.TotalCompletedAndStored ∧
      ¬ r.BalanceToFinish < 0 :=
  ⟨by decide, _, rfl, by decide, by decide, by decide, by decide, by decide, by decide⟩

/-- C10 (amended): for every input accepted by `Calculate` for which the integer
difference `ContractSum - TotalCompletedAndStored` is representable in `int64`,
`BalanceToFinish` is exactly that difference, unclamped, and is strictly
negative whenever `TotalCompletedAndStored > ContractSum`. -/
theorem Calculate_balance (input : AIABillingInput) (r : AIABillingResult)
    (h : Calculate input = GoResult.ok r)
    (hfit : inInt64 (r.ContractSum - r.TotalCompletedAndStored)) :
    r.BalanceToFinish = r.ContractSum - r.TotalCompletedAndStored ∧
    (r.TotalCompletedAndStored > r.ContractSum → r.BalanceToFinish < 0) := by
  have hb : r.BalanceToFinish = r.ContractSum - r.TotalCompletedAndStored := by
    rw [(Calculate_fields h).2.2.2.2.2.2.2.2.2.2]
    exact wrap64_eq_self hfit
  refine ⟨hb, ?_⟩
  intro hgt
  rw [hb]
  omega

/-- C10 (witness): an over-billed input, with balance `-10000000`. -/
theorem Calculate_balance_witness :
    Calculate overBilledInput = GoResult.ok overBilledResult ∧
    inInt64 (overBilledResult.ContractSum - overBilledResult.TotalCompletedAndStored) ∧
    overBilledResult.TotalCompletedAndStored > overBilledResult.ContractSum ∧
    overBilledResult.BalanceToFinish =
      overBilledResult.ContractSum - overBilledResult.TotalCompletedAndStored ∧
    overBilledResult.BalanceToFinish < 0 :=
  have H := Calculate_balance overBilledInput overBilledResult (by decide) (by decide)
  ⟨by decide, by decide, by decide, H.1, H.2 (by decide)⟩

/-! ## Scenarios (C11 to C13) -/

/-- C11: on the input of the basic test, `Calculate` succeeds with
`ContractSum = 105000000`, `TotalWorkCompleted = 45000000`,
`TotalCompletedAndStored = 50000000`, `LaborRetainage = 4500000`,
`MaterialRetainage = 250000`, `TotalRetainage = 4750000` and
`CurrentPaymentDue = 20250000`. -/
theorem Calculate_basic_scenario :
    basicInput =
      { OriginalContractSum := 100000000, ApprovedChangeOrders := 5000000,
        PreviousWorkCompleted := 30000000, CurrentWorkCompleted := 15000000,
        StoredMaterials := 5000000, PreviousCertificates := 25000000,
        LaborRetainageRate := 1000, MaterialRetainageRate := 500 } ∧
    ∃ r, Calculate basicInput = GoResult.ok r ∧
      r.ContractSum = 105000000 ∧ r.TotalWorkCompleted = 45000000 ∧
      r.TotalCompletedAndStored = 50000000 ∧ r.LaborRetainage = 4500000 ∧
      r.MaterialRetainage = 250000 ∧ r.TotalRetainage = 4750000 ∧
      r.CurrentPaymentDue = 20250000 :=
  ⟨rfl, _, rfl, by decide, by decide, by decide, by decide, by decide, by decide,
    by decide⟩

/-- C12 (counterexample): a fully completed contract of `10^15` cents is
accepted, and `PercentComplete` is `-8446`, not `10000`: the product
`10^15 * 10000` wraps before the division. -/
theorem Calculate_full_completion_wraps :
    fullCompletionLargeInput.wellFormed ∧
    fullCompletionLargeInput.CurrentWorkCompleted = 0 ∧
    fullCompletionLargeInput.StoredMaterials = 0 ∧
    ∃ r, Calculate fullCompletionLargeInput = GoResult.ok r ∧
      fullCompletionLargeInput.PreviousWorkCompleted = r.ContractSum ∧
      0 < r.ContractSum ∧
      r.PercentComplete = -8446 ∧ r.PercentComplete ≠ 10000 :=
  ⟨by decide, rfl, rfl, _, rfl, by decide, by decide, by decide, by decide⟩

/-- C12 (amended): for every input accepted by `Calculate` with
`CurrentWorkCompleted = 0`, `StoredMaterials = 0` and
`PreviousWorkCompleted = ContractSum > 0`, `BalanceToFinish = 0`, and
`PercentComplete = 10000` whenever `ContractSum * 10000` is at most `2^63 - 1`;
the rates and the previous certificates play no part. -/
theorem Calculate_full_completion (input : AIABillingInput) (r : AIABillingResult)
    (h : Calculate input = GoResult.ok r)
    (hc : input.CurrentWorkCompleted = 0) (hs : input.StoredMaterials = 0)
    (hp : input.PreviousWorkCompleted = r.ContractSum) (hpos : 0 < r.ContractSum) :
    r.BalanceToFinish = 0 ∧
    (r.ContractSum * 10000 ≤ maxInt64 → r.PercentComplete = 10000) := by
  obtain ⟨h1, h2, h3, _, _, _, _, _, _, h10, h11⟩ := Calculate_fields h
  have hin : inInt64 r.ContractSum := by
    rw [h1]
    exact wrap64_inInt64 _
  have e2 : r.TotalWorkCompleted = r.ContractSum := by
    rw [h2, hc, hp, add64, add_zero]
    exact wrap64_eq_self hin
  have e3 : r.TotalCompletedAndStored = r.ContractSum := by
    rw [h3, hs, e2, add64, add_zero]
    exact wrap64_eq_self hin
  refine ⟨?_, ?_⟩
  · rw [h11, e3, sub64, sub_self]
    decide
  · intro hfit
    have hgt : r.ContractSum > 0 := hpos
    have hprod : inInt64 (r.ContractSum * 10000) := by
      unfold inInt64 minInt64
      exact ⟨by omega, hfit⟩
    rw [h10, if_pos hgt, e3]
    unfold quo64 mul64
    rw [wrap64_eq_self hprod, tdiv_of_nonneg (by omega) (le_of_lt hpos),
      Int.mul_comm, Int.mul_ediv_cancel _ (ne_of_gt hpos)]
    decide

/-- C12 (witness): the input of the full-completion test. -/
theorem Calculate_full_completion_witness :
    Calculate fullCompletionInput = GoResult.ok fullCompletionResult ∧
    fullCompletionInput.PreviousWorkCompleted = fullCompletionResult.ContractSum ∧
    fullCompletionResult.BalanceToFinish = 0 ∧
    fullCompletionResult.PercentComplete = 10000 :=
  have H := Calculate_full_completion fullCompletionInput fullCompletionResult (by decide)
    rfl rfl rfl (by decide)
  ⟨by decide, rfl, H.1, H.2 (by decide)⟩

/-- C13: for every input accepted by `Calculate` with no work, no stored
materials and no previous certificates, `CurrentPaymentDue = 0` and
`PercentComplete = 0`, whatever the contract sum and the two rates. -/
theorem Calculate_zero_values (input : AIABillingInput) (r : AIABillingResult)
    (h : Calculate input = GoResult.ok r)
    (hp : input.PreviousWorkCompleted = 0) (hc : input.CurrentWorkCompleted = 0)
    (hs : input.StoredMaterials = 0) (hpc : input.PreviousCertificates = 0) :
    r.CurrentPaymentDue = 0 ∧ r.PercentComplete = 0 := by
  obtain ⟨_, h2, h3, h4, h5, h6, h7, h8, h9, h10, _⟩ := Calculate_fields h
  have z : wrap64 0 = 0 := by decide
  have e2 : r.TotalWorkCompleted = 0 := by rw [h2, hp, hc, add64, add_zero, z]
  have e3 : r.TotalCompletedAndStored = 0 := by rw [h3, e2, hs, add64, add_zero, z]
  have e4 : r.LaborRetainage = 0 := by
    rw [h4, e2]
    unfold calculatePercentage
    rw [if_pos (Or.inl (le_refl 0))]
  have e5 : r.MaterialRetainage = 0 := by
    rw [h5, hs]
    unfold calculatePercentage
    rw [if_pos (Or.inl (le_refl 0))]
  have e6 : r.TotalRetainage = 0 := by rw [h6, e4, e5, add64, add_zero, z]
  have e7 : r.TotalEarned = 0 := by rw [h7, e3, e6, sub64, sub_zero, z]
  refine ⟨?_, ?_⟩
  · rw [h9, e7, h8, hpc, sub64, sub_zero, z]
  · rw [h10, e3]
    split_ifs
    · unfold quo64 mul64
      rw [zero_mul, z, Int.zero_tdiv, z]
    · rfl

/-- C13 (witness): the input of the zero-values test. -/
theorem Calculate_zero_values_witness :
    Calculate zeroValuesInput = GoResult.ok zeroValuesResult ∧
    zeroValuesResult.CurrentPaymentDue = 0 ∧ zeroValuesResult.PercentComplete = 0 :=
  ⟨by decide, Calculate_zero_values zeroValuesInput zeroValuesResult (by decide)
    rfl rfl rfl rfl⟩

/-! ## Currency formatting (C15, C16) -/

theorem digitByte_eq (d : Nat) (h : d < 10) : digitByte (d : Int) = Nat.digitChar d := by
  interval_cases d <;> rfl

theorem quo64_natCast (m k : Nat) (hm : (m : Int) ≤ maxInt64) :
    quo64 (m : Int) (k : Int) = ((m / k : Nat) : Int) := by
  unfold quo64
  rw [tdiv_of_nonneg (Int.ofNat_nonneg m) (Int.ofNat_nonneg k)]
  have h1 : ((m / k : Nat) : Int) = (m : Int) / (k : Int) := Int.ofNat_ediv m k
  rw [← h1]
  apply wrap64_eq_self
  have h2 : m / k ≤ m := Nat.div_le_self m k
  generalize m / k = q at h2
  unfold inInt64 minInt64 maxInt64
  unfold maxInt64 at hm
  omega

theorem rem64_natCast (m k : Nat) (hm : (m : Int) ≤ maxInt64) :
    rem64 (m : Int) (k : Int) = ((m % k : Nat) : Int) := by
  unfold rem64
  rw [Int.tmod_eq_emod (Int.ofNat_nonneg m) (Int.ofNat_nonneg k)]
  have h1 : ((m % k : Nat) : Int) = (m : Int) % (k : Int) := Int.ofNat_emod m k
  rw [← h1]
  apply wrap64_eq_self
  have h2 : m % k ≤ m := Nat.mod_le m k
  generalize m % k = q at h2
  unfold inInt64 minInt64 maxInt64
  unfold maxInt64 at hm
  omega

/-- The loop of `itoa` writes the decimal digits of a positive `int64`, most
significant first, in front of what it was given. -/
theorem itoaLoop_eq : ∀ (fuel m : Nat) (result : List Char), m ≤ fuel →
    (m : Int) ≤ maxInt64 →
    itoaLoop fuel (m : Int) result =
      (Nat.digits 10 m).reverse.map Nat.digitChar ++ result := by
  intro fuel
  induction fuel with
  | zero =>
    intro m result hm _
    have : m = 0 := Nat.le_zero.mp hm
    subst this
    simp [itoaLoop]
  | succ fuel ih =>
    intro m result hm hmax
    unfold itoaLoop
    by_cases hpos : (m : Int) > 0
    · have hm0 : 0 < m := by omega
      have hq := quo64_natCast m 10 hmax
      have hr := rem64_natCast m 10 hmax
      simp only [Nat.cast_ofNat] at hq hr
      rw [if_pos hpos, hq, hr]
      have hle : m / 10 ≤ fuel := by omega
      have hmax2 : ((m / 10 : Nat) : Int) ≤ maxInt64 := by
        unfold maxInt64 at hmax ⊢
        omega
      rw [ih (m / 10) _ hle hmax2, digitByte_eq (m % 10) (Nat.mod_lt m (by decide))]
      rw [Nat.digits_def' (by decide) hm0]
      simp
    · have hm0 : m = 0 := by omega
      subst hm0
      simp

theorem itoa_eq (m : Nat) (hmax : (m : Int) ≤ maxInt64) :
    itoa (m : Int) = String.mk (decimalNumeralSpec m) := by
  unfold itoa decimalNumeralSpec
  by_cases h0 : m = 0
  · subst h0
    rfl
  · have h0i : (m : Int) ≠ 0 := by omega
    rw [if_neg h0i, if_neg h0, Int.toNat_natCast, itoaLoop_eq m m [] (le_refl m) hmax]
    simp

theorem decimalNumeralSpec_lt_ten (m : Nat) (h : m < 10) :
    decimalNumeralSpec m = [Nat.digitChar m] := by
  interval_cases m <;> first | rfl | simp [decimalNumeralSpec]

theorem decimalNumeralSpec_lt_hundred (m : Nat) (h1 : 10 ≤ m) (h2 : m < 100) :
    decimalNumeralSpec m = [Nat.digitChar (m / 10), Nat.digitChar (m % 10)] := by
  unfold decimalNumeralSpec
  rw [if_neg (by omega), Nat.digits_def' (by decide) (by omega),
    Nat.digits_of_lt 10 (m / 10) (by omega) (by omega)]
  simp

theorem decimalNumeralSpec_lt_thousand (m : Nat) (h1 : 100 ≤ m) (h2 : m < 1000) :
    decimalNumeralSpec m =
      [Nat.digitChar (m / 100), Nat.digitChar (m / 10 % 10), Nat.digitChar (m % 10)] := by
  unfold decimalNumeralSpec
  rw [if_neg (by omega), Nat.digits_def' (by decide) (by omega),
    Nat.digits_def' (by decide) (by omega),
    Nat.digits_of_lt 10 (m / 10 / 10) (by omega) (by omega)]
  have : m / 10 / 10 = m / 100 := by omega
  simp [this]

/-- The numeral of `n ≥ 1000` is the numeral of `n / 1000` followed by the three
digits of `n % 1000`. -/
theorem decimalNumeralSpec_ge_thousand (n : Nat) (h : 1000 ≤ n) :
    decimalNumeralSpec n = decimalNumeralSpec (n / 1000) ++
      [Nat.digitChar (n % 1000 / 100), Nat.digitChar (n % 1000 / 10 % 10),
        Nat.digitChar (n % 1000 % 10)] := by
  unfold decimalNumeralSpec
  rw [if_neg (by omega), if_neg (by omega), Nat.digits_def' (by decide) (by omega),
    Nat.digits_def' (by decide) (by omega), Nat.digits_def' (by decide) (by omega)]
  have e1 : n / 10 / 10 / 10 = n / 1000 := by omega
  have e2 : n / 10 / 10 % 10 = n % 1000 / 100 := by omega
  have e3 : n / 10 % 10 = n % 1000 / 10 % 10 := by omega
  have e4 : n % 10 = n % 1000 % 10 := by omega
  rw [e1, e2, e3, e4]
  simp

theorem padThree_eq (m : Nat) (h : m < 1000) :
    padThree (m : Int) = String.mk
      [Nat.digitChar (m / 100), Nat.digitChar (m / 10 % 10), Nat.digitChar (m % 10)] := by
  have hmax : (m : Int) ≤ maxInt64 := by
    unfold maxInt64
    omega
  unfold padThree
  rw [itoa_eq m hmax]
  by_cases h10 : m < 10
  · have e1 : m / 100 = 0 := by omega
    have e2 : m / 10 % 10 = 0 := by omega
    have e3 : m % 10 = m := by omega
    rw [if_pos (by omega), decimalNumeralSpec_lt_ten m h10, e1, e2, e3]
    rfl
  · by_cases h100 : m < 100
    · have e1 : m / 100 = 0 := by omega
      have e2 : m / 10 % 10 = m / 10 := by omega
      rw [if_neg (by omega), if_pos (by omega),
        decimalNumeralSpec_lt_hundred m (by omega) h100, e1, e2]
      rfl
    · rw [if_neg (by omega), if_neg (by omega),
        decimalNumeralSpec_lt_thousand m (by omega) h]

theorem padZero_eq (m : Nat) (h : m < 100) : padZero (m : Int) = twoDigitsSpec m := by
  have hmax : (m : Int) ≤ maxInt64 := by
    unfold maxInt64
    omega
  unfold padZero twoDigitsSpec
  rw [itoa_eq m hmax]
  by_cases h10 : m < 10
  · have e2 : m / 10 % 10 = 0 := by omega
    have e3 : m % 10 = m := by omega
    rw [if_pos (by omega), decimalNumeralSpec_lt_ten m h10, e2, e3]
    rfl
  · have e2 : m / 10 % 10 = m / 10 := by omega
    rw [if_neg (by omega), decimalNumeralSpec_lt_hundred m (by omega) h, e2]

theorem groupThousandsSpec_cons (d : Char) (rest : List Char) :
    groupThousandsSpec (d :: rest) =
      if rest ≠ [] ∧ rest.length % 3 = 0 then d :: ',' :: groupThousandsSpec rest
      else d :: groupThousandsSpec rest := rfl

theorem groupThousandsSpec_three (a b c : Char) :
    groupThousandsSpec [a, b, c] = [a, b, c] := by
  simp [groupThousandsSpec]

/-- Appending a full group of three digits to a non-empty numeral appends a
comma and the group to its grouping. -/
theorem groupThousandsSpec_append (a b c : Char) : ∀ xs : List Char, xs ≠ [] →
    groupThousandsSpec (xs ++ [a, b, c]) = groupThousandsSpec xs ++ ',' :: [a, b, c] := by
  intro xs
  induction xs with
  | nil => intro h; exact absurd rfl h
  | cons x xs ih =>
    intro _
    by_cases hxs : xs = []
    · subst hxs
      simp [groupThousandsSpec]
    · have hlen : (xs ++ [a, b, c]).length % 3 = xs.length % 3 := by
        simp [List.length_append]
      have hne : xs ++ [a, b, c] ≠ [] := by simp
      have hcons : (x :: xs) ++ [a, b, c] = x :: (xs ++ [a, b, c]) := rfl
      rw [hcons, groupThousandsSpec_cons, groupThousandsSpec_cons]
      by_cases hmod : xs.length % 3 = 0
      · rw [if_pos ⟨hne, by rw [hlen]; exact hmod⟩, if_pos ⟨hxs, hmod⟩, ih hxs]
        rfl
      · rw [if_neg (fun hh => hmod (by rw [← hlen]; exact hh.2)),
          if_neg (fun hh => hmod hh.2), ih hxs]
        rfl

/-- A numeral of at most three digits is its own grouping. -/
theorem groupThousandsSpec_small (m : Nat) (h : m < 1000) :
    groupThousandsSpec (decimalNumeralSpec m) = decimalNumeralSpec m := by
  by_cases h10 : m < 10
  · rw [decimalNumeralSpec_lt_ten m h10]
    simp [groupThousandsSpec]
  · by_cases h100 : m < 100
    · rw [decimalNumeralSpec_lt_hundred m (by omega) h100]
      simp [groupThousandsSpec]
    · rw [decimalNumeralSpec_lt_thousand m (by omega) h]
      simp [groupThousandsSpec]

theorem decimalNumeralSpec_ne_nil (n : Nat) : decimalNumeralSpec n ≠ [] := by
  unfold decimalNumeralSpec
  by_cases h : n = 0
  · rw [if_pos h]
    simp
  · rw [if_neg h]
    have hd : Nat.digits 10 n ≠ [] := by
      rw [Nat.digits_ne_nil_iff_ne_zero]
      exact h
    simp [hd]

/-- On a non-negative `int64` below `1000 ^ (fuel + 1)`, `formatNumber` with
depth bound `fuel + 1` returns the grouped numeral. -/
theorem formatNumber_eq : ∀ (fuel m : Nat), m < 1000 ^ (fuel + 1) →
    (m : Int) ≤ maxInt64 → formatNumber (fuel + 1) (m : Int) = some (groupedSpec m) := by
  intro fuel
  induction fuel with
  | zero =>
    intro m hm hmax
    have hm2 : m < 1000 := by simpa using hm
    unfold formatNumber
    rw [if_neg (by omega), if_pos (by omega), itoa_eq m hmax]
    unfold groupedSpec
    rw [groupThousandsSpec_small m hm2]
  | succ fuel ih =>
    intro m hm hmax
    unfold formatNumber
    rw [if_neg (by omega)]
    by_cases hsmall : m < 1000
    · rw [if_pos (by omega), itoa_eq m hmax]
      unfold groupedSpec
      rw [groupThousandsSpec_small m hsmall]
    · have hq := quo64_natCast m 1000 hmax
      have hr := rem64_natCast m 1000 hmax
      simp only [Nat.cast_ofNat] at hq hr
      have hlt : m / 1000 < 1000 ^ (fuel + 1) := by
        rw [Nat.div_lt_iff_lt_mul (by decide)]
        calc m < 1000 ^ (fuel + 1 + 1) := hm
          _ = 1000 ^ (fuel + 1) * 1000 := by ring
      have hmax2 : ((m / 1000 : Nat) : Int) ≤ maxInt64 := by
        unfold maxInt64 at hmax ⊢
        omega
      rw [if_neg (by omega), hq, hr, ih (m / 1000) hlt hmax2,
        padThree_eq (m % 1000) (Nat.mod_lt m (by decide))]
      unfold groupedSpec
      rw [decimalNumeralSpec_ge_thousand m (by omega),
        groupThousandsSpec_append _ _ _ _ (decimalNumeralSpec_ne_nil _)]
      simp only [Option.map_some']
      refine congrArg some ?_
      apply String.ext
      simp [String.data_append]

theorem formatWithSymbol_eq (fuel major minor : Nat) (symbol : String)
    (hmajor : major < 1000 ^ (fuel + 1)) (hmax : (major : Int) ≤ maxInt64)
    (hminor : minor < 100) :
    formatWithSymbol (fuel + 1) (major : Int) (minor : Int) symbol =
      some (symbol ++ groupedSpec major ++ "." ++ twoDigitsSpec minor) := by
  unfold formatWithSymbol
  rw [formatNumber_eq fuel major hmajor hmax, padZero_eq minor hminor]
  rfl

/-- The grouped and the two-digit numerals of the specification, on examples. -/
theorem groupedSpec_examples :
    groupedSpec 0 = "0" ∧ groupedSpec 999 = "999" ∧ groupedSpec 1234 = "1,234" ∧
    groupedSpec 10000 = "10,000" ∧ groupedSpec 1234567 = "1,234,567" ∧
    twoDigitsSpec 7 = "07" ∧ twoDigitsSpec 56 = "56" := by
  refine ⟨?_, ?_, ?_, ?_, ?_, ?_, ?_⟩ <;>
    simp [groupedSpec, twoDigitsSpec, decimalNumeralSpec, groupThousandsSpec] <;> decide

/-- The five cases of `TestFormatCurrency`, on the code and on the
specification's rendering. -/
theorem FormatCurrency_examples :
    FormatCurrency 7 123456 "TRY" = some "₺1,234.56" ∧
    FormatCurrency 7 100 "USD" = some "$1.00" ∧
    FormatCurrency 7 99 "EUR" = some "€0.99" ∧
    FormatCurrency 7 1000000 "TRY" = some "₺10,000.00" ∧
    FormatCurrency 7 0 "TRY" = some "₺0.00" ∧
    FormatCurrency 7 123456 "GBP" = some "GBP 1,234.56" := by
  refine ⟨by decide, by decide, by decide, by decide, by decide, by decide⟩

/-- C15: for every `int64` amount `cents ≥ 0` and every currency code,
`FormatCurrency` (with recursion depth at least 7) returns the prefix of the
code, the grouped numeral of `cents / 100`, a point, and the two-digit numeral
of `cents mod 100`. -/
theorem FormatCurrency_nonneg (fuel : Nat) (cents : Int) (code : String)
    (h0 : 0 ≤ cents) (hmax : cents ≤ maxInt64) (hf : 7 ≤ fuel) :
    FormatCurrency fuel cents code =
      some (currencyPrefixSpec code ++ groupedSpec (cents / 100).toNat ++ "." ++
        twoDigitsSpec (cents % 100).toNat) := by
  obtain ⟨c, rfl⟩ := Int.eq_ofNat_of_zero_le h0
  obtain ⟨f, rfl⟩ : ∃ f, fuel = f + 1 := ⟨fuel - 1, by omega⟩
  have hq := quo64_natCast c 100 hmax
  have hr := rem64_natCast c 100 hmax
  simp only [Nat.cast_ofNat] at hq hr
  have e1 : ((c : Int) / 100).toNat = c / 100 := by omega
  have e2 : ((c : Int) % 100).toNat = c % 100 := by omega
  have hmajor : c / 100 < 1000 ^ (f + 1) := by
    have hc : c / 100 < 1000 ^ 7 := by
      unfold maxInt64 at hmax
      norm_num
      omega
    exact lt_of_lt_of_le hc (Nat.pow_le_pow_right (by decide) (by omega))
  have hmax2 : ((c / 100 : Nat) : Int) ≤ maxInt64 := by
    unfold maxInt64 at hmax ⊢
    omega
  have hminor : c % 100 < 100 := Nat.mod_lt c (by decide)
  have hnn : ¬ ((c % 100 : Nat) : Int) < 0 := by omega
  unfold FormatCurrency currencyPrefixSpec
  simp only [hq, hr, if_neg hnn, e1, e2]
  split_ifs <;> exact formatWithSymbol_eq f (c / 100) (c % 100) _ hmajor hmax2 hminor

/-- C15 (witness): `123456` minor units of `TRY`. -/
theorem FormatCurrency_nonneg_witness :
    FormatCurrency 7 123456 "TRY" =
      some (currencyPrefixSpec "TRY" ++ groupedSpec ((123456 : Int) / 100).toNat ++ "." ++
        twoDigitsSpec ((123456 : Int) % 100).toNat) :=
  FormatCurrency_nonneg 7 123456 "TRY" (by decide) (by decide) (by decide)

/-- C16 (failing input): `-50` minor units of `USD` are rendered `$0.50`, the
rendering of `50`, with no minus sign; `-150` keeps its sign. -/
theorem FormatCurrency_drops_sign :
    FormatCurrency 7 (-50) "USD" = some "$0.50" ∧
    FormatCurrency 7 50 "USD" = some "$0.50" ∧
    '-' ∉ "$0.50".data ∧
    FormatCurrency 7 (-150) "USD" = some "$-1.50" := by
  refine ⟨by decide, by decide, by decide, by decide⟩

/-! ## Ledger and repository (C17 to C20) -/

/-- C18: for every `amountCents ≤ 0`, each of the four recording operations
returns no transaction and the error `ErrInvalidAmount`, and hands back the
store state it was given, whatever the `Save` of the repository would do. -/
theorem Record_rejects_nonpositive {σ : Type} (s : LedgerService σ) (store : σ)
    (id : UUID) (now : Time) (projectID : UUID) (amountCents : Int)
    (currency reference : String) (rate : Float64) (createdBy : UUID)
    (h : amountCents ≤ 0) :
    s.RecordInvoice store id now projectID amountCents currency reference createdBy =
      (store, Except.error (GoError.entity EntityError.ErrInvalidAmount)) ∧
    s.RecordPayment store id now projectID amountCents currency reference createdBy =
      (store, Except.error (GoError.entity EntityError.ErrInvalidAmount)) ∧
    s.RecordRetainageHeld store id now projectID amountCents currency rate createdBy =
      (store, Except.error (GoError.entity EntityError.ErrInvalidAmount)) ∧
    s.RecordRetainageRelease store id now projectID amountCents currency createdBy =
      (store, Except.error (GoError.entity EntityError.ErrInvalidAmount)) := by
  refine ⟨?_, ?_, ?_, ?_⟩
  · simp [LedgerService.RecordInvoice, Transaction.SetMetadata, Transaction.Validate,
      NewTransaction, h]
  · simp [LedgerService.RecordPayment, Transaction.SetMetadata, Transaction.Validate,
      NewTransaction, h]
  · simp [LedgerService.RecordRetainageHeld, Transaction.Validate, NewTransaction, h]
  · simp [LedgerService.RecordRetainageRelease, Transaction.Validate, NewTransaction, h]

/-- C18 (witness): on a repository that counts the calls of `Save`, a negative
amount leaves the count at `0`. -/
theorem Record_rejects_nonpositive_witness :
    countingLedger.RecordInvoice 0 1 100 7 (-250) "TRY" "INV-1" 9 =
      (0, Except.error (GoError.entity EntityError.ErrInvalidAmount)) ∧
    countingLedger.RecordPayment 0 1 100 7 (-250) "TRY" "INV-1" 9 =
      (0, Except.error (GoError.entity EntityError.ErrInvalidAmount)) ∧
    countingLedger.RecordRetainageHeld 0 1 100 7 (-250) "TRY" 0 9 =
      (0, Except.error (GoError.entity EntityError.ErrInvalidAmount)) ∧
    countingLedger.RecordRetainageRelease 0 1 100 7 (-250) "TRY" 9 =
      (0, Except.error (GoError.entity EntityError.ErrInvalidAmount)) :=
  Record_rejects_nonpositive countingLedger 0 1 100 7 (-250) "TRY" "INV-1" 0 9 (by decide)

/-- C19 (failing input): with an invoice stored under the identifier `1`,
saving another transaction under the same identifier returns the nil error and
replaces the record: `FindByID 1` then returns the new transaction. -/
theorem Save_overwrites_existing :
    (NewInMemoryTransactionRepository.Save storedInvoice).1.FindByID 1 =
      Except.ok storedInvoice ∧
    collidingPayment.ID = storedInvoice.ID ∧
    ((NewInMemoryTransactionRepository.Save storedInvoice).1.Save collidingPayment).2 = none ∧
    ((NewInMemoryTransactionRepository.Save storedInvoice).1.Save collidingPayment).1.FindByID 1
      = Except.ok collidingPayment ∧
    collidingPayment ≠ storedInvoice := by
  refine ⟨rfl, by decide, by decide, rfl, by decide⟩

theorem find_filter_self (l : List (UUID × Transaction)) (a : UUID) :
    (l.filter (fun kv => kv.1 != a)).find? (fun kv => kv.1 == a) = none := by
  rw [List.find?_eq_none]
  intro kv hkv
  have h := (List.mem_filter.mp hkv).2
  simpa using h

theorem find_filter_ne (l : List (UUID × Transaction)) (a b : UUID) (hab : a ≠ b) :
    (l.filter (fun kv => kv.1 != b)).find? (fun kv => kv.1 == a) =
      l.find? (fun kv => kv.1 == a) := by
  induction l with
  | nil => rfl
  | cons kv l ih =>
    obtain ⟨k, v⟩ := kv
    by_cases h : k = b
    · subst h
      have hne : (k == a) = false := by simpa using fun e => hab e.symm
      rw [List.filter_cons, if_neg (by simp), List.find?_cons]
      simp only [hne]
      exact ih
    · rw [List.filter_cons, if_pos (by simpa using h), List.find?_cons, List.find?_cons, ih]

theorem find_append_singleton (l : List (UUID × Transaction)) (a : UUID) (t : Transaction)
    (h : l.find? (fun kv => kv.1 == a) = none) :
    (l ++ [(a, t)]).find? (fun kv => kv.1 == a) = some (a, t) := by
  rw [List.find?_append, h]
  simp

theorem find_append_other (l : List (UUID × Transaction)) (a b : UUID) (t : Transaction)
    (hab : a ≠ b) :
    (l ++ [(b, t)]).find? (fun kv => kv.1 == a) = l.find? (fun kv => kv.1 == a) := by
  have hne : (b == a) = false := by simpa using fun e => hab e.symm
  rw [List.find?_append]
  cases l.find? (fun kv => kv.1 == a) with
  | none => simp [hne]
  | some x => rfl

/-- After `Save`, `FindByID` of the saved identifier returns the saved value. -/
theorem FindByID_Save_self (r : InMemoryTransactionRepository) (tx : Transaction) :
    (r.Save tx).1.FindByID tx.ID = Except.ok tx := by
  unfold InMemoryTransactionRepository.FindByID InMemoryTransactionRepository.Save
  simp only []
  rw [find_append_singleton _ _ _ (find_filter_self _ _)]

/-- A `Save` under another identifier does not change what `FindByID` returns. -/
theorem FindByID_Save_other (r : InMemoryTransactionRepository) (tx : Transaction)
    (id : UUID) (h : id ≠ tx.ID) : (r.Save tx).1.FindByID id = r.FindByID id := by
  unfold InMemoryTransactionRepository.FindByID InMemoryTransactionRepository.Save
  simp only []
  rw [find_append_other _ _ _ _ h, find_filter_ne _ _ _ h]

/-- C20 (counterexample): after a successful `Save`, the operation `Clear`
removes the record: `FindByID` of its identifier returns
`ErrTransactionNotFound`. -/
theorem Clear_removes_saved :
    (NewInMemoryTransactionRepository.Save storedInvoice).2 = none ∧
    (NewInMemoryTransactionRepository.Save storedInvoice).1.FindByID storedInvoice.ID =
      Except.ok storedInvoice ∧
    ((NewInMemoryTransactionRepository.Save storedInvoice).1.runOps
        [RepoOp.clear]).FindByID storedInvoice.ID =
      Except.error (GoError.entity EntityError.ErrTransactionNotFound) := by
  refine ⟨by decide, rfl, rfl⟩

/-- C20 (amended): when no transaction is stored under the identifier of `tx`,
`Save tx` succeeds and leaves every record already stored as it was, and
afterwards `FindByID tx.ID` returns a transaction equal to `tx`, also after
every later sequence of `FindByID`, `FindByProjectID`, `GetProjectSummary` and
`Save` operations in which no `Save` carries the identifier of `tx`. -/
theorem Save_then_FindByID_stable (r : InMemoryTransactionRepository) (tx : Transaction)
    (ops : List RepoOp)
    (hfresh : r.FindByID tx.ID =
      Except.error (GoError.entity EntityError.ErrTransactionNotFound))
    (hops : ∀ op ∈ ops, op ≠ RepoOp.clear ∧ ∀ t, op = RepoOp.save t → t.ID ≠ tx.ID) :
    (r.Save tx).2 = none ∧
    (∀ id t, r.FindByID id = Except.ok t → (r.Save tx).1.FindByID id = Except.ok t) ∧
    ((r.Save tx).1.runOps ops).FindByID tx.ID = Except.ok tx := by
  refine ⟨rfl, ?_, ?_⟩
  · intro id t h
    by_cases e : id = tx.ID
    · rw [e, hfresh] at h
      cases h
    · rw [FindByID_Save_other r tx id e]
      exact h
  have key : ∀ (ops : List RepoOp) (r0 : InMemoryTransactionRepository),
      (∀ op ∈ ops, op ≠ RepoOp.clear ∧ ∀ t, op = RepoOp.save t → t.ID ≠ tx.ID) →
      r0.FindByID tx.ID = Except.ok tx → (r0.runOps ops).FindByID tx.ID = Except.ok tx := by
    intro ops
    induction ops with
    | nil => intro r0 _ h0; exact h0
    | cons op ops ih =>
      intro r0 hall h0
      have hop := hall op (List.mem_cons_self _ _)
      have hrest : ∀ op2 ∈ ops, op2 ≠ RepoOp.clear ∧
          ∀ t, op2 = RepoOp.save t → t.ID ≠ tx.ID :=
        fun op2 hm => hall op2 (List.mem_cons_of_mem _ hm)
      have hstep : (r0.applyOp op).FindByID tx.ID = Except.ok tx := by
        cases op with
        | save t =>
          have hne : tx.ID ≠ t.ID := fun e => hop.2 t rfl e.symm
          show (r0.Save t).1.FindByID tx.ID = Except.ok tx
          rw [FindByID_Save_other r0 t tx.ID hne]
          exact h0
        | findByID _ => exact h0
        | findByProjectID _ => exact h0
        | getProjectSummary _ => exact h0
        | clear => exact absurd rfl hop.1
      exact ih (r0.applyOp op) hrest hstep
  exact key ops _ hops (FindByID_Save_self r tx)

/-- C20 (witness): saved into a store that holds another invoice, the invoice
leaves that one in place and survives a read, a summary and the `Save` of a
transaction under a third identifier. -/
theorem Save_then_FindByID_stable_witness :
    (NewInMemoryTransactionRepository.Save otherInvoice).1.FindByID storedInvoice.ID =
      Except.error (GoError.entity EntityError.ErrTransactionNotFound) ∧
    ((NewInMemoryTransactionRepository.Save otherInvoice).1.Save storedInvoice).2 = none ∧
    ((NewInMemoryTransactionRepository.Save otherInvoice).1.Save storedInvoice).1.FindByID
      otherInvoice.ID = Except.ok otherInvoice ∧
    (((NewInMemoryTransactionRepository.Save otherInvoice).1.Save storedInvoice).1.runOps
        [RepoOp.findByID 1, RepoOp.save foreignInvoice, RepoOp.getProjectSummary 7,
          RepoOp.findByProjectID 7]).FindByID storedInvoice.ID = Except.ok storedInvoice := by
  have h := Save_then_FindByID_stable (NewInMemoryTransactionRepository.Save otherInvoice).1
    storedInvoice
    [RepoOp.findByID 1, RepoOp.save foreignInvoice, RepoOp.getProjectSummary 7,
      RepoOp.findByProjectID 7]
    rfl
    (by
      intro op hm
      simp only [List.mem_cons, List.mem_singleton, List.not_mem_nil, or_false] at hm
      rcases hm with rfl | rfl | rfl | rfl
      all_goals refine ⟨by simp, fun t ht => ?_⟩
      all_goals first | (cases ht; decide) | cases ht)
  exact ⟨rfl, h.1, h.2.1 otherInvoice.ID otherInvoice rfl, h.2.2⟩

theorem wrap64_congr_sub {a a2 b b2 : Int} (ha : wrap64 a = wrap64 a2)
    (hb : wrap64 b = wrap64 b2) : wrap64 (a - b) = wrap64 (a2 - b2) := by
  unfold wrap64 at *
  omega

theorem wrap64_add_left (a b : Int) : wrap64 (wrap64 a + b) = wrap64 (a + b) := by
  unfold wrap64
  omega

theorem wrap64_idem (a : Int) : wrap64 (wrap64 a) = wrap64 a := by
  unfold wrap64
  omega

/-- Against the in-memory repository a call succeeds exactly when its amount is
positive; it then saves the transaction it has built. -/
theorem recordCall_inMemory (p : UUID) (r : InMemoryTransactionRepository) (c : LedgerCall) :
    inMemoryLedger.recordCall p r c =
      if 0 < c.amountCents then ((r.Save (c.transaction p)).1, Except.ok (c.transaction p))
      else (r, Except.error (GoError.entity EntityError.ErrInvalidAmount)) := by
  have v1 : TransactionType.IsValid TransactionTypeInvoice = true := by decide
  have v2 : TransactionType.IsValid TransactionTypePayment = true := by decide
  unfold LedgerService.recordCall LedgerCall.transaction
  cases hk : c.kind with
  | invoice =>
    by_cases hpos : 0 < c.amountCents
    · have hle : ¬ c.amountCents ≤ 0 := not_le.mpr hpos
      simp [LedgerService.RecordInvoice, Transaction.SetMetadata, Transaction.Validate,
        NewTransaction, inMemoryLedger, NewLedgerService, inMemoryPort,
        InMemoryTransactionRepository.Save, hpos, hle, v1]
    · have hle : c.amountCents ≤ 0 := not_lt.mp hpos
      simp [LedgerService.RecordInvoice, Transaction.SetMetadata, Transaction.Validate,
        NewTransaction, hpos, hle]
  | payment =>
    by_cases hpos : 0 < c.amountCents
    · have hle : ¬ c.amountCents ≤ 0 := not_le.mpr hpos
      simp [LedgerService.RecordPayment, Transaction.SetMetadata, Transaction.Validate,
        NewTransaction, inMemoryLedger, NewLedgerService, inMemoryPort,
        InMemoryTransactionRepository.Save, hpos, hle, v2]
    · have hle : c.amountCents ≤ 0 := not_lt.mp hpos
      simp [LedgerService.RecordPayment, Transaction.SetMetadata, Transaction.Validate,
        NewTransaction, hpos, hle]

theorem LedgerCall.transaction_ID (p : UUID) (c : LedgerCall) : (c.transaction p).ID = c.id := by
  unfold LedgerCall.transaction
  cases c.kind <;> rfl

theorem LedgerCall.transaction_ProjectID (p : UUID) (c : LedgerCall) :
    (c.transaction p).ProjectID = p := by
  unfold LedgerCall.transaction
  cases c.kind <;> rfl

theorem LedgerCall.transaction_AmountCents (p : UUID) (c : LedgerCall) :
    (c.transaction p).AmountCents = c.amountCents := by
  unfold LedgerCall.transaction
  cases c.kind <;> rfl

/-- If every call of a sequence succeeds, every amount is positive. -/
theorem recordAll_success_pos (p : UUID) : ∀ (calls : List LedgerCall)
    (r : InMemoryTransactionRepository),
    (∀ res ∈ (inMemoryLedger.recordAll p r calls).2, ∃ tx, res = Except.ok tx) →
    ∀ c ∈ calls, 0 < c.amountCents := by
  intro calls
  induction calls with
  | nil => intro r _ c hc; cases hc
  | cons c0 cs ih =>
    intro r hall c hc
    have hhead : ∃ tx, (inMemoryLedger.recordCall p r c0).2 = Except.ok tx :=
      hall _ (by simp [LedgerService.recordAll])
    have hpos0 : 0 < c0.amountCents := by
      by_contra hneg
      rw [recordCall_inMemory, if_neg hneg] at hhead
      obtain ⟨tx, htx⟩ := hhead
      cases htx
    rcases List.mem_cons.mp hc with rfl | hmem
    · exact hpos0
    · refine ih (inMemoryLedger.recordCall p r c0).1 ?_ c hmem
      intro res hres
      exact hall res (by simp [LedgerService.recordAll, hres])

/-- The entries of the store after a sequence of successful calls under fresh,
pairwise different identifiers: the old entries, then one entry per call. -/
theorem recordAll_entries (p : UUID) : ∀ (calls : List LedgerCall)
    (r : InMemoryTransactionRepository),
    (∀ c ∈ calls, 0 < c.amountCents) → (calls.map (fun c => c.id)).Nodup →
    (∀ c ∈ calls, ∀ kv ∈ r.transactions, kv.1 ≠ c.id) →
    (inMemoryLedger.recordAll p r calls).1.transactions =
      r.transactions ++ calls.map (fun c => (c.id, c.transaction p)) := by
  intro calls
  induction calls with
  | nil => intro r _ _ _; simp [LedgerService.recordAll]
  | cons c0 cs ih =>
    intro r hpos hnd hfresh
    have hpos0 : 0 < c0.amountCents := hpos c0 (List.mem_cons_self _ _)
    have hstep : inMemoryLedger.recordCall p r c0 =
        ((r.Save (c0.transaction p)).1, Except.ok (c0.transaction p)) := by
      rw [recordCall_inMemory, if_pos hpos0]
    have hfilter : r.transactions.filter (fun kv => kv.1 != (c0.transaction p).ID) =
        r.transactions := by
      rw [List.filter_eq_self]
      intro kv hkv
      have := hfresh c0 (List.mem_cons_self _ _) kv hkv
      simpa [LedgerCall.transaction_ID] using this
    have hsave : (r.Save (c0.transaction p)).1.transactions =
        r.transactions ++ [(c0.id, c0.transaction p)] := by
      unfold InMemoryTransactionRepository.Save
      simp only []
      rw [hfilter, LedgerCall.transaction_ID]
    rw [List.map_cons, List.nodup_cons] at hnd
    have hrec := ih (r.Save (c0.transaction p)).1
      (fun c hc => hpos c (List.mem_cons_of_mem _ hc)) hnd.2
      (by
        intro c hc kv hkv
        rw [hsave, List.mem_append, List.mem_singleton] at hkv
        rcases hkv with hkv | rfl
        · exact hfresh c (List.mem_cons_of_mem _ hc) kv hkv
        · intro e
          exact hnd.1 (List.mem_map.mpr ⟨c, hc, e.symm⟩))
    simp only [LedgerService.recordAll, hstep]
    rw [hrec, hsave]
    simp

theorem summaryLoopBody_TotalInvoiced (s : LedgerSummary) (t : Transaction) :
    (summaryLoopBody s t).TotalInvoiced =
      if t.TxType = TransactionTypeInvoice then add64 s.TotalInvoiced t.AmountCents
      else s.TotalInvoiced := by
  unfold summaryLoopBody
  split_ifs <;> rfl

theorem summaryLoopBody_TotalPaid (s : LedgerSummary) (t : Transaction) :
    (summaryLoopBody s t).TotalPaid =
      if t.TxType = TransactionTypePayment then add64 s.TotalPaid t.AmountCents
      else s.TotalPaid := by
  have hne : TransactionTypeInvoice ≠ TransactionTypePayment := by decide
  unfold summaryLoopBody
  by_cases h1 : t.TxType = TransactionTypeInvoice
  · have h2 : ¬ t.TxType = TransactionTypePayment := fun e => hne (h1.symm.trans e)
    rw [if_pos h1, if_neg h2]
  · rw [if_neg h1]
    split_ifs <;> rfl

theorem sumOfType_cons (ty : TransactionType) (t : Transaction) (l : List Transaction) :
    sumOfType ty (t :: l) =
      (if t.TxType = ty then t.AmountCents else 0) + sumOfType ty l := by
  unfold sumOfType
  by_cases h : t.TxType = ty
  · simp [List.filter_cons, h]
  · simp [List.filter_cons, h]

/-- The two totals after the loop of `GetProjectSummary`, up to the reduction
into `int64`: the totals before the loop plus the sums over the list. -/
theorem summary_fold_totals : ∀ (l : List Transaction) (s : LedgerSummary),
    wrap64 (l.foldl summaryLoopBody s).TotalInvoiced =
      wrap64 (s.TotalInvoiced + sumOfType TransactionTypeInvoice l) ∧
    wrap64 (l.foldl summaryLoopBody s).TotalPaid =
      wrap64 (s.TotalPaid + sumOfType TransactionTypePayment l) := by
  intro l
  induction l with
  | nil =>
    intro s
    simp [sumOfType]
  | cons t l ih =>
    intro s
    obtain ⟨h1, h2⟩ := ih (summaryLoopBody s t)
    rw [List.foldl_cons, h1, h2, summaryLoopBody_TotalInvoiced, summaryLoopBody_TotalPaid,
      sumOfType_cons, sumOfType_cons]
    refine ⟨?_, ?_⟩
    · by_cases h : t.TxType = TransactionTypeInvoice
      · rw [if_pos h, if_pos h, add64, wrap64_add_left, add_assoc]
      · rw [if_neg h, if_neg h, zero_add]
    · by_cases h : t.TxType = TransactionTypePayment
      · rw [if_pos h, if_pos h, add64, wrap64_add_left, add_assoc]
      · rw [if_neg h, if_neg h, zero_add]

theorem sumOfType_perm (ty : TransactionType) {l₁ l₂ : List Transaction}
    (h : l₁.Perm l₂) : sumOfType ty l₁ = sumOfType ty l₂ := by
  unfold sumOfType
  exact ((h.filter _).map _).sum_eq

theorem sumOfType_invoice_calls (p : UUID) (calls : List LedgerCall) :
    sumOfType TransactionTypeInvoice (calls.map (fun c => c.transaction p)) =
      invoiceTotal calls := by
  have hne : TransactionTypePayment ≠ TransactionTypeInvoice := by decide
  induction calls with
  | nil => rfl
  | cons c cs ih =>
    rw [List.map_cons, sumOfType_cons, ih]
    unfold invoiceTotal
    cases hk : c.kind with
    | invoice =>
      have ht : (c.transaction p).TxType = TransactionTypeInvoice := by
        unfold LedgerCall.transaction
        rw [hk]
        rfl
      have ha : (c.transaction p).AmountCents = c.amountCents :=
        LedgerCall.transaction_AmountCents p c
      simp [List.filter_cons, hk, ht, ha]
    | payment =>
      have ht : ¬ (c.transaction p).TxType = TransactionTypeInvoice := by
        unfold LedgerCall.transaction
        rw [hk]
        exact hne
      simp [List.filter_cons, hk, ht]

theorem sumOfType_payment_calls (p : UUID) (calls : List LedgerCall) :
    sumOfType TransactionTypePayment (calls.map (fun c => c.transaction p)) =
      paymentTotal calls := by
  have hne : TransactionTypeInvoice ≠ TransactionTypePayment := by decide
  induction calls with
  | nil => rfl
  | cons c cs ih =>
    rw [List.map_cons, sumOfType_cons, ih]
    unfold paymentTotal
    cases hk : c.kind with
    | payment =>
      have ht : (c.transaction p).TxType = TransactionTypePayment := by
        unfold LedgerCall.transaction
        rw [hk]
        rfl
      have ha : (c.transaction p).AmountCents = c.amountCents :=
        LedgerCall.transaction_AmountCents p c
      simp [List.filter_cons, hk, ht, ha]
    | invoice =>
      have ht : ¬ (c.transaction p).TxType = TransactionTypePayment := by
        unfold LedgerCall.transaction
        rw [hk]
        exact hne
      simp [List.filter_cons, hk, ht]

theorem invoiceTotal_perm {calls₁ calls₂ : List LedgerCall} (h : calls₁.Perm calls₂) :
    invoiceTotal calls₁ = invoiceTotal calls₂ := by
  unfold invoiceTotal
  exact ((h.filter _).map _).sum_eq

theorem paymentTotal_perm {calls₁ calls₂ : List LedgerCall} (h : calls₁.Perm calls₂) :
    paymentTotal calls₁ = paymentTotal calls₂ := by
  unfold paymentTotal
  exact ((h.filter _).map _).sum_eq

/-- After a sequence of calls with positive amounts and pairwise different
identifiers on an empty store, the balance of the summary is the difference of
the two totals reduced into `int64`, whatever order the loop over the map takes. -/
theorem summary_balance_of_calls (p : UUID) (calls : List LedgerCall)
    (hpos : ∀ c ∈ calls, 0 < c.amountCents) (hids : (calls.map (fun c => c.id)).Nodup)
    (o : RangeOrder (inMemoryLedger.recordAll p NewInMemoryTransactionRepository calls).1) :
    ∃ s, (inMemoryLedger.recordAll p NewInMemoryTransactionRepository
        calls).1.GetProjectSummary o p = Except.ok s ∧
      s.CurrentBalance = wrap64 (invoiceTotal calls - paymentTotal calls) := by
  have hentries := recordAll_entries p calls NewInMemoryTransactionRepository hpos hids
    (by intro c _ kv hkv; cases hkv)
  have hentries2 : (inMemoryLedger.recordAll p NewInMemoryTransactionRepository
      calls).1.transactions = calls.map (fun c => (c.id, c.transaction p)) := by
    rw [hentries]
    rfl
  have hperm : ((o.entries.filter (fun kv => kv.2.ProjectID == p)).map (fun kv => kv.2)).Perm
      (calls.map (fun c => c.transaction p)) := by
    have h1 := (o.perm.filter (fun kv => kv.2.ProjectID == p)).map (fun kv => kv.2)
    rw [hentries2] at h1
    have h2 : ((calls.map (fun c => (c.id, c.transaction p))).filter
        (fun kv => kv.2.ProjectID == p)).map (fun kv => kv.2) =
        calls.map (fun c => c.transaction p) := by
      rw [List.filter_eq_self.mpr, List.map_map]
      · rfl
      · intro kv hkv
        obtain ⟨c, _, rfl⟩ := List.mem_map.mp hkv
        simp [LedgerCall.transaction_ProjectID]
    rw [h2] at h1
    exact h1
  have hI := (sumOfType_perm TransactionTypeInvoice hperm).trans (sumOfType_invoice_calls p calls)
  have hP := (sumOfType_perm TransactionTypePayment hperm).trans (sumOfType_payment_calls p calls)
  refine ⟨_, rfl, ?_⟩
  obtain ⟨f1, f2⟩ := summary_fold_totals
    ((o.entries.filter (fun kv => kv.2.ProjectID == p)).map (fun kv => kv.2))
    { ProjectID := p, TotalInvoiced := 0, TotalPaid := 0, TotalRetained := 0,
      CurrentBalance := 0, Currency := "",
      TransactionCount :=
        ((o.entries.filter (fun kv => kv.2.ProjectID == p)).map (fun kv => kv.2)).length }
  simp only [zero_add, hI, hP] at f1 f2
  exact wrap64_congr_sub f1 f2

/-- C17 (counterexample): two successful invoices of `2^63 - 1` and `1` on an
empty store give a summary whose `CurrentBalance` is `-2^63`, while the sum of
the invoice amounts minus the sum of the payment amounts is `2^63`. -/
theorem ledger_balance_wraps :
    (∀ res ∈ (inMemoryLedger.recordAll 7 NewInMemoryTransactionRepository
        overflowingInvoices).2, ∃ tx, res = Except.ok tx) ∧
    (overflowingInvoices.map (fun c => c.id)).Nodup ∧
    (∀ c ∈ overflowingInvoices, inInt64 c.amountCents) ∧
    invoiceTotal overflowingInvoices - paymentTotal overflowingInvoices =
      9223372036854775808 ∧
    ∃ s, (inMemoryLedger.recordAll 7 NewInMemoryTransactionRepository
        overflowingInvoices).1.GetProjectSummary (RangeOrder.listed _) 7 = Except.ok s ∧
      s.CurrentBalance = -9223372036854775808 := by
  refine ⟨?_, by decide, by decide, by decide, _, rfl, by decide⟩
  intro res hres
  have hl : (inMemoryLedger.recordAll 7 NewInMemoryTransactionRepository
      overflowingInvoices).2 =
      overflowingInvoices.map (fun c => Except.ok (LedgerCall.transaction 7 c)) := rfl
  rw [hl] at hres
  obtain ⟨c, _, rfl⟩ := List.mem_map.mp hres
  exact ⟨_, rfl⟩

/-- C17 (amended): for every sequence of successful `RecordInvoice` and
`RecordPayment` calls on one project, each under its own identifier, against an
empty in-memory repository, the `CurrentBalance` of `GetProjectSummary` is the
same for every permutation of the calls and every order of iteration over the
store, and it is the sum of the invoice amounts minus the sum of the payment
amounts whenever that difference is representable in `int64`. -/
theorem ledger_balance (p : UUID) (calls calls₂ : List LedgerCall)
    (hsucc : ∀ res ∈ (inMemoryLedger.recordAll p NewInMemoryTransactionRepository calls).2,
      ∃ tx, res = Except.ok tx)
    (hids : (calls.map (fun c => c.id)).Nodup)
    (hperm : calls₂.Perm calls)
    (o : RangeOrder (inMemoryLedger.recordAll p NewInMemoryTransactionRepository calls).1)
    (o₂ : RangeOrder (inMemoryLedger.recordAll p NewInMemoryTransactionRepository calls₂).1) :
    ∃ s s₂,
      (inMemoryLedger.recordAll p NewInMemoryTransactionRepository
        calls).1.GetProjectSummary o p = Except.ok s ∧
      (inMemoryLedger.recordAll p NewInMemoryTransactionRepository
        calls₂).1.GetProjectSummary o₂ p = Except.ok s₂ ∧
      s₂.CurrentBalance = s.CurrentBalance ∧
      (inInt64 (invoiceTotal calls - paymentTotal calls) →
        s.CurrentBalance = invoiceTotal calls - paymentTotal calls) := by
  have hpos := recordAll_success_pos p calls NewInMemoryTransactionRepository hsucc
  have hpos₂ : ∀ c ∈ calls₂, 0 < c.amountCents := fun c hc => hpos c (hperm.mem_iff.mp hc)
  have hids₂ : (calls₂.map (fun c => c.id)).Nodup :=
    (hperm.map (fun c => c.id)).nodup_iff.mpr hids
  obtain ⟨s, hs, hb⟩ := summary_balance_of_calls p calls hpos hids o
  obtain ⟨s₂, hs₂, hb₂⟩ := summary_balance_of_calls p calls₂ hpos₂ hids₂ o₂
  refine ⟨s, s₂, hs, hs₂, ?_, ?_⟩
  · rw [hb, hb₂, invoiceTotal_perm hperm, paymentTotal_perm hperm]
  · intro hfit
    rw [hb]
    exact wrap64_eq_self hfit

/-- C17 (witness): two invoices and a payment, recorded in two different
orders and summarised with two different orders of iteration: the balance is
`5000 + 300 - 1200 = 4100` both times. -/
theorem ledger_balance_witness :
    ∃ s s₂,
      (inMemoryLedger.recordAll 7 NewInMemoryTransactionRepository
        sampleCalls).1.GetProjectSummary (RangeOrder.listed _) 7 = Except.ok s ∧
      (inMemoryLedger.recordAll 7 NewInMemoryTransactionRepository
        sampleCallsReordered).1.GetProjectSummary
          { entries := (inMemoryLedger.recordAll 7 NewInMemoryTransactionRepository
              sampleCallsReordered).1.transactions.reverse
            perm := List.reverse_perm _ } 7 = Except.ok s₂ ∧
      s₂.CurrentBalance = s.CurrentBalance ∧ s.CurrentBalance = 4100 := by
  have hsucc : ∀ res ∈ (inMemoryLedger.recordAll 7 NewInMemoryTransactionRepository
      sampleCalls).2, ∃ tx, res = Except.ok tx := by
    intro res hres
    have hl : (inMemoryLedger.recordAll 7 NewInMemoryTransactionRepository sampleCalls).2 =
        sampleCalls.map (fun c => Except.ok (LedgerCall.transaction 7 c)) := rfl
    rw [hl] at hres
    obtain ⟨c, _, rfl⟩ := List.mem_map.mp hres
    exact ⟨_, rfl⟩
  obtain ⟨s, s₂, h1, h2, h3, h4⟩ := ledger_balance 7 sampleCalls sampleCallsReordered hsucc
    (by decide) (by decide) (RangeOrder.listed _)
    { entries := (inMemoryLedger.recordAll 7 NewInMemoryTransactionRepository
        sampleCallsReordered).1.transactions.reverse
      perm := List.reverse_perm _ }
  exact ⟨s, s₂, h1, h2, h3, (h4 (by decide)).trans (by decide)⟩

/-! ## Transactions (C24 to C26) -/

theorem IsValid_iff (tt : TransactionType) :
    TransactionType.IsValid tt = true ↔ inEnumerationSpec tt := by
  unfold TransactionType.IsValid inEnumerationSpec TransactionTypeInvoice
    TransactionTypePayment TransactionTypeRetainageHeld TransactionTypeRetainageRelease
    TransactionTypeAdjustment TransactionTypeDeduction
  simp only [Bool.or_eq_true, beq_iff_eq, or_assoc]

/-- C24: `Validate` returns `ErrInvalidAmount` exactly when `AmountCents ≤ 0`,
whatever the type; otherwise `ErrInvalidTransactionType` exactly when `Type` is
not one of the six values, which are exactly the values `IsValid` accepts;
otherwise nil. The result is that of a transaction with the same amount and
type and all other fields at fixed values. -/
theorem Validate_spec (t : Transaction) :
    (t.Validate = some EntityError.ErrInvalidAmount ↔ t.AmountCents ≤ 0) ∧
    (t.Validate = some EntityError.ErrInvalidTransactionType ↔
      (0 < t.AmountCents ∧ ¬ inEnumerationSpec t.TxType)) ∧
    (t.Validate = none ↔ (0 < t.AmountCents ∧ inEnumerationSpec t.TxType)) ∧
    (∀ tt : TransactionType, tt.IsValid = true ↔ inEnumerationSpec tt) ∧
    t.Validate = (NewTransaction 0 0 0 t.TxType t.AmountCents "" 0).Validate := by
  refine ⟨?_, ?_, ?_, IsValid_iff, rfl⟩
  · unfold Transaction.Validate
    by_cases h : t.AmountCents ≤ 0
    · simp [h]
    · by_cases hv : TransactionType.IsValid t.TxType = true
      · simp [h, hv]
      · simp [h, hv]
  · unfold Transaction.Validate
    by_cases h : t.AmountCents ≤ 0
    · have h2 : ¬ 0 < t.AmountCents := not_lt.mpr h
      simp [h, h2]
    · have h2 : 0 < t.AmountCents := not_le.mp h
      by_cases hv : TransactionType.IsValid t.TxType = true
      · have hs := (IsValid_iff t.TxType).mp hv
        simp [h, hv, hs]
      · have hs : ¬ inEnumerationSpec t.TxType := fun e => hv ((IsValid_iff t.TxType).mpr e)
        simp [h, hv, h2, hs]
  · unfold Transaction.Validate
    by_cases h : t.AmountCents ≤ 0
    · have h2 : ¬ 0 < t.AmountCents := not_lt.mpr h
      simp [h, h2]
    · have h2 : 0 < t.AmountCents := not_le.mp h
      by_cases hv : TransactionType.IsValid t.TxType = true
      · have hs := (IsValid_iff t.TxType).mp hv
        simp [h, hv, h2, hs]
      · have hs : ¬ inEnumerationSpec t.TxType := fun e => hv ((IsValid_iff t.TxType).mpr e)
        simp [h, hv, hs]

/-- The four cases of `TestTransaction_Validate` and the invalid type of
`TestTransactionType_IsValid`. -/
theorem Validate_examples :
    (NewTransaction 1 100 7 TransactionTypeInvoice 100000 "TRY" 9).Validate = none ∧
    (NewTransaction 1 100 7 TransactionTypeInvoice 0 "" 0).Validate =
      some EntityError.ErrInvalidAmount ∧
    (NewTransaction 1 100 7 TransactionTypeInvoice (-100) "" 0).Validate =
      some EntityError.ErrInvalidAmount ∧
    (NewTransaction 1 100 7 "INVALID" 100000 "" 0).Validate =
      some EntityError.ErrInvalidTransactionType ∧
    (NewTransaction 1 100 7 "INVALID" 0 "" 0).Validate = some EntityError.ErrInvalidAmount ∧
    TransactionType.IsValid "INVALID" = false := by
  refine ⟨by decide, by decide, by decide, by decide, by decide, by decide⟩

/-- C25: `IsCredit` holds exactly for the types `PAYMENT` and
`RETAINAGE_RELEASE`, `IsDebit` exactly for `INVOICE` and `DEDUCTION`; no
transaction is both, and a transaction of type `RETAINAGE_HELD`, `ADJUSTMENT`
or of an invalid type is neither. -/
theorem IsCredit_IsDebit_spec (t : Transaction) :
    (t.IsCredit = true ↔ (t.TxType = "PAYMENT" ∨ t.TxType = "RETAINAGE_RELEASE")) ∧
    (t.IsDebit = true ↔ (t.TxType = "INVOICE" ∨ t.TxType = "DEDUCTION")) ∧
    ¬ (t.IsCredit = true ∧ t.IsDebit = true) ∧
    ((t.TxType = "RETAINAGE_HELD" ∨ t.TxType = "ADJUSTMENT" ∨
        TransactionType.IsValid t.TxType = false) →
      t.IsCredit = false ∧ t.IsDebit = false) := by
  have hc : t.IsCredit = true ↔ (t.TxType = "PAYMENT" ∨ t.TxType = "RETAINAGE_RELEASE") := by
    unfold Transaction.IsCredit TransactionTypePayment TransactionTypeRetainageRelease
    simp only [Bool.or_eq_true, beq_iff_eq]
  have hd : t.IsDebit = true ↔ (t.TxType = "INVOICE" ∨ t.TxType = "DEDUCTION") := by
    unfold Transaction.IsDebit TransactionTypeInvoice TransactionTypeDeduction
    simp only [Bool.or_eq_true, beq_iff_eq]
  refine ⟨hc, hd, ?_, ?_⟩
  · rintro ⟨h1, h2⟩
    rcases hc.mp h1 with a | a <;> rcases hd.mp h2 with b | b <;>
      exact absurd (a.symm.trans b) (by decide)
  · intro h
    have hnc : ¬ t.IsCredit = true := by
      intro h1
      rcases h with a | a | a
      · rcases hc.mp h1 with b | b <;> exact absurd (a.symm.trans b) (by decide)
      · rcases hc.mp h1 with b | b <;> exact absurd (a.symm.trans b) (by decide)
      · have hv : TransactionType.IsValid t.TxType = true := by
          rw [IsValid_iff]
          unfold inEnumerationSpec
          rcases hc.mp h1 with b | b
          · exact Or.inr (Or.inl b)
          · exact Or.inr (Or.inr (Or.inr (Or.inl b)))
        rw [hv] at a
        cases a
    have hnd : ¬ t.IsDebit = true := by
      intro h1
      rcases h with a | a | a
      · rcases hd.mp h1 with b | b <;> exact absurd (a.symm.trans b) (by decide)
      · rcases hd.mp h1 with b | b <;> exact absurd (a.symm.trans b) (by decide)
      · have hv : TransactionType.IsValid t.TxType = true := by
          rw [IsValid_iff]
          unfold inEnumerationSpec
          rcases hd.mp h1 with b | b
          · exact Or.inl b
          · exact Or.inr (Or.inr (Or.inr (Or.inr (Or.inr b))))
        rw [hv] at a
        cases a
    exact ⟨by simpa using hnc, by simpa using hnd⟩

/-- C25 (witness): a `RETAINAGE_HELD` transaction is neither credit nor debit. -/
theorem IsCredit_IsDebit_spec_witness :
    heldRetainage.TxType = "RETAINAGE_HELD" ∧
    heldRetainage.IsCredit = false ∧ heldRetainage.IsDebit = false :=
  ⟨rfl, (IsCredit_IsDebit_spec heldRetainage).2.2.2 (Or.inl rfl)⟩

/-- C26: with the generated identifier and the clock reading as inputs,
`NewTransaction` returns a transaction carrying its five arguments as given,
the fresh identifier, the same clock reading in `EffectiveDate` and
`CreatedAt`, and empty `ContractID`, `Description`, `ReferenceNo` and
`Metadata`. -/
theorem NewTransaction_fields (id : UUID) (now : Time) (projectID : UUID)
    (txType : TransactionType) (amountCents : Int) (currency : String) (createdBy : UUID) :
    (NewTransaction id now projectID txType amountCents currency createdBy).ProjectID
      = projectID ∧
    (NewTransaction id now projectID txType amountCents currency createdBy).TxType = txType ∧
    (NewTransaction id now projectID txType amountCents currency createdBy).AmountCents
      = amountCents ∧
    (NewTransaction id now projectID txType amountCents currency createdBy).Currency
      = currency ∧
    (NewTransaction id now projectID txType amountCents currency createdBy).CreatedBy
      = createdBy ∧
    (NewTransaction id now projectID txType amountCents currency createdBy).ID = id ∧
    (NewTransaction id now projectID txType amountCents currency createdBy).EffectiveDate
      = now ∧
    (NewTransaction id now projectID txType amountCents currency createdBy).CreatedAt = now ∧
    (NewTransaction id now projectID txType amountCents currency createdBy).ContractID
      = none ∧
    (NewTransaction id now projectID txType amountCents currency createdBy).Description
      = "" ∧
    (NewTransaction id now projectID txType amountCents currency createdBy).ReferenceNo
      = "" ∧
    (NewTransaction id now projectID txType amountCents currency createdBy).Metadata = none :=
  ⟨rfl, rfl, rfl, rfl, rfl, rfl, rfl, rfl, rfl, rfl, rfl, rfl⟩

/-! ## Recording operations (C27, C28) -/

theorem Validate_of_pos (t : Transaction) (hpos : 0 < t.AmountCents)
    (hv : TransactionType.IsValid t.TxType = true) : t.Validate = none := by
  unfold Transaction.Validate
  simp [not_le.mpr hpos, hv]

/-- What a recording operation returns once its transaction is validated: the
state `Save` leaves, with the transaction or with the error of `Save`. -/
theorem save_outcome {σ : Type} (s : LedgerService σ) (store : σ) (tx : Transaction) :
    (match s.repo.Save store tx with
      | (st, some err) => (st, (Except.error err : Except GoError Transaction))
      | (st, none) => (st, Except.ok tx)) =
    ((s.repo.Save store tx).1,
      match (s.repo.Save store tx).2 with
      | some err => Except.error err
      | none => Except.ok tx) := by
  rcases s.repo.Save store tx with ⟨st, _ | err⟩ <;> rfl

theorem RecordInvoice_pos {σ : Type} (s : LedgerService σ) (store : σ) (id : UUID)
    (now : Time) (projectID : UUID) (amountCents : Int) (currency invoiceNo : String)
    (createdBy : UUID) (hpos : 0 < amountCents) (tx : Transaction)
    (htx : tx = { NewTransaction id now projectID TransactionTypeInvoice amountCents currency
        createdBy with
      ReferenceNo := invoiceNo
      Metadata := some { emptyMetadata with InvoiceNo := invoiceNo } }) :
    s.RecordInvoice store id now projectID amountCents currency invoiceNo createdBy =
      ((s.repo.Save store tx).1,
        match (s.repo.Save store tx).2 with
        | some err => Except.error err
        | none => Except.ok tx) := by
  have hval : tx.Validate = none := by
    rw [htx]
    have hv : TransactionType.IsValid TransactionTypeInvoice = true := by decide
    exact Validate_of_pos _ hpos hv
  rw [← save_outcome]
  subst htx
  unfold LedgerService.RecordInvoice
  simp only [Transaction.SetMetadata]
  rw [hval]

theorem RecordPayment_pos {σ : Type} (s : LedgerService σ) (store : σ) (id : UUID)
    (now : Time) (projectID : UUID) (amountCents : Int) (currency bankReceiptNo : String)
    (createdBy : UUID) (hpos : 0 < amountCents) (tx : Transaction)
    (htx : tx = { NewTransaction id now projectID TransactionTypePayment amountCents currency
        createdBy with
      ReferenceNo := bankReceiptNo
      Metadata := some { emptyMetadata with BankReceiptNo := bankReceiptNo } }) :
    s.RecordPayment store id now projectID amountCents currency bankReceiptNo createdBy =
      ((s.repo.Save store tx).1,
        match (s.repo.Save store tx).2 with
        | some err => Except.error err
        | none => Except.ok tx) := by
  have hval : tx.Validate = none := by
    rw [htx]
    have hv : TransactionType.IsValid TransactionTypePayment = true := by decide
    exact Validate_of_pos _ hpos hv
  rw [← save_outcome]
  subst htx
  unfold LedgerService.RecordPayment
  simp only [Transaction.SetMetadata]
  rw [hval]

theorem RecordRetainageHeld_pos {σ : Type} (s : LedgerService σ) (store : σ) (id : UUID)
    (now : Time) (projectID : UUID) (amountCents : Int) (currency : String) (rate : Float64)
    (createdBy : UUID) (hpos : 0 < amountCents) (tx : Transaction)
    (htx : tx = { NewTransaction id now projectID TransactionTypeRetainageHeld amountCents
        currency createdBy with Description := "Retainage withheld" }) :
    s.RecordRetainageHeld store id now projectID amountCents currency rate createdBy =
      ((s.repo.Save store tx).1,
        match (s.repo.Save store tx).2 with
        | some err => Except.error err
        | none => Except.ok tx) := by
  have hval : tx.Validate = none := by
    rw [htx]
    have hv : TransactionType.IsValid TransactionTypeRetainageHeld = true := by decide
    exact Validate_of_pos _ hpos hv
  rw [← save_outcome]
  subst htx
  unfold LedgerService.RecordRetainageHeld
  simp only []
  rw [hval]

theorem RecordRetainageRelease_pos {σ : Type} (s : LedgerService σ) (store : σ) (id : UUID)
    (now : Time) (projectID : UUID) (amountCents : Int) (currency : String)
    (createdBy : UUID) (hpos : 0 < amountCents) (tx : Transaction)
    (htx : tx = { NewTransaction id now projectID TransactionTypeRetainageRelease amountCents
        currency createdBy with Description := "Retainage released" }) :
    s.RecordRetainageRelease store id now projectID amountCents currency createdBy =
      ((s.repo.Save store tx).1,
        match (s.repo.Save store tx).2 with
        | some err => Except.error err
        | none => Except.ok tx) := by
  have hval : tx.Validate = none := by
    rw [htx]
    have hv : TransactionType.IsValid TransactionTypeRetainageRelease = true := by decide
    exact Validate_of_pos _ hpos hv
  rw [← save_outcome]
  subst htx
  unfold LedgerService.RecordRetainageRelease
  simp only []
  rw [hval]

/-- C27: for `amountCents > 0` and every repository, each of the four recording
operations builds a transaction of its own type carrying the given identifier,
project, amount, currency and creator (and, for `RecordInvoice` and
`RecordPayment`, the invoice or bank receipt number as `ReferenceNo`); whenever
the `Save` of that transaction on the given store succeeds, the operation
returns that transaction without error, and the store state it hands back is
the one that single `Save` leaves. Against the in-memory repository `Save`
succeeds and `FindByID` of the saved identifier then yields the saved
transaction. -/
theorem Record_success {σ : Type} (s : LedgerService σ) (store : σ)
    (id : UUID) (now : Time) (projectID : UUID) (amountCents : Int)
    (currency reference : String) (rate : Float64) (createdBy : UUID)
    (hpos : 0 < amountCents) :
    (∃ tx : Transaction,
      tx.TxType = "INVOICE" ∧ tx.ID = id ∧ tx.ProjectID = projectID ∧
      tx.AmountCents = amountCents ∧ tx.Currency = currency ∧ tx.CreatedBy = createdBy ∧
      tx.ReferenceNo = reference ∧
      ((s.repo.Save store tx).2 = none →
        s.RecordInvoice store id now projectID amountCents currency reference createdBy =
          ((s.repo.Save store tx).1, Except.ok tx))) ∧
    (∃ tx : Transaction,
      tx.TxType = "PAYMENT" ∧ tx.ID = id ∧ tx.ProjectID = projectID ∧
      tx.AmountCents = amountCents ∧ tx.Currency = currency ∧ tx.CreatedBy = createdBy ∧
      tx.ReferenceNo = reference ∧
      ((s.repo.Save store tx).2 = none →
        s.RecordPayment store id now projectID amountCents currency reference createdBy =
          ((s.repo.Save store tx).1, Except.ok tx))) ∧
    (∃ tx : Transaction,
      tx.TxType = "RETAINAGE_HELD" ∧ tx.ID = id ∧ tx.ProjectID = projectID ∧
      tx.AmountCents = amountCents ∧ tx.Currency = currency ∧ tx.CreatedBy = createdBy ∧
      ((s.repo.Save store tx).2 = none →
        s.RecordRetainageHeld store id now projectID amountCents currency rate createdBy =
          ((s.repo.Save store tx).1, Except.ok tx))) ∧
    (∃ tx : Transaction,
      tx.TxType = "RETAINAGE_RELEASE" ∧ tx.ID = id ∧ tx.ProjectID = projectID ∧
      tx.AmountCents = amountCents ∧ tx.Currency = currency ∧ tx.CreatedBy = createdBy ∧
      ((s.repo.Save store tx).2 = none →
        s.RecordRetainageRelease store id now projectID amountCents currency createdBy =
          ((s.repo.Save store tx).1, Except.ok tx))) ∧
    (∀ (r : InMemoryTransactionRepository) (tx : Transaction),
      (inMemoryPort.Save r tx).2 = none ∧
      (inMemoryPort.Save r tx).1.FindByID tx.ID = Except.ok tx) := by
  refine ⟨⟨({ NewTransaction id now projectID TransactionTypeInvoice amountCents currency createdBy with
      ReferenceNo := reference
      Metadata := some { emptyMetadata with InvoiceNo := reference } } : Transaction),
      rfl, rfl, rfl, rfl, rfl, rfl, rfl, ?_⟩,
    ⟨({ NewTransaction id now projectID TransactionTypePayment amountCents currency createdBy with
      ReferenceNo := reference
      Metadata := some { emptyMetadata with BankReceiptNo := reference } } : Transaction),
      rfl, rfl, rfl, rfl, rfl, rfl, rfl, ?_⟩,
    ⟨({ NewTransaction id now projectID TransactionTypeRetainageHeld amountCents currency
      createdBy with Description := "Retainage withheld" } : Transaction),
      rfl, rfl, rfl, rfl, rfl, rfl, ?_⟩,
    ⟨({ NewTransaction id now projectID TransactionTypeRetainageRelease amountCents currency
      createdBy with Description := "Retainage released" } : Transaction),
      rfl, rfl, rfl, rfl, rfl, rfl, ?_⟩, ?_⟩
  · intro hsave
    rw [RecordInvoice_pos s store id now projectID amountCents currency reference createdBy
      hpos _ rfl, hsave]
  · intro hsave
    rw [RecordPayment_pos s store id now projectID amountCents currency reference createdBy
      hpos _ rfl, hsave]
  · intro hsave
    rw [RecordRetainageHeld_pos s store id now projectID amountCents currency rate createdBy
      hpos _ rfl, hsave]
  · intro hsave
    rw [RecordRetainageRelease_pos s store id now projectID amountCents currency createdBy
      hpos _ rfl, hsave]
  · intro r tx
    exact ⟨rfl, FindByID_Save_self r tx⟩

/-- C27 (witness): on the repository that fails its first `Save` only, a
`RecordInvoice` made after that failure succeeds and leaves the count at `2`. -/
theorem Record_success_witness :
    ∃ tx : Transaction,
      (failOnceLedger (GoError.external "connection refused")).RecordInvoice 1 1 100 7 5000
        "TRY" "INV-1" 9 = (2, Except.ok tx) ∧
      tx.TxType = "INVOICE" ∧ tx.ID = 1 ∧ tx.ProjectID = 7 ∧ tx.AmountCents = 5000 ∧
      tx.Currency = "TRY" ∧ tx.CreatedBy = 9 ∧ tx.ReferenceNo = "INV-1" := by
  obtain ⟨tx, h1, h2, h3, h4, h5, h6, h7, h⟩ :=
    (Record_success (failOnceLedger (GoError.external "connection refused")) 1 1 100 7 5000
      "TRY" "INV-1" 0 9 (by decide)).1
  exact ⟨tx, h rfl, h1, h2, h3, h4, h5, h6, h7⟩

/-- C28: for `amountCents > 0` and every repository, whenever the `Save` of the
transaction a recording operation has built returns an error `e` on the given
store, the operation returns no transaction and exactly the error `e`, and the
store state it hands back is the one that single `Save` leaves: `Save` is not
called again. -/
theorem Record_save_failure {σ : Type} (s : LedgerService σ) (store : σ)
    (id : UUID) (now : Time) (projectID : UUID) (amountCents : Int)
    (currency reference : String) (rate : Float64) (createdBy : UUID)
    (hpos : 0 < amountCents) :
    (∃ tx : Transaction,
      tx.TxType = "INVOICE" ∧ tx.ID = id ∧ tx.ProjectID = projectID ∧
      tx.AmountCents = amountCents ∧ tx.Currency = currency ∧ tx.CreatedBy = createdBy ∧
      tx.ReferenceNo = reference ∧
      ∀ e, (s.repo.Save store tx).2 = some e →
        s.RecordInvoice store id now projectID amountCents currency reference createdBy =
          ((s.repo.Save store tx).1, Except.error e)) ∧
    (∃ tx : Transaction,
      tx.TxType = "PAYMENT" ∧ tx.ID = id ∧ tx.ProjectID = projectID ∧
      tx.AmountCents = amountCents ∧ tx.Currency = currency ∧ tx.CreatedBy = createdBy ∧
      tx.ReferenceNo = reference ∧
      ∀ e, (s.repo.Save store tx).2 = some e →
        s.RecordPayment store id now projectID amountCents currency reference createdBy =
          ((s.repo.Save store tx).1, Except.error e)) ∧
    (∃ tx : Transaction,
      tx.TxType = "RETAINAGE_HELD" ∧ tx.ID = id ∧ tx.ProjectID = projectID ∧
      tx.AmountCents = amountCents ∧ tx.Currency = currency ∧ tx.CreatedBy = createdBy ∧
      ∀ e, (s.repo.Save store tx).2 = some e →
        s.RecordRetainageHeld store id now projectID amountCents currency rate createdBy =
          ((s.repo.Save store tx).1, Except.error e)) ∧
    (∃ tx : Transaction,
      tx.TxType = "RETAINAGE_RELEASE" ∧ tx.ID = id ∧ tx.ProjectID = projectID ∧
      tx.AmountCents = amountCents ∧ tx.Currency = currency ∧ tx.CreatedBy = createdBy ∧
      ∀ e, (s.repo.Save store tx).2 = some e →
        s.RecordRetainageRelease store id now projectID amountCents currency createdBy =
          ((s.repo.Save store tx).1, Except.error e)) := by
  refine ⟨⟨({ NewTransaction id now projectID TransactionTypeInvoice amountCents currency createdBy with
      ReferenceNo := reference
      Metadata := some { emptyMetadata with InvoiceNo := reference } } : Transaction),
      rfl, rfl, rfl, rfl, rfl, rfl, rfl, ?_⟩,
    ⟨({ NewTransaction id now projectID TransactionTypePayment amountCents currency createdBy with
      ReferenceNo := reference
      Metadata := some { emptyMetadata with BankReceiptNo := reference } } : Transaction),
      rfl, rfl, rfl, rfl, rfl, rfl, rfl, ?_⟩,
    ⟨({ NewTransaction id now projectID TransactionTypeRetainageHeld amountCents currency
      createdBy with Description := "Retainage withheld" } : Transaction),
      rfl, rfl, rfl, rfl, rfl, rfl, ?_⟩,
    ⟨({ NewTransaction id now projectID TransactionTypeRetainageRelease amountCents currency
      createdBy with Description := "Retainage released" } : Transaction),
      rfl, rfl, rfl, rfl, rfl, rfl, ?_⟩⟩
  · intro e hfail
    rw [RecordInvoice_pos s store id now projectID amountCents currency reference createdBy
      hpos _ rfl, hfail]
  · intro e hfail
    rw [RecordPayment_pos s store id now projectID amountCents currency reference createdBy
      hpos _ rfl, hfail]
  · intro e hfail
    rw [RecordRetainageHeld_pos s store id now projectID amountCents currency rate createdBy
      hpos _ rfl, hfail]
  · intro e hfail
    rw [RecordRetainageRelease_pos s store id now projectID amountCents currency createdBy
      hpos _ rfl, hfail]

/-- C28 (witness): on the repository that fails its first `Save` only,
`RecordPayment` returns that error and the count is `1`; a second `Save` would
have succeeded and left the count at `2`. -/
theorem Record_save_failure_witness :
    ∃ tx : Transaction,
      (failOnceLedger (GoError.external "connection refused")).RecordPayment 0 1 100 7
        5000 "TRY" "RCPT-1" 9 = (1, Except.error (GoError.external "connection refused")) ∧
      ((failOncePort (GoError.external "connection refused")).Save 1 tx).2 = none ∧
      tx.TxType = "PAYMENT" ∧ tx.ID = 1 ∧ tx.ProjectID = 7 ∧ tx.AmountCents = 5000 ∧
      tx.Currency = "TRY" ∧ tx.CreatedBy = 9 ∧ tx.ReferenceNo = "RCPT-1" := by
  obtain ⟨tx, h1, h2, h3, h4, h5, h6, h7, h⟩ :=
    (Record_save_failure (failOnceLedger (GoError.external "connection refused")) 0 1 100 7
      5000 "TRY" "RCPT-1" 0 9 (by decide)).2.1
  exact ⟨tx, h _ rfl, rfl, h1, h2, h3, h4, h5, h6, h7⟩

/-! ## Reading the in-memory repository (C21 to C23, C29, C30) -/

theorem isMap_New : NewInMemoryTransactionRepository.isMap := by decide

/-- The map shape of the entries is kept by `Save`. -/
theorem isMap_Save (r : InMemoryTransactionRepository) (tx : Transaction) (h : r.isMap) :
    (r.Save tx).1.isMap := by
  obtain ⟨hnd, hkey⟩ := h
  unfold InMemoryTransactionRepository.isMap InMemoryTransactionRepository.Save
  simp only []
  refine ⟨?_, ?_⟩
  · rw [List.map_append, List.nodup_append]
    refine ⟨(hnd.sublist ((List.filter_sublist _).map _)), by simp, ?_⟩
    intro k hk1 hk2
    simp only [List.map_cons, List.map_nil, List.mem_singleton] at hk2
    obtain ⟨kv, hkv, rfl⟩ := List.mem_map.mp hk1
    have := (List.mem_filter.mp hkv).2
    simp [hk2] at this
  · intro kv hkv
    rcases List.mem_append.mp hkv with h1 | h1
    · exact hkey kv (List.mem_filter.mp h1).1
    · rw [List.mem_singleton] at h1
      rw [h1]

theorem isMap_Clear (r : InMemoryTransactionRepository) : r.Clear.isMap := by
  unfold InMemoryTransactionRepository.isMap InMemoryTransactionRepository.Clear
  simp

/-- Every state reached from a map by repository operations is a map. -/
theorem isMap_runOps (ops : List RepoOp) : ∀ r : InMemoryTransactionRepository, r.isMap →
    (r.runOps ops).isMap := by
  induction ops with
  | nil => intro r h; exact h
  | cons op ops ih =>
    intro r h
    have hstep : (r.applyOp op).isMap := by
      cases op with
      | save tx => exact isMap_Save r tx h
      | findByID _ => exact h
      | findByProjectID _ => exact h
      | getProjectSummary _ => exact h
      | clear => exact isMap_Clear r
    exact ih _ hstep

theorem find_of_mem_nodup : ∀ (l : List (UUID × Transaction)) (kv : UUID × Transaction),
    (l.map (fun e => e.1)).Nodup → kv ∈ l → l.find? (fun e => e.1 == kv.1) = some kv := by
  intro l
  induction l with
  | nil => intro kv _ h; cases h
  | cons e l ih =>
    intro kv hnd hmem
    rw [List.map_cons, List.nodup_cons] at hnd
    rcases List.mem_cons.mp hmem with rfl | h
    · simp [List.find?_cons]
    · have hne : e.1 ≠ kv.1 := by
        intro heq
        exact hnd.1 (heq ▸ List.mem_map.mpr ⟨kv, h, rfl⟩)
      have hb : (e.1 == kv.1) = false := by simpa using hne
      rw [List.find?_cons, hb]
      exact ih kv hnd.2 h

/-- C29: in every store state that is a map filled by `Save`, `FindByID`
returns no transaction and `ErrTransactionNotFound` for every identifier that
is not the identifier of a stored transaction, and returns the stored
transaction, without error, for the identifier of each stored transaction. -/
theorem FindByID_spec (r : InMemoryTransactionRepository) (h : r.isMap) :
    (∀ id, (∀ kv ∈ r.transactions, kv.2.ID ≠ id) →
      r.FindByID id = Except.error (GoError.entity EntityError.ErrTransactionNotFound)) ∧
    (∀ kv ∈ r.transactions, r.FindByID kv.2.ID = Except.ok kv.2) := by
  obtain ⟨hnd, hkey⟩ := h
  refine ⟨?_, ?_⟩
  · intro id hid
    have hnone : r.transactions.find? (fun kv => kv.1 == id) = none := by
      rw [List.find?_eq_none]
      intro kv hkv
      have := hid kv hkv
      rw [← hkey kv hkv] at this
      simpa using this
    unfold InMemoryTransactionRepository.FindByID
    rw [hnone]
  · intro kv hkv
    have hsome := find_of_mem_nodup r.transactions kv hnd hkv
    unfold InMemoryTransactionRepository.FindByID
    rw [← hkey kv hkv, hsome]

/-- C29 (witness): with two invoices stored under the identifiers `1` and `2`,
`FindByID 3` reports `ErrTransactionNotFound` and `FindByID 1` returns the
first invoice. -/
theorem FindByID_spec_witness :
    twoInvoicesStore.isMap ∧
    twoInvoicesStore.FindByID 3 =
      Except.error (GoError.entity EntityError.ErrTransactionNotFound) ∧
    twoInvoicesStore.FindByID storedInvoice.ID = Except.ok storedInvoice :=
  have H := FindByID_spec twoInvoicesStore (by decide)
  ⟨by decide, H.1 3 (by decide), H.2 (1, storedInvoice) (by decide)⟩

theorem summaryLoopBody_frame (s : LedgerSummary) (t : Transaction) :
    (summaryLoopBody s t).ProjectID = s.ProjectID ∧
    (summaryLoopBody s t).TransactionCount = s.TransactionCount ∧
    (summaryLoopBody s t).Currency = t.Currency := by
  unfold summaryLoopBody
  split_ifs <;> exact ⟨rfl, rfl, rfl⟩

theorem summaryLoopBody_TotalRetained (s : LedgerSummary) (t : Transaction) :
    (summaryLoopBody s t).TotalRetained =
      if t.TxType = TransactionTypeRetainageHeld then add64 s.TotalRetained t.AmountCents
      else if t.TxType = TransactionTypeRetainageRelease then
        sub64 s.TotalRetained t.AmountCents
      else s.TotalRetained := by
  unfold summaryLoopBody
  by_cases h1 : t.TxType = TransactionTypeInvoice
  · have n1 : ¬ t.TxType = TransactionTypeRetainageHeld :=
      fun e => absurd (h1.symm.trans e) (by decide)
    have n2 : ¬ t.TxType = TransactionTypeRetainageRelease :=
      fun e => absurd (h1.symm.trans e) (by decide)
    rw [if_pos h1, if_neg n1, if_neg n2]
  · by_cases h2 : t.TxType = TransactionTypePayment
    · have n1 : ¬ t.TxType = TransactionTypeRetainageHeld :=
        fun e => absurd (h2.symm.trans e) (by decide)
      have n2 : ¬ t.TxType = TransactionTypeRetainageRelease :=
        fun e => absurd (h2.symm.trans e) (by decide)
      rw [if_neg h1, if_pos h2, if_neg n1, if_neg n2]
    · rw [if_neg h1, if_neg h2]
      split_ifs <;> rfl

theorem summaryLoopBody_inInt64 (s : LedgerSummary) (t : Transaction)
    (h : inInt64 s.TotalInvoiced ∧ inInt64 s.TotalPaid ∧ inInt64 s.TotalRetained) :
    inInt64 (summaryLoopBody s t).TotalInvoiced ∧ inInt64 (summaryLoopBody s t).TotalPaid ∧
    inInt64 (summaryLoopBody s t).TotalRetained := by
  rw [summaryLoopBody_TotalInvoiced, summaryLoopBody_TotalPaid, summaryLoopBody_TotalRetained]
  refine ⟨?_, ?_, ?_⟩
  · split_ifs
    · exact wrap64_inInt64 _
    · exact h.1
  · split_ifs
    · exact wrap64_inInt64 _
    · exact h.2.1
  · split_ifs
    · exact wrap64_inInt64 _
    · exact wrap64_inInt64 _
    · exact h.2.2

theorem summary_fold_inInt64 : ∀ (l : List Transaction) (s : LedgerSummary),
    (inInt64 s.TotalInvoiced ∧ inInt64 s.TotalPaid ∧ inInt64 s.TotalRetained) →
    inInt64 (l.foldl summaryLoopBody s).TotalInvoiced ∧
    inInt64 (l.foldl summaryLoopBody s).TotalPaid ∧
    inInt64 (l.foldl summaryLoopBody s).TotalRetained := by
  intro l
  induction l with
  | nil => intro s h; exact h
  | cons t l ih =>
    intro s h
    rw [List.foldl_cons]
    exact ih _ (summaryLoopBody_inInt64 s t h)

/-- The loop of `GetProjectSummary` keeps the project and the count, and leaves
the currency of the last transaction it visits. -/
theorem summary_fold_frame : ∀ (l : List Transaction) (s : LedgerSummary),
    (l.foldl summaryLoopBody s).ProjectID = s.ProjectID ∧
    (l.foldl summaryLoopBody s).TransactionCount = s.TransactionCount ∧
    (l.foldl summaryLoopBody s).Currency =
      ((l.getLast?).map (fun t => t.Currency)).getD s.Currency := by
  intro l
  induction l with
  | nil => intro s; exact ⟨rfl, rfl, rfl⟩
  | cons t l ih =>
    intro s
    obtain ⟨f1, f2, f3⟩ := summaryLoopBody_frame s t
    obtain ⟨g1, g2, g3⟩ := ih (summaryLoopBody s t)
    rw [List.foldl_cons]
    refine ⟨g1.trans f1, g2.trans f2, ?_⟩
    rw [g3, f3]
    cases l with
    | nil => rfl
    | cons a l =>
      rw [List.getLast?_cons_cons]
      cases h : (a :: l).getLast? with
      | none => exact absurd (List.getLast?_eq_none_iff.mp h) (by simp)
      | some x => rfl

/-- The retained total after the loop of `GetProjectSummary`, up to the
reduction into `int64`. -/
theorem summary_fold_retained : ∀ (l : List Transaction) (s : LedgerSummary),
    wrap64 (l.foldl summaryLoopBody s).TotalRetained =
      wrap64 (s.TotalRetained + sumOfType TransactionTypeRetainageHeld l -
        sumOfType TransactionTypeRetainageRelease l) := by
  intro l
  induction l with
  | nil =>
    intro s
    simp [sumOfType]
  | cons t l ih =>
    intro s
    rw [List.foldl_cons, ih, summaryLoopBody_TotalRetained, sumOfType_cons, sumOfType_cons]
    by_cases h1 : t.TxType = TransactionTypeRetainageHeld
    · have n2 : ¬ t.TxType = TransactionTypeRetainageRelease :=
        fun e => absurd (h1.symm.trans e) (by decide)
      rw [if_pos h1, if_pos h1, if_neg n2, add64]
      unfold wrap64
      omega
    · by_cases h2 : t.TxType = TransactionTypeRetainageRelease
      · rw [if_neg h1, if_pos h2, if_neg h1, if_pos h2, sub64]
        unfold wrap64
        omega
      · rw [if_neg h1, if_neg h2, if_neg h1, if_neg h2]
        unfold wrap64
        omega

/-- The summary computed from the list `l` of a project's transactions. -/
theorem summary_of_list (p : UUID) (l : List Transaction) (s : LedgerSummary)
    (hs : s = l.foldl summaryLoopBody
      { ProjectID := p, TotalInvoiced := 0, TotalPaid := 0, TotalRetained := 0,
        CurrentBalance := 0, Currency := "", TransactionCount := l.length }) :
    s.ProjectID = p ∧ s.TransactionCount = l.length ∧
    s.Currency = ((l.getLast?).map (fun t => t.Currency)).getD "" ∧
    s.TotalInvoiced = wrap64 (sumOfType TransactionTypeInvoice l) ∧
    s.TotalPaid = wrap64 (sumOfType TransactionTypePayment l) ∧
    s.TotalRetained = wrap64 (sumOfType TransactionTypeRetainageHeld l -
      sumOfType TransactionTypeRetainageRelease l) := by
  subst hs
  obtain ⟨f1, f2, f3⟩ := summary_fold_frame l
    { ProjectID := p, TotalInvoiced := 0, TotalPaid := 0, TotalRetained := 0,
      CurrentBalance := 0, Currency := "", TransactionCount := l.length }
  obtain ⟨t1, t2⟩ := summary_fold_totals l
    { ProjectID := p, TotalInvoiced := 0, TotalPaid := 0, TotalRetained := 0,
      CurrentBalance := 0, Currency := "", TransactionCount := l.length }
  have t3 := summary_fold_retained l
    { ProjectID := p, TotalInvoiced := 0, TotalPaid := 0, TotalRetained := 0,
      CurrentBalance := 0, Currency := "", TransactionCount := l.length }
  have z : inInt64 0 := by decide
  obtain ⟨r1, r2, r3⟩ := summary_fold_inInt64 l
    { ProjectID := p, TotalInvoiced := 0, TotalPaid := 0, TotalRetained := 0,
      CurrentBalance := 0, Currency := "", TransactionCount := l.length }
    ⟨z, z, z⟩
  simp only [zero_add] at t1 t2 t3
  rw [wrap64_eq_self r1] at t1
  rw [wrap64_eq_self r2] at t2
  rw [wrap64_eq_self r3] at t3
  exact ⟨f1, f2, f3, t1, t2, t3⟩

/-- What `FindByProjectID` and `GetProjectSummary` return, for a given order of
iteration: a rearrangement of the project's stored transactions, and the
summary folded from it. -/
theorem GetProjectSummary_eq (r : InMemoryTransactionRepository) (o : RangeOrder r)
    (p : UUID) :
    ∃ l s, r.FindByProjectID o p = Except.ok l ∧ r.GetProjectSummary o p = Except.ok s ∧
      l.Perm (r.ofProject p) ∧
      s.ProjectID = p ∧ s.TransactionCount = l.length ∧
      s.Currency = ((l.getLast?).map (fun t => t.Currency)).getD "" ∧
      s.TotalInvoiced = wrap64 (sumOfType TransactionTypeInvoice l) ∧
      s.TotalPaid = wrap64 (sumOfType TransactionTypePayment l) ∧
      s.TotalRetained = wrap64 (sumOfType TransactionTypeRetainageHeld l -
        sumOfType TransactionTypeRetainageRelease l) ∧
      s.CurrentBalance = sub64 s.TotalInvoiced s.TotalPaid := by
  obtain ⟨h1, h2, h3, h4, h5, h6⟩ := summary_of_list p
    ((o.entries.filter (fun kv => kv.2.ProjectID == p)).map (fun kv => kv.2)) _ rfl
  exact ⟨_, _, rfl, rfl, (o.perm.filter _).map _, h1, h2, h3, h4, h5, h6, rfl⟩

/-- C21 (failing input): with the invoice effective at `100` saved before the
invoice effective at `300`, `FindByProjectID` returns them in the order the map
is visited: oldest first for one order of iteration, against the ordering
contract, and newest first for the opposite order. -/
theorem FindByProjectID_unordered :
    twoInvoicesStore.isMap ∧
    storedInvoice.EffectiveDate = 100 ∧ otherInvoice.EffectiveDate = 300 ∧
    twoInvoicesStore.FindByProjectID (RangeOrder.listed _) 7 =
      Except.ok [storedInvoice, otherInvoice] ∧
    ¬ orderedNewestFirstSpec [storedInvoice, otherInvoice] ∧
    twoInvoicesStore.FindByProjectID
      { entries := twoInvoicesStore.transactions.reverse
        perm := List.reverse_perm _ } 7 = Except.ok [otherInvoice, storedInvoice] ∧
    orderedNewestFirstSpec [otherInvoice, storedInvoice] := by
  refine ⟨by decide, rfl, rfl, rfl, by decide, rfl, by decide⟩

/-- C22 (counterexample): in a store holding two invoices of `2^63 - 1` and `1`
for one project, `TotalInvoiced` is `-2^63` while the sum of the `INVOICE`
amounts is `2^63`. -/
theorem GetProjectSummary_total_wraps :
    overflowingStore.isMap ∧
    sumOfType TransactionTypeInvoice (overflowingStore.ofProject 7) = 9223372036854775808 ∧
    ∃ s, overflowingStore.GetProjectSummary (RangeOrder.listed _) 7 = Except.ok s ∧
      s.TotalInvoiced = -9223372036854775808 ∧ s.TransactionCount = 2 := by
  refine ⟨by decide, by decide, _, rfl, by decide, by decide⟩

/-- C22 (amended): for every store state, project and order of iteration,
`GetProjectSummary` returns a summary in which `TransactionCount` is the number
of the project's stored transactions, `Currency` is the currency of the last
transaction visited when the project has one, and each of
`TotalInvoiced = sum of INVOICE amounts`, `TotalPaid = sum of PAYMENT amounts`,
`TotalRetained = sum of RETAINAGE_HELD amounts - sum of RETAINAGE_RELEASE amounts`
and `CurrentBalance = TotalInvoiced - TotalPaid` holds whenever its right-hand
side is representable in `int64`. -/
theorem GetProjectSummary_fold (r : InMemoryTransactionRepository) (o : RangeOrder r)
    (p : UUID) :
    ∃ l s, r.FindByProjectID o p = Except.ok l ∧ r.GetProjectSummary o p = Except.ok s ∧
      l.Perm (r.ofProject p) ∧
      (inInt64 (sumOfType TransactionTypeInvoice (r.ofProject p)) →
        s.TotalInvoiced = sumOfType TransactionTypeInvoice (r.ofProject p)) ∧
      (inInt64 (sumOfType TransactionTypePayment (r.ofProject p)) →
        s.TotalPaid = sumOfType TransactionTypePayment (r.ofProject p)) ∧
      (inInt64 (sumOfType TransactionTypeRetainageHeld (r.ofProject p) -
          sumOfType TransactionTypeRetainageRelease (r.ofProject p)) →
        s.TotalRetained = sumOfType TransactionTypeRetainageHeld (r.ofProject p) -
          sumOfType TransactionTypeRetainageRelease (r.ofProject p)) ∧
      (inInt64 (s.TotalInvoiced - s.TotalPaid) →
        s.CurrentBalance = s.TotalInvoiced - s.TotalPaid) ∧
      s.TransactionCount = (r.ofProject p).length ∧
      (∀ t, l.getLast? = some t → s.Currency = t.Currency) := by
  obtain ⟨l, s, hl, hs, hperm, _, hcount, hcur, h1, h2, h3, h4⟩ := GetProjectSummary_eq r o p
  refine ⟨l, s, hl, hs, hperm, ?_, ?_, ?_, ?_, ?_, ?_⟩
  · intro hfit
    rw [h1, sumOfType_perm _ hperm]
    exact wrap64_eq_self hfit
  · intro hfit
    rw [h2, sumOfType_perm _ hperm]
    exact wrap64_eq_self hfit
  · intro hfit
    rw [h3, sumOfType_perm _ hperm, sumOfType_perm _ hperm]
    exact wrap64_eq_self hfit
  · intro hfit
    rw [h4]
    exact wrap64_eq_self hfit
  · rw [hcount, hperm.length_eq]
  · intro t ht
    rw [hcur, ht]
    rfl

/-- C22 (witness): a store with an invoice, a payment, a held and a released
retainage and an adjustment for project `7`, and an invoice of another project. -/
theorem GetProjectSummary_fold_witness :
    ∃ s, mixedStore.GetProjectSummary (RangeOrder.listed _) 7 = Except.ok s ∧
      s.TotalInvoiced = 5000 ∧ s.TotalPaid = 1200 ∧ s.TotalRetained = 150 ∧
      s.CurrentBalance = 3800 ∧ s.TransactionCount = 5 := by
  obtain ⟨l, s, _, hs, _, h1, h2, h3, h4, h5, _⟩ :=
    GetProjectSummary_fold mixedStore (RangeOrder.listed _) 7
  have e1 : s.TotalInvoiced = 5000 := (h1 (by decide)).trans (by decide)
  have e2 : s.TotalPaid = 1200 := (h2 (by decide)).trans (by decide)
  have e3 : s.TotalRetained = 150 := (h3 (by decide)).trans (by decide)
  have e4 : s.CurrentBalance = 3800 := by
    rw [h4 (by rw [e1, e2]; decide), e1, e2]
    decide
  exact ⟨s, hs, e1, e2, e3, e4, h5.trans (by decide)⟩

/-- C23 (failing input): for a project without stored transactions the
in-memory `GetProjectSummary` returns zero totals and a zero count, with the
empty string as `Currency`, not `TRY`. -/
theorem GetProjectSummary_empty_currency :
    NewInMemoryTransactionRepository.GetProjectSummary (RangeOrder.listed _) 7 =
      Except.ok
        { ProjectID := 7, TotalInvoiced := 0, TotalPaid := 0, TotalRetained := 0,
          CurrentBalance := 0, Currency := "", TransactionCount := 0 } ∧
    twoInvoicesStore.GetProjectSummary (RangeOrder.listed _) 9 =
      Except.ok
        { ProjectID := 9, TotalInvoiced := 0, TotalPaid := 0, TotalRetained := 0,
          CurrentBalance := 0, Currency := "", TransactionCount := 0 } ∧
    ("" : String) ≠ "TRY" := by
  refine ⟨rfl, rfl, by decide⟩

theorem ofProject_Save_other (r : InMemoryTransactionRepository) (tx : Transaction) (p : UUID)
    (hp : tx.ProjectID ≠ p) (hfresh : ∀ kv ∈ r.transactions, kv.1 ≠ tx.ID) :
    (r.Save tx).1.ofProject p = r.ofProject p := by
  have hfilter : r.transactions.filter (fun kv => kv.1 != tx.ID) = r.transactions := by
    rw [List.filter_eq_self]
    intro kv hkv
    simpa using hfresh kv hkv
  have hb : (tx.ProjectID == p) = false := by simpa using hp
  unfold InMemoryTransactionRepository.ofProject InMemoryTransactionRepository.Save
  simp only []
  rw [hfilter, List.filter_append]
  simp [List.filter_cons, hb]

/-- C30: for every store state, every project `p` and every transaction of
another project whose identifier is not in the store, `Save` leaves the set of
transactions `FindByProjectID p` returns, and the totals, the balance and the
count of `GetProjectSummary p`, as they were, whatever the orders of iteration
before and after. -/
theorem Save_other_project_frame (r : InMemoryTransactionRepository) (tx : Transaction)
    (p : UUID) (hp : tx.ProjectID ≠ p) (hfresh : ∀ kv ∈ r.transactions, kv.1 ≠ tx.ID)
    (o : RangeOrder r) (o₂ : RangeOrder (r.Save tx).1) :
    ∃ l l₂ s s₂,
      r.FindByProjectID o p = Except.ok l ∧
      (r.Save tx).1.FindByProjectID o₂ p = Except.ok l₂ ∧ l₂.Perm l ∧
      r.GetProjectSummary o p = Except.ok s ∧
      (r.Save tx).1.GetProjectSummary o₂ p = Except.ok s₂ ∧
      s₂.TotalInvoiced = s.TotalInvoiced ∧ s₂.TotalPaid = s.TotalPaid ∧
      s₂.TotalRetained = s.TotalRetained ∧ s₂.CurrentBalance = s.CurrentBalance ∧
      s₂.TransactionCount = s.TransactionCount ∧ s₂.ProjectID = s.ProjectID := by
  obtain ⟨l, s, hl, hs, hperm, hpid, hcount, _, h1, h2, h3, h4⟩ := GetProjectSummary_eq r o p
  obtain ⟨l₂, s₂, hl₂, hs₂, hperm₂, hpid₂, hcount₂, _, k1, k2, k3, k4⟩ :=
    GetProjectSummary_eq (r.Save tx).1 o₂ p
  rw [ofProject_Save_other r tx p hp hfresh] at hperm₂
  have hll : l₂.Perm l := hperm₂.trans hperm.symm
  have e1 : s₂.TotalInvoiced = s.TotalInvoiced := by rw [k1, h1, sumOfType_perm _ hll]
  have e2 : s₂.TotalPaid = s.TotalPaid := by rw [k2, h2, sumOfType_perm _ hll]
  have e3 : s₂.TotalRetained = s.TotalRetained := by
    rw [k3, h3, sumOfType_perm _ hll, sumOfType_perm _ hll]
  refine ⟨l, l₂, s, s₂, hl, hl₂, hll, hs, hs₂, e1, e2, e3, ?_, ?_, ?_⟩
  · rw [k4, h4, e1, e2]
  · rw [hcount₂, hcount, hll.length_eq]
  · rw [hpid₂, hpid]

/-- C30 (witness): saving an invoice of project `8` into a store holding two
invoices of project `7` leaves the summary of project `7` as it was. -/
theorem Save_other_project_frame_witness :
    foreignInvoice.ProjectID ≠ 7 ∧
    ∃ s s₂,
      twoInvoicesStore.GetProjectSummary (RangeOrder.listed _) 7 = Except.ok s ∧
      (twoInvoicesStore.Save foreignInvoice).1.GetProjectSummary (RangeOrder.listed _) 7 =
        Except.ok s₂ ∧
      s₂.TotalInvoiced = s.TotalInvoiced ∧ s₂.TotalPaid = s.TotalPaid ∧
      s₂.TotalRetained = s.TotalRetained ∧ s₂.CurrentBalance = s.CurrentBalance ∧
      s₂.TransactionCount = s.TransactionCount := by
  obtain ⟨_, _, s, s₂, _, _, _, hs, hs₂, e1, e2, e3, e4, e5, _⟩ :=
    Save_other_project_frame twoInvoicesStore foreignInvoice 7 (by decide) (by decide)
      (RangeOrder.listed _) (RangeOrder.listed _)
  exact ⟨by decide, s, s₂, hs, hs₂, e1, e2, e3, e4, e5⟩

/-! ## Projects and users (C31, C32) -/

/-- C31: `Project.Validate` returns `ErrProjectNameRequired` exactly when the
name is empty, otherwise `ErrProjectCodeRequired` exactly when the code is
empty, otherwise `ErrInvalidContractAmount` exactly when the contract amount is
negative, otherwise nil; it returns no other error, and every project built by
`NewProject` with a non-empty name and a non-empty code validates. -/
theorem Project_Validate_spec (p : Project) :
    (p.Validate = some EntityError.ErrProjectNameRequired ↔ p.Name = "") ∧
    (p.Validate = some EntityError.ErrProjectCodeRequired ↔ p.Name ≠ "" ∧ p.Code = "") ∧
    (p.Validate = some EntityError.ErrInvalidContractAmount ↔
      p.Name ≠ "" ∧ p.Code ≠ "" ∧ p.ContractAmount < 0) ∧
    (p.Validate = none ↔ p.Name ≠ "" ∧ p.Code ≠ "" ∧ 0 ≤ p.ContractAmount) ∧
    (∀ e, p.Validate = some e → e = EntityError.ErrProjectNameRequired ∨
      e = EntityError.ErrProjectCodeRequired ∨ e = EntityError.ErrInvalidContractAmount) ∧
    (∀ (id : UUID) (now : Time) (tenantID : UUID) (name code : String),
      name ≠ "" → code ≠ "" → (NewProject id now tenantID name code).Validate = none) := by
  refine ⟨?_, ?_, ?_, ?_, ?_, ?_⟩
  · unfold Project.Validate
    split_ifs with h1 h2 h3 <;> simp [*]
  · unfold Project.Validate
    split_ifs with h1 h2 h3 <;> simp [*]
  · unfold Project.Validate
    split_ifs with h1 h2 h3 <;> simp [*]
  · unfold Project.Validate
    split_ifs with h1 h2 h3 <;> simp [*]
    omega
  · intro e
    unfold Project.Validate
    split_ifs with h1 h2 h3 <;> intro h <;> simp at h <;> simp [← h]
  · intro id now tenantID name code hn hc
    unfold Project.Validate NewProject
    simp [hn, hc]

theorem Project_Validate_spec_witness :
    "Test Project" ≠ "" ∧ "PRJ-001" ≠ "" ∧
      (NewProject 1 100 2 "Test Project" "PRJ-001").Validate = none :=
  ⟨by decide, by decide,
    (Project_Validate_spec (NewProject 1 100 2 "Test Project" "PRJ-001")).2.2.2.2.2
      1 100 2 "Test Project" "PRJ-001" (by decide) (by decide)⟩

/-- The four validation cases of the entity tests. -/
theorem Project_Validate_examples :
    (NewProject 1 100 2 "Test" "PRJ-001").Validate = none ∧
    (NewProject 1 100 2 "" "PRJ-001").Validate = some EntityError.ErrProjectNameRequired ∧
    (NewProject 1 100 2 "Test" "").Validate = some EntityError.ErrProjectCodeRequired ∧
    ({ NewProject 1 100 2 "Test" "PRJ-001" with ContractAmount := -1000 }).Validate =
      some EntityError.ErrInvalidContractAmount := by
  decide

/-- C32: `CanManageProjects` and `CanApprovePayments` hold exactly for the roles
`ADMIN` and `MANAGER`, `CanViewFinancials` exactly for `ADMIN`, `MANAGER` and
`ACCOUNTANT`; whoever can approve payments can view financials, and a `VIEWER`
or a role outside the four has none of the three permissions. -/
theorem User_permissions_spec (u : User) :
    (u.CanManageProjects = true ↔ u.Role = UserRoleAdmin ∨ u.Role = UserRoleManager) ∧
    (u.CanApprovePayments = true ↔ u.Role = UserRoleAdmin ∨ u.Role = UserRoleManager) ∧
    (u.CanViewFinancials = true ↔
      u.Role = UserRoleAdmin ∨ u.Role = UserRoleManager ∨ u.Role = UserRoleAccountant) ∧
    (u.CanApprovePayments = true → u.CanViewFinancials = true) ∧
    ((u.Role = UserRoleViewer ∨
        (u.Role ≠ UserRoleAdmin ∧ u.Role ≠ UserRoleManager ∧
          u.Role ≠ UserRoleAccountant ∧ u.Role ≠ UserRoleViewer)) →
      u.CanManageProjects = false ∧ u.CanApprovePayments = false ∧
        u.CanViewFinancials = false) := by
  have hm : u.CanManageProjects = true ↔ u.Role = UserRoleAdmin ∨ u.Role = UserRoleManager := by
    unfold User.CanManageProjects
    simp
  have ha : u.CanApprovePayments = true ↔ u.Role = UserRoleAdmin ∨ u.Role = UserRoleManager := by
    unfold User.CanApprovePayments
    simp
  have hv : u.CanViewFinancials = true ↔
      u.Role = UserRoleAdmin ∨ u.Role = UserRoleManager ∨ u.Role = UserRoleAccountant := by
    unfold User.CanViewFinancials
    simp [or_assoc]
  refine ⟨hm, ha, hv, ?_, ?_⟩
  · intro h
    rcases ha.mp h with h1 | h1
    · exact hv.mpr (Or.inl h1)
    · exact hv.mpr (Or.inr (Or.inl h1))
  · intro h
    have hn : u.Role ≠ UserRoleAdmin ∧ u.Role ≠ UserRoleManager ∧
        u.Role ≠ UserRoleAccountant := by
      rcases h with h | ⟨h1, h2, h3, _⟩
      · rw [h]
        decide
      · exact ⟨h1, h2, h3⟩
    obtain ⟨h1, h2, h3⟩ := hn
    refine ⟨?_, ?_, ?_⟩
    · cases hc : u.CanManageProjects
      · rfl
      · rcases hm.mp hc with h | h
        · exact absurd h h1
        · exact absurd h h2
    · cases hc : u.CanApprovePayments
      · rfl
      · rcases ha.mp hc with h | h
        · exact absurd h h1
        · exact absurd h h2
    · cases hc : u.CanViewFinancials
      · rfl
      · rcases hv.mp hc with h | h | h
        · exact absurd h h1
        · exact absurd h h2
        · exact absurd h h3

theorem User_permissions_spec_witness :
    (NewUser 1 100 2 "manager@test.com" "Site" "Manager" UserRoleManager).CanApprovePayments
        = true ∧
      (NewUser 1 100 2 "manager@test.com" "Site" "Manager" UserRoleManager).CanViewFinancials
        = true :=
  ⟨by decide,
    (User_permissions_spec
      (NewUser 1 100 2 "manager@test.com" "Site" "Manager" UserRoleManager)).2.2.2.1
      (by decide)⟩

/-- The permission cases of the entity tests, and an accountant. -/
theorem User_permissions_examples :
    (NewUser 1 100 2 "admin@test.com" "Admin" "User" UserRoleAdmin).CanManageProjects = true ∧
    (NewUser 1 100 2 "admin@test.com" "Admin" "User" UserRoleAdmin).CanViewFinancials = true ∧
    (NewUser 1 100 2 "admin@test.com" "Admin" "User" UserRoleAdmin).CanApprovePayments = true ∧
    (NewUser 1 100 2 "viewer@test.com" "View" "User" UserRoleViewer).CanManageProjects = false ∧
    (NewUser 1 100 2 "viewer@test.com" "View" "User" UserRoleViewer).CanViewFinancials = false ∧
    (NewUser 1 100 2 "a@test.com" "A" "B" UserRoleAccountant).CanViewFinancials = true ∧
    (NewUser 1 100 2 "a@test.com" "A" "B" UserRoleAccountant).CanApprovePayments = false ∧
    (NewUser 1 100 2 "a@test.com" "A" "B" "OWNER").CanViewFinancials = false := by
  decide

/-! ## Retainage bounds and unvalidated rates (C35, C36) -/

/-- The sums of the work and stored-material amounts, when these are at most
`10^12`, are computed without reduction. -/
theorem Calculate_sums_of_bounded {input : AIABillingInput} {r : AIABillingResult}
    (h : Calculate input = GoResult.ok r)
    (b3 : input.PreviousWorkCompleted ≤ 1000000000000)
    (b4 : input.CurrentWorkCompleted ≤ 1000000000000)
    (b5 : input.StoredMaterials ≤ 1000000000000) :
    0 ≤ input.PreviousWorkCompleted ∧ 0 ≤ input.CurrentWorkCompleted ∧
    0 ≤ input.StoredMaterials ∧
    r.TotalWorkCompleted = input.PreviousWorkCompleted + input.CurrentWorkCompleted ∧
    r.TotalCompletedAndStored =
      input.PreviousWorkCompleted + input.CurrentWorkCompleted + input.StoredMaterials := by
  obtain ⟨_, hp, hc, hs⟩ := (validateInput_eq_none_iff input).1 (validateInput_of_ok h)
  obtain ⟨_, h2, h3, _⟩ := Calculate_fields h
  have e2 : r.TotalWorkCompleted =
      input.PreviousWorkCompleted + input.CurrentWorkCompleted := by
    rw [h2]
    apply wrap64_eq_self
    unfold inInt64 minInt64 maxInt64
    omega
  refine ⟨hp, hc, hs, e2, ?_⟩
  rw [h3, e2]
  apply wrap64_eq_self
  unfold inInt64 minInt64 maxInt64
  omega

/-- A retainage at a rate between `0` and `10000` basis points of an amount
between `0` and `2 * 10^12` is the floor of the exact share, and lies between
`0` and the amount. -/
theorem calculatePercentage_bounded {amount rate : Int} (ha : 0 ≤ amount)
    (hb : amount ≤ 2000000000000) (hr : 0 ≤ rate) (hr1 : rate ≤ 10000) :
    calculatePercentage amount rate = amount * rate / 10000 ∧
    0 ≤ amount * rate / 10000 ∧ amount * rate / 10000 ≤ amount := by
  have hp0 : 0 ≤ amount * rate := Int.mul_nonneg ha hr
  have hp1 : amount * rate ≤ amount * 10000 := Int.mul_le_mul_of_nonneg_left hr1 ha
  have hfit : amount * rate ≤ maxInt64 := by
    unfold maxInt64
    omega
  refine ⟨calculatePercentage_of_fits ha hr hfit, ?_, ?_⟩
  · generalize amount * rate = p at hp0 hp1
    omega
  · generalize amount * rate = p at hp0 hp1
    omega

/-- C35: for every input accepted by `Calculate` whose two retainage rates lie
in `[0, 10000]` and whose work and stored-material amounts are at most `10^12`:
`0 ≤ LaborRetainage ≤ TotalWorkCompleted`,
`0 ≤ MaterialRetainage ≤ StoredMaterials`,
`0 ≤ TotalRetainage ≤ TotalCompletedAndStored` and `TotalEarned ≥ 0`. -/
theorem Calculate_retainage_bounds (input : AIABillingInput) (r : AIABillingResult)
    (h : Calculate input = GoResult.ok r)
    (hl0 : 0 ≤ input.LaborRetainageRate) (hl1 : input.LaborRetainageRate ≤ 10000)
    (hm0 : 0 ≤ input.MaterialRetainageRate) (hm1 : input.MaterialRetainageRate ≤ 10000)
    (b3 : input.PreviousWorkCompleted ≤ 1000000000000)
    (b4 : input.CurrentWorkCompleted ≤ 1000000000000)
    (b5 : input.StoredMaterials ≤ 1000000000000) :
    (0 ≤ r.LaborRetainage ∧ r.LaborRetainage ≤ r.TotalWorkCompleted) ∧
    (0 ≤ r.MaterialRetainage ∧ r.MaterialRetainage ≤ input.StoredMaterials) ∧
    (0 ≤ r.TotalRetainage ∧ r.TotalRetainage ≤ r.TotalCompletedAndStored) ∧
    0 ≤ r.TotalEarned := by
  obtain ⟨hp, hc, hs, e2, e3⟩ := Calculate_sums_of_bounded h b3 b4 b5
  obtain ⟨_, _, _, h4, h5, h6, h7, _⟩ := Calculate_fields h
  have hw0 : 0 ≤ r.TotalWorkCompleted := by omega
  have hw1 : r.TotalWorkCompleted ≤ 2000000000000 := by omega
  obtain ⟨eL, L0, L1⟩ := calculatePercentage_bounded hw0 hw1 hl0 hl1
  obtain ⟨eM, M0, M1⟩ := calculatePercentage_bounded hs (by omega) hm0 hm1
  rw [← h4] at eL
  rw [← h5] at eM
  rw [← eL] at L0 L1
  rw [← eM] at M0 M1
  have e6 : r.TotalRetainage = r.LaborRetainage + r.MaterialRetainage := by
    rw [h6]
    apply wrap64_eq_self
    unfold inInt64 minInt64 maxInt64
    omega
  have e7 : r.TotalEarned = r.TotalCompletedAndStored - r.TotalRetainage := by
    rw [h7]
    apply wrap64_eq_self
    unfold inInt64 minInt64 maxInt64
    omega
  refine ⟨⟨L0, L1⟩, ⟨M0, M1⟩, ⟨?_, ?_⟩, ?_⟩
  · omega
  · omega
  · omega

/-- C35 (witness): the basic test input, with retainage `4500000 + 250000` of
`50000000` completed and stored. -/
theorem Calculate_retainage_bounds_witness :
    Calculate basicInput = GoResult.ok basicResult ∧
    (0 ≤ basicResult.LaborRetainage ∧
      basicResult.LaborRetainage ≤ basicResult.TotalWorkCompleted) ∧
    (0 ≤ basicResult.MaterialRetainage ∧
      basicResult.MaterialRetainage ≤ basicInput.StoredMaterials) ∧
    (0 ≤ basicResult.TotalRetainage ∧
      basicResult.TotalRetainage ≤ basicResult.TotalCompletedAndStored) ∧
    0 ≤ basicResult.TotalEarned :=
  ⟨by decide, Calculate_retainage_bounds basicInput basicResult (by decide) (by decide)
    (by decide) (by decide) (by decide) (by decide) (by decide) (by decide)⟩

/-- The only errors `Calculate` returns are those of `validateInput`. -/
theorem Calculate_err_cases {input : AIABillingInput} {e : EntityError}
    (h : Calculate input = GoResult.err e) :
    e = EntityError.ErrInvalidContractAmount ∨ e = EntityError.ErrInvalidAmount := by
  cases hv : validateInput input with
  | none =>
    rw [Calculate_of_valid hv] at h
    cases h
  | some e1 =>
    rw [Calculate_of_invalid hv] at h
    cases h
    unfold validateInput at hv
    split_ifs at hv <;> cases hv
    · exact Or.inl rfl
    · exact Or.inr rfl
    · exact Or.inr rfl

/-- C36: `Calculate` does not validate the retainage rates. There is an input
with non-negative amounts and a labor rate above `10000` basis points that it
accepts, returning a result with `TotalRetainage > TotalCompletedAndStored` and
`TotalEarned < 0`; and for no input does it return `ErrRetainageExceedsTotal`. -/
theorem Calculate_rates_unvalidated :
    (∃ input r, 0 ≤ input.OriginalContractSum ∧ 0 ≤ input.PreviousWorkCompleted ∧
      0 ≤ input.CurrentWorkCompleted ∧ 0 ≤ input.StoredMaterials ∧
      10000 < input.LaborRetainageRate ∧
      Calculate input = GoResult.ok r ∧
      r.TotalRetainage > r.TotalCompletedAndStored ∧ r.TotalEarned < 0) ∧
    (∀ input, Calculate input ≠ GoResult.err EntityError.ErrRetainageExceedsTotal) := by
  refine ⟨⟨excessiveRateInput, _, by decide, by decide, by decide, by decide, by decide,
    rfl, by decide, by decide⟩, ?_⟩
  intro input h
  rcases Calculate_err_cases h with h1 | h1 <;> cases h1

/-- The result of `Calculate` on the input with the rate `20000`: a retainage of
`20000` on `10000` completed, and `-10000` earned. -/
theorem Calculate_excessive_rate :
    ∃ r, Calculate excessiveRateInput = GoResult.ok r ∧
      r.TotalCompletedAndStored = 10000 ∧ r.TotalRetainage = 20000 ∧
      r.TotalEarned = -10000 ∧ r.CurrentPaymentDue = -10000 :=
  ⟨_, rfl, by decide, by decide, by decide, by decide⟩

/-! ## Completion and the two retainage computations (C37, C38) -/

/-- With a positive contract sum and work and stored-material amounts of at most
`10^12`, `PercentComplete` is the floor of `TotalCompletedAndStored * 10000`
over `ContractSum`, and `BalanceToFinish` is the integer difference. -/
theorem Calculate_percent_of_bounded {input : AIABillingInput} {r : AIABillingResult}
    (h : Calculate input = GoResult.ok r) (hcs : 0 < r.ContractSum)
    (b3 : input.PreviousWorkCompleted ≤ 1000000000000)
    (b4 : input.CurrentWorkCompleted ≤ 1000000000000)
    (b5 : input.StoredMaterials ≤ 1000000000000) :
    0 ≤ r.TotalCompletedAndStored ∧
    r.PercentComplete = r.TotalCompletedAndStored * 10000 / r.ContractSum ∧
    r.BalanceToFinish = r.ContractSum - r.TotalCompletedAndStored := by
  obtain ⟨hp, hc, hs, e2, e3⟩ := Calculate_sums_of_bounded h b3 b4 b5
  obtain ⟨h1, _, _, _, _, _, _, _, _, h10, h11⟩ := Calculate_fields h
  have hC : inInt64 r.ContractSum := by
    rw [h1]
    exact wrap64_inInt64 _
  unfold inInt64 minInt64 maxInt64 at hC
  have hT0 : 0 ≤ r.TotalCompletedAndStored := by omega
  have hT1 : r.TotalCompletedAndStored ≤ 3000000000000 := by omega
  have hP0 : 0 ≤ r.TotalCompletedAndStored * 10000 := by omega
  have hin : inInt64 (r.TotalCompletedAndStored * 10000) := by
    unfold inInt64 minInt64 maxInt64
    omega
  refine ⟨hT0, ?_, ?_⟩
  · have hgt : r.ContractSum > 0 := hcs
    rw [h10, if_pos hgt]
    unfold quo64 mul64
    rw [wrap64_eq_self hin, tdiv_of_nonneg hP0 (le_of_lt hcs)]
    apply wrap64_eq_self
    have q0 : 0 ≤ r.TotalCompletedAndStored * 10000 / r.ContractSum :=
      Int.ediv_nonneg hP0 (le_of_lt hcs)
    have q1 : r.TotalCompletedAndStored * 10000 / r.ContractSum ≤
        r.TotalCompletedAndStored * 10000 := Int.ediv_le_self _ hP0
    unfold inInt64 minInt64 maxInt64
    omega
  · rw [h11]
    apply wrap64_eq_self
    unfold inInt64 minInt64 maxInt64
    omega

/-- C37: for every input accepted by `Calculate` with `ContractSum > 0` and
work and stored-material amounts of at most `10^12`: `PercentComplete ≥ 10000`
exactly when `BalanceToFinish ≤ 0`, that is when
`TotalCompletedAndStored ≥ ContractSum`; and `0 ≤ PercentComplete < 10000`
exactly when `BalanceToFinish > 0`. -/
theorem Calculate_percent_vs_balance (input : AIABillingInput) (r : AIABillingResult)
    (h : Calculate input = GoResult.ok r) (hcs : 0 < r.ContractSum)
    (b3 : input.PreviousWorkCompleted ≤ 1000000000000)
    (b4 : input.CurrentWorkCompleted ≤ 1000000000000)
    (b5 : input.StoredMaterials ≤ 1000000000000) :
    (10000 ≤ r.PercentComplete ↔ r.BalanceToFinish ≤ 0) ∧
    (r.BalanceToFinish ≤ 0 ↔ r.ContractSum ≤ r.TotalCompletedAndStored) ∧
    ((0 ≤ r.PercentComplete ∧ r.PercentComplete < 10000) ↔ 0 < r.BalanceToFinish) ∧
    0 ≤ r.PercentComplete := by
  obtain ⟨hT0, eP, eB⟩ := Calculate_percent_of_bounded h hcs b3 b4 b5
  have hP0 : 0 ≤ r.PercentComplete := by
    rw [eP]
    exact Int.ediv_nonneg (by omega) (le_of_lt hcs)
  have key : 10000 ≤ r.PercentComplete ↔ r.ContractSum ≤ r.TotalCompletedAndStored := by
    rw [eP, Int.le_ediv_iff_mul_le hcs]
    omega
  refine ⟨?_, ?_, ?_, hP0⟩
  · rw [key, eB]
    omega
  · rw [eB]
    omega
  · constructor
    · rintro ⟨_, h2⟩
      have h3 : ¬ r.ContractSum ≤ r.TotalCompletedAndStored := fun hc =>
        absurd (key.mpr hc) (by omega)
      rw [eB]
      omega
    · intro h2
      rw [eB] at h2
      have h3 : ¬ 10000 ≤ r.PercentComplete := fun hc => by
        have := key.mp hc
        omega
      exact ⟨hP0, by omega⟩

/-- C37 (witness): one minor unit short of a contract of `10^12`, the result
reports `9999` basis points and a balance of `1`. -/
theorem Calculate_percent_vs_balance_witness :
    ∃ r, Calculate almostCompleteInput = GoResult.ok r ∧
      r.PercentComplete = 9999 ∧ r.BalanceToFinish = 1 ∧
      ((10000 ≤ r.PercentComplete ↔ r.BalanceToFinish ≤ 0) ∧
        (r.BalanceToFinish ≤ 0 ↔ r.ContractSum ≤ r.TotalCompletedAndStored) ∧
        ((0 ≤ r.PercentComplete ∧ r.PercentComplete < 10000) ↔ 0 < r.BalanceToFinish) ∧
        0 ≤ r.PercentComplete) :=
  ⟨_, rfl, by decide, by decide,
    Calculate_percent_vs_balance almostCompleteInput _ rfl (by decide) (by decide)
      (by decide) (by decide)⟩

/-- The retainage of the report tool on non-negative amounts of at most `10^12`
and a rate between `0` and `10000`: the floor of the exact share of the whole
completed and stored amount. -/
theorem ReportTool_calculate_retainage (ri : ReportTool.AIABillingInput)
    (hp : 0 ≤ ri.WorkCompletedPreviousApp) (hc : 0 ≤ ri.WorkCompletedThisPeriod)
    (hs : 0 ≤ ri.MaterialsStoredToDate)
    (b3 : ri.WorkCompletedPreviousApp ≤ 1000000000000)
    (b4 : ri.WorkCompletedThisPeriod ≤ 1000000000000)
    (b5 : ri.MaterialsStoredToDate ≤ 1000000000000)
    (hr0 : 0 ≤ ri.RetainagePercent) (hr1 : ri.RetainagePercent ≤ 10000) :
    (ReportTool.calculate ri).TotalCompletedAndStored =
      ri.WorkCompletedPreviousApp + ri.WorkCompletedThisPeriod + ri.MaterialsStoredToDate ∧
    (ReportTool.calculate ri).Retainage =
      (ri.WorkCompletedPreviousApp + ri.WorkCompletedThisPeriod + ri.MaterialsStoredToDate) *
        ri.RetainagePercent / 10000 := by
  have e1 : add64 ri.WorkCompletedPreviousApp ri.WorkCompletedThisPeriod =
      ri.WorkCompletedPreviousApp + ri.WorkCompletedThisPeriod := by
    apply wrap64_eq_self
    unfold inInt64 minInt64 maxInt64
    omega
  have e2 : add64 (add64 ri.WorkCompletedPreviousApp ri.WorkCompletedThisPeriod)
      ri.MaterialsStoredToDate =
      ri.WorkCompletedPreviousApp + ri.WorkCompletedThisPeriod + ri.MaterialsStoredToDate := by
    rw [e1]
    apply wrap64_eq_self
    unfold inInt64 minInt64 maxInt64
    omega
  refine ⟨e2, ?_⟩
  show quo64 (mul64 (add64 (add64 ri.WorkCompletedPreviousApp ri.WorkCompletedThisPeriod)
    ri.MaterialsStoredToDate) ri.RetainagePercent) 10000 = _
  rw [e2]
  have ht0 : 0 ≤ ri.WorkCompletedPreviousApp + ri.WorkCompletedThisPeriod +
      ri.MaterialsStoredToDate := by omega
  have ht1 : ri.WorkCompletedPreviousApp + ri.WorkCompletedThisPeriod +
      ri.MaterialsStoredToDate ≤ 3000000000000 := by omega
  generalize ri.WorkCompletedPreviousApp + ri.WorkCompletedThisPeriod +
    ri.MaterialsStoredToDate = t at ht0 ht1
  have hp0 : 0 ≤ t * ri.RetainagePercent := Int.mul_nonneg ht0 hr0
  have hp1 : t * ri.RetainagePercent ≤ t * 10000 := Int.mul_le_mul_of_nonneg_left hr1 ht0
  have hin : inInt64 (t * ri.RetainagePercent) := by
    unfold inInt64 minInt64 maxInt64
    omega
  unfold quo64 mul64
  rw [wrap64_eq_self hin, tdiv_of_nonneg hp0 (by decide)]
  apply wrap64_eq_self
  unfold inInt64 minInt64 maxInt64
  generalize t * ri.RetainagePercent = p at hp0 hp1
  omega

/-- C38: split and blended retainage differ by at most one minor unit. For every
input accepted by `Calculate` with both rates equal to `rate`,
`0 ≤ rate ≤ 10000`, and work and stored-material amounts of at most `10^12`, and
for every input of the report tool with the same three amounts and the same
rate, the report's retainage is the floor of
`TotalCompletedAndStored * rate / 10000` and
`TotalRetainage ≤ Retainage ≤ TotalRetainage + 1`. -/
theorem split_vs_blended_retainage (input : AIABillingInput) (r : AIABillingResult)
    (ri : ReportTool.AIABillingInput) (rate : Int)
    (h : Calculate input = GoResult.ok r)
    (hL : input.LaborRetainageRate = rate) (hM : input.MaterialRetainageRate = rate)
    (hr0 : 0 ≤ rate) (hr1 : rate ≤ 10000)
    (b3 : input.PreviousWorkCompleted ≤ 1000000000000)
    (b4 : input.CurrentWorkCompleted ≤ 1000000000000)
    (b5 : input.StoredMaterials ≤ 1000000000000)
    (i3 : ri.WorkCompletedPreviousApp = input.PreviousWorkCompleted)
    (i4 : ri.WorkCompletedThisPeriod = input.CurrentWorkCompleted)
    (i5 : ri.MaterialsStoredToDate = input.StoredMaterials)
    (iR : ri.RetainagePercent = rate) :
    (ReportTool.calculate ri).TotalCompletedAndStored = r.TotalCompletedAndStored ∧
    (ReportTool.calculate ri).Retainage = r.TotalCompletedAndStored * rate / 10000 ∧
    r.TotalRetainage ≤ (ReportTool.calculate ri).Retainage ∧
    (ReportTool.calculate ri).Retainage ≤ r.TotalRetainage + 1 := by
  obtain ⟨hp, hc, hs, e2, e3⟩ := Calculate_sums_of_bounded h b3 b4 b5
  obtain ⟨_, _, _, h4, h5, h6, _⟩ := Calculate_fields h
  obtain ⟨eT, eR⟩ := ReportTool_calculate_retainage ri (by omega) (by omega) (by omega)
    (by omega) (by omega) (by omega) (by omega) (by omega)
  rw [i3, i4, i5, ← e3] at eT
  rw [i3, i4, i5, iR, ← e3] at eR
  have hw0 : 0 ≤ r.TotalWorkCompleted := by omega
  have hw1 : r.TotalWorkCompleted ≤ 2000000000000 := by omega
  obtain ⟨eL, L0, L1⟩ := calculatePercentage_bounded hw0 hw1 hr0 hr1
  obtain ⟨eM, M0, M1⟩ := calculatePercentage_bounded hs (by omega) hr0 hr1
  rw [hL] at h4
  rw [hM] at h5
  rw [← h4] at eL
  rw [← h5] at eM
  have e6 : r.TotalRetainage = r.LaborRetainage + r.MaterialRetainage := by
    rw [h6]
    apply wrap64_eq_self
    unfold inInt64 minInt64 maxInt64
    omega
  have eS : r.TotalCompletedAndStored * rate =
      r.TotalWorkCompleted * rate + input.StoredMaterials * rate := by
    rw [e3, e2]
    ring
  refine ⟨eT, eR, ?_, ?_⟩
  · rw [eR, e6, eL, eM, eS]
    generalize r.TotalWorkCompleted * rate = p
    generalize input.StoredMaterials * rate = q
    omega
  · rw [eR, e6, eL, eM, eS]
    generalize r.TotalWorkCompleted * rate = p
    generalize input.StoredMaterials * rate = q
    omega

/-- C38 (witness): at `10 %` the service retains nothing of `5` and nothing of
`5`, the report tool retains `1` of `10`. -/
theorem split_vs_blended_retainage_witness :
    ∃ r, Calculate sameRateInput = GoResult.ok r ∧
      r.TotalRetainage = 0 ∧
      (ReportTool.calculate (reportInputOf sameRateInput 1000)).Retainage = 1 ∧
      ((ReportTool.calculate (reportInputOf sameRateInput 1000)).TotalCompletedAndStored =
          r.TotalCompletedAndStored ∧
        (ReportTool.calculate (reportInputOf sameRateInput 1000)).Retainage =
          r.TotalCompletedAndStored * 1000 / 10000 ∧
        r.TotalRetainage ≤ (ReportTool.calculate (reportInputOf sameRateInput 1000)).Retainage ∧
        (ReportTool.calculate (reportInputOf sameRateInput 1000)).Retainage ≤
          r.TotalRetainage + 1) :=
  ⟨_, rfl, by decide, by decide,
    split_vs_blended_retainage sameRateInput _ (reportInputOf sameRateInput 1000) 1000 rfl
      (by decide) (by decide) (by decide) (by decide) (by decide) (by decide) (by decide)
      rfl rfl rfl rfl⟩

/-! ## Balance recomputation (C33, C34) -/

/-- One step of the loop of `CalculateBalance`, up to the reduction into
`int64`. -/
theorem balanceLoopBody_wrap (b : Int) (t : Transaction) :
    wrap64 (balanceLoopBody b t) =
      wrap64 (b + (if t.TxType = TransactionTypeInvoice then t.AmountCents else 0)
        - (if t.TxType = TransactionTypePayment then t.AmountCents else 0)
        - (if t.TxType = TransactionTypeRetainageRelease then t.AmountCents else 0)
        - (if t.TxType = TransactionTypeDeduction then t.AmountCents else 0)) := by
  have n1 : TransactionTypeInvoice ≠ TransactionTypePayment := by decide
  have n2 : TransactionTypeInvoice ≠ TransactionTypeRetainageRelease := by decide
  have n3 : TransactionTypeInvoice ≠ TransactionTypeDeduction := by decide
  have n4 : TransactionTypePayment ≠ TransactionTypeRetainageRelease := by decide
  have n5 : TransactionTypePayment ≠ TransactionTypeDeduction := by decide
  have n6 : TransactionTypeRetainageRelease ≠ TransactionTypeDeduction := by decide
  unfold balanceLoopBody
  by_cases h1 : t.TxType = TransactionTypeInvoice
  · rw [if_pos h1, if_pos h1, if_neg (h1 ▸ n1), if_neg (h1 ▸ n2), if_neg (h1 ▸ n3)]
    unfold add64 wrap64
    omega
  · rw [if_neg h1, if_neg h1]
    by_cases h2 : t.TxType = TransactionTypePayment
    · rw [if_pos h2, if_pos h2, if_neg (h2 ▸ n4), if_neg (h2 ▸ n5)]
      unfold sub64 wrap64
      omega
    · rw [if_neg h2, if_neg h2]
      by_cases h3 : t.TxType = TransactionTypeRetainageHeld
      · have k4 : t.TxType ≠ TransactionTypeRetainageRelease := by
          rw [h3]
          decide
        have k5 : t.TxType ≠ TransactionTypeDeduction := by
          rw [h3]
          decide
        rw [if_pos h3, if_neg k4, if_neg k5]
        simp
      · rw [if_neg h3]
        by_cases h4 : t.TxType = TransactionTypeRetainageRelease
        · rw [if_pos h4, if_pos h4, if_neg (h4 ▸ n6)]
          unfold sub64 wrap64
          omega
        · rw [if_neg h4, if_neg h4]
          by_cases h5 : t.TxType = TransactionTypeDeduction
          · rw [if_pos h5, if_pos h5]
            unfold sub64 wrap64
            omega
          · rw [if_neg h5, if_neg h5]
            simp

/-- One step of the loop of `CalculateBalance` keeps the balance in `int64`. -/
theorem balanceLoopBody_inInt64 (b : Int) (t : Transaction) (hb : inInt64 b) :
    inInt64 (balanceLoopBody b t) := by
  unfold balanceLoopBody
  split_ifs
  all_goals first
    | exact hb
    | exact wrap64_inInt64 _

/-- The balance after the loop of `CalculateBalance`, up to the reduction into
`int64`. -/
theorem balance_fold_wrap : ∀ (l : List Transaction) (b : Int),
    wrap64 (l.foldl balanceLoopBody b) =
      wrap64 (b + sumOfType TransactionTypeInvoice l - sumOfType TransactionTypePayment l
        - sumOfType TransactionTypeRetainageRelease l
        - sumOfType TransactionTypeDeduction l) := by
  intro l
  induction l with
  | nil =>
    intro b
    simp [sumOfType]
  | cons t l ih =>
    intro b
    rw [List.foldl_cons, ih, sumOfType_cons, sumOfType_cons, sumOfType_cons, sumOfType_cons]
    have h := balanceLoopBody_wrap b t
    generalize balanceLoopBody b t = b2 at h
    generalize (if t.TxType = TransactionTypeInvoice then t.AmountCents else 0) = x1 at h
    generalize (if t.TxType = TransactionTypePayment then t.AmountCents else 0) = x2 at h
    generalize (if t.TxType = TransactionTypeRetainageRelease then t.AmountCents else 0) = x3
      at h
    generalize (if t.TxType = TransactionTypeDeduction then t.AmountCents else 0) = x4 at h
    unfold wrap64 at *
    omega

theorem balance_fold_inInt64 : ∀ (l : List Transaction) (b : Int), inInt64 b →
    inInt64 (l.foldl balanceLoopBody b) := by
  intro l
  induction l with
  | nil =>
    intro b hb
    exact hb
  | cons t l ih =>
    intro b hb
    rw [List.foldl_cons]
    exact ih _ (balanceLoopBody_inInt64 b t hb)

/-- The value of `CalculateBalance`: the signed sum of the four kinds of
amounts, reduced into `int64`. -/
theorem CalculateBalance_eq {σ : Type} (s : LedgerService σ) (l : List Transaction) :
    s.CalculateBalance l =
      wrap64 (sumOfType TransactionTypeInvoice l - sumOfType TransactionTypePayment l
        - sumOfType TransactionTypeRetainageRelease l
        - sumOfType TransactionTypeDeduction l) := by
  unfold LedgerService.CalculateBalance
  have h0 : inInt64 (0 : Int) := by decide
  rw [← wrap64_eq_self (balance_fold_inInt64 l 0 h0), balance_fold_wrap, zero_add]

/-- Dropping the transactions a predicate rejects leaves the sum of a type
unchanged when the predicate accepts every transaction of that type. -/
theorem sumOfType_filter (ty : TransactionType) (P : Transaction → Bool)
    (hP : ∀ t : Transaction, t.TxType = ty → P t = true) (l : List Transaction) :
    sumOfType ty (l.filter P) = sumOfType ty l := by
  induction l with
  | nil => rfl
  | cons t l ih =>
    by_cases hp : P t = true
    · rw [List.filter_cons_of_pos hp, sumOfType_cons, sumOfType_cons, ih]
    · rw [List.filter_cons_of_neg hp, sumOfType_cons, ih]
      have : t.TxType ≠ ty := fun h => hp (hP t h)
      rw [if_neg this, zero_add]

/-- C33 (counterexample): for two invoices of `2^63 - 1` and `1`,
`CalculateBalance` is `-2^63` while the sum of the `INVOICE` amounts is `2^63`. -/
theorem CalculateBalance_wraps :
    inMemoryLedger.CalculateBalance overflowingHistory = -9223372036854775808 ∧
    sumOfType TransactionTypeInvoice overflowingHistory
      - sumOfType TransactionTypePayment overflowingHistory
      - sumOfType TransactionTypeRetainageRelease overflowingHistory
      - sumOfType TransactionTypeDeduction overflowingHistory = 9223372036854775808 ∧
    (∀ t ∈ overflowingHistory, t.Validate = none) := by
  refine ⟨by decide, by decide, by decide⟩

/-- C33 (amended): for every list of transactions, `CalculateBalance` returns
(sum of `INVOICE` amounts) - (sum of `PAYMENT` amounts) - (sum of
`RETAINAGE_RELEASE` amounts) - (sum of `DEDUCTION` amounts) whenever that
integer is representable in `int64`, and its reduction into `int64` in every
case; transactions of the remaining types can be dropped from the list without
changing the result, the empty list gives `0`, and the result is the same for
every rearrangement of the list. -/
theorem CalculateBalance_spec {σ : Type} (s : LedgerService σ) (l : List Transaction) :
    (inInt64 (sumOfType TransactionTypeInvoice l - sumOfType TransactionTypePayment l
        - sumOfType TransactionTypeRetainageRelease l
        - sumOfType TransactionTypeDeduction l) →
      s.CalculateBalance l =
        sumOfType TransactionTypeInvoice l - sumOfType TransactionTypePayment l
          - sumOfType TransactionTypeRetainageRelease l
          - sumOfType TransactionTypeDeduction l) ∧
    s.CalculateBalance l =
      wrap64 (sumOfType TransactionTypeInvoice l - sumOfType TransactionTypePayment l
        - sumOfType TransactionTypeRetainageRelease l
        - sumOfType TransactionTypeDeduction l) ∧
    s.CalculateBalance (l.filter countsInBalance) = s.CalculateBalance l ∧
    s.CalculateBalance [] = 0 ∧
    (∀ l2 : List Transaction, l.Perm l2 → s.CalculateBalance l2 = s.CalculateBalance l) := by
  refine ⟨?_, CalculateBalance_eq s l, ?_, rfl, ?_⟩
  · intro hfit
    rw [CalculateBalance_eq, wrap64_eq_self hfit]
  · rw [CalculateBalance_eq, CalculateBalance_eq]
    rw [sumOfType_filter, sumOfType_filter, sumOfType_filter, sumOfType_filter]
    all_goals
      intro t ht
      unfold countsInBalance
      simp [ht]
  · intro l2 hperm
    rw [CalculateBalance_eq, CalculateBalance_eq, sumOfType_perm _ hperm,
      sumOfType_perm _ hperm, sumOfType_perm _ hperm, sumOfType_perm _ hperm]

/-- C33 (witness): on one transaction of every type the balance is
`5000 - 1200 - 100 - 30`, also with the list reversed. -/
theorem CalculateBalance_spec_witness :
    inMemoryLedger.CalculateBalance auditHistory = 3670 ∧
    inMemoryLedger.CalculateBalance auditHistory.reverse =
      inMemoryLedger.CalculateBalance auditHistory :=
  ⟨((CalculateBalance_spec inMemoryLedger auditHistory).1 (by decide)).trans (by decide),
    (CalculateBalance_spec inMemoryLedger auditHistory).2.2.2.2 _
      (List.reverse_perm auditHistory).symm⟩

/-- Over transactions with positive amounts the sum of a type is non-negative,
and it is zero exactly when no transaction has that type. -/
theorem sumOfType_of_pos (ty : TransactionType) (l : List Transaction)
    (hpos : ∀ t ∈ l, 0 < t.AmountCents) :
    0 ≤ sumOfType ty l ∧ (sumOfType ty l = 0 ↔ ∀ t ∈ l, t.TxType ≠ ty) := by
  induction l with
  | nil =>
    refine ⟨le_of_eq rfl, ?_⟩
    simp [sumOfType]
  | cons t l ih =>
    have ht : 0 < t.AmountCents := hpos t (List.mem_cons_self _ _)
    obtain ⟨i0, i1⟩ := ih (fun u hu => hpos u (List.mem_cons_of_mem _ hu))
    rw [sumOfType_cons]
    by_cases h : t.TxType = ty
    · rw [if_pos h]
      refine ⟨by omega, ?_⟩
      constructor
      · intro h0
        omega
      · intro hall
        exact absurd h (hall t (List.mem_cons_self _ _))
    · rw [if_neg h, zero_add]
      refine ⟨i0, ?_⟩
      rw [i1]
      constructor
      · intro hall u hu
        rcases List.mem_cons.mp hu with rfl | hu
        · exact h
        · exact hall u hu
      · intro hall u hu
        exact hall u (List.mem_cons_of_mem _ hu)

/-- C34 (counterexample): in a store holding three retainage releases of
`2^63 - 1`, `2^63 - 1` and `2` for one project, all valid, the recomputed
balance and the balance of the summary are both `0`: they are equal although the
list contains releases, and the recomputed balance is not the summary balance
less the released `2^64`. -/
theorem CalculateBalance_vs_summary_wraps :
    wrappingReleasesStore.isMap ∧
    ∃ l sm, wrappingReleasesStore.FindByProjectID (RangeOrder.listed _) 7 = Except.ok l ∧
      wrappingReleasesStore.GetProjectSummary (RangeOrder.listed _) 7 = Except.ok sm ∧
      (∀ t ∈ l, t.Validate = none ∧ 0 < t.AmountCents) ∧
      sumOfType TransactionTypeRetainageRelease l = 18446744073709551616 ∧
      sumOfType TransactionTypeDeduction l = 0 ∧
      inMemoryLedger.CalculateBalance l = 0 ∧ sm.CurrentBalance = 0 ∧
      inMemoryLedger.CalculateBalance l ≠
        sm.CurrentBalance - sumOfType TransactionTypeRetainageRelease l
          - sumOfType TransactionTypeDeduction l ∧
      ¬ (inMemoryLedger.CalculateBalance l = sm.CurrentBalance ↔
        ∀ t ∈ l, t.TxType ≠ TransactionTypeRetainageRelease ∧
          t.TxType ≠ TransactionTypeDeduction) := by
  refine ⟨by decide, _, _, rfl, rfl, by decide, by decide, by decide, by decide, by decide,
    by decide, by decide⟩

/-- C34 (amended): for every store whose transactions of a project have positive
amounts, and for every order in which the history and the summary visit them:
whenever `CurrentBalance - (sum of RETAINAGE_RELEASE amounts) - (sum of
DEDUCTION amounts)` is representable in `int64`, `CalculateBalance` of the
history equals it, and the two balances are then equal if and only if the
history contains no `RETAINAGE_RELEASE` and no `DEDUCTION` transaction. -/
theorem CalculateBalance_vs_summary {σ : Type} (s : LedgerService σ)
    (r : InMemoryTransactionRepository) (o o2 : RangeOrder r) (p : UUID)
    (hpos : ∀ t ∈ r.ofProject p, 0 < t.AmountCents) :
    ∃ l sm, r.FindByProjectID o p = Except.ok l ∧ r.GetProjectSummary o2 p = Except.ok sm ∧
      (inInt64 (sm.CurrentBalance - sumOfType TransactionTypeRetainageRelease l
          - sumOfType TransactionTypeDeduction l) →
        s.CalculateBalance l =
          sm.CurrentBalance - sumOfType TransactionTypeRetainageRelease l
            - sumOfType TransactionTypeDeduction l ∧
        (s.CalculateBalance l = sm.CurrentBalance ↔
          ∀ t ∈ l, t.TxType ≠ TransactionTypeRetainageRelease ∧
            t.TxType ≠ TransactionTypeDeduction)) := by
  obtain ⟨l, _, hl, _, hperm, _⟩ := GetProjectSummary_eq r o p
  obtain ⟨l2, sm, _, hsm, hperm2, _, _, _, h1, h2, _, h4⟩ := GetProjectSummary_eq r o2 p
  refine ⟨l, sm, hl, hsm, ?_⟩
  have hp12 : l2.Perm l := hperm2.trans hperm.symm
  rw [sumOfType_perm _ hp12] at h1 h2
  have hposl : ∀ t ∈ l, 0 < t.AmountCents := fun t ht => hpos t (hperm.mem_iff.mp ht)
  obtain ⟨r0, rz⟩ := sumOfType_of_pos TransactionTypeRetainageRelease l hposl
  obtain ⟨d0, dz⟩ := sumOfType_of_pos TransactionTypeDeduction l hposl
  intro hfit
  have hB : sm.CurrentBalance = wrap64 (sumOfType TransactionTypeInvoice l
      - sumOfType TransactionTypePayment l) := by
    rw [h4, h1, h2]
    unfold sub64 wrap64
    omega
  have hC : s.CalculateBalance l =
      sm.CurrentBalance - sumOfType TransactionTypeRetainageRelease l
        - sumOfType TransactionTypeDeduction l := by
    rw [CalculateBalance_eq]
    rw [hB] at hfit ⊢
    unfold inInt64 minInt64 maxInt64 at hfit
    unfold wrap64 at hfit ⊢
    omega
  refine ⟨hC, ?_⟩
  rw [hC]
  constructor
  · intro he t ht
    have hr : sumOfType TransactionTypeRetainageRelease l = 0 := by omega
    have hd : sumOfType TransactionTypeDeduction l = 0 := by omega
    exact ⟨rz.mp hr t ht, dz.mp hd t ht⟩
  · intro hall
    have hr : sumOfType TransactionTypeRetainageRelease l = 0 :=
      rz.mpr (fun t ht => (hall t ht).1)
    have hd : sumOfType TransactionTypeDeduction l = 0 :=
      dz.mpr (fun t ht => (hall t ht).2)
    omega

/-- C34 (witness): in the store with an invoice of `5000`, a payment of `1200`,
a release of `100` and a deduction of `30`, the summary balance is `3800` and
the recomputed balance `3670`. -/
theorem CalculateBalance_vs_summary_witness :
    (∀ t ∈ auditStore.ofProject 7, 0 < t.AmountCents) ∧
    ∃ l sm, auditStore.FindByProjectID (RangeOrder.listed _) 7 = Except.ok l ∧
      auditStore.GetProjectSummary (RangeOrder.listed _) 7 = Except.ok sm ∧
      sm.CurrentBalance = 3800 ∧
      inMemoryLedger.CalculateBalance l = 3670 ∧
      inMemoryLedger.CalculateBalance l ≠ sm.CurrentBalance := by
  have hpos : ∀ t ∈ auditStore.ofProject 7, 0 < t.AmountCents := by decide
  obtain ⟨l, sm, hl, hsm, h⟩ := CalculateBalance_vs_summary inMemoryLedger auditStore
    (RangeOrder.listed _) (RangeOrder.listed _) 7 hpos
  have el : l = auditStore.ofProject 7 := by
    have h2 : auditStore.FindByProjectID (RangeOrder.listed _) 7 =
        Except.ok (auditStore.ofProject 7) := rfl
    rw [h2] at hl
    cases hl
    rfl
  have es : sm.CurrentBalance = 3800 := by
    have h2 : auditStore.GetProjectSummary (RangeOrder.listed _) 7 =
        Except.ok
          { ProjectID := 7, TotalInvoiced := 5000, TotalPaid := 1200, TotalRetained := 150,
            CurrentBalance := 3800, Currency := "TRY", TransactionCount := 7 } := by
      rfl
    rw [h2] at hsm
    cases hsm
    rfl
  subst el
  have hc := (h (by rw [es]; decide)).1
  rw [es] at hc
  have e3 : inMemoryLedger.CalculateBalance (auditStore.ofProject 7) = 3670 :=
    hc.trans (by decide)
  refine ⟨hpos, _, sm, hl, hsm, es, e3, ?_⟩
  rw [e3, es]
  decide

/-! ## Currency formatting: loss-free rendering and termination (C39, C40) -/

theorem digitChar_isDigit (d : Nat) (h : d < 10) :
    (Nat.digitChar d).isDigit = true ∧ (Nat.digitChar d).toNat - 48 = d := by
  interval_cases d <;> decide

theorem isDigit_not_separator (c : Char) (h : c.isDigit = true) :
    (c != ',' && c != '.') = true := by
  have h1 : c ≠ ',' := by
    rintro rfl
    exact absurd h (by decide)
  have h2 : c ≠ '.' := by
    rintro rfl
    exact absurd h (by decide)
  simp [h1, h2]

theorem decimalNumeralSpec_isDigit (n : Nat) : ∀ c ∈ decimalNumeralSpec n, c.isDigit = true := by
  intro c hc
  unfold decimalNumeralSpec at hc
  by_cases h : n = 0
  · rw [if_pos h] at hc
    rw [List.mem_singleton.mp hc]
    decide
  · rw [if_neg h] at hc
    obtain ⟨d, hd, rfl⟩ := List.mem_map.mp hc
    rw [List.mem_reverse] at hd
    exact (digitChar_isDigit d (Nat.digits_lt_base (by decide) hd)).1

/-- Reading a list of digits, least significant first, through their
characters gives back the number they denote. -/
theorem numeralValue_digits : ∀ L : List Nat, (∀ d ∈ L, d < 10) →
    List.foldr (fun c acc => 10 * acc + (c.toNat - 48)) 0 (L.map Nat.digitChar) =
      Nat.ofDigits 10 L := by
  intro L
  induction L with
  | nil =>
    intro _
    rfl
  | cons d L ih =>
    intro h
    rw [List.map_cons, List.foldr_cons, ih (fun x hx => h x (List.mem_cons_of_mem _ hx)),
      Nat.ofDigits_cons, (digitChar_isDigit d (h d (List.mem_cons_self _ _))).2]
    omega

theorem numeralValueSpec_decimalNumeralSpec (n : Nat) :
    numeralValueSpec (decimalNumeralSpec n) = n := by
  unfold numeralValueSpec decimalNumeralSpec
  by_cases h : n = 0
  · subst h
    rfl
  · rw [if_neg h, List.map_reverse, List.foldl_reverse,
      numeralValue_digits _ (fun d hd => Nat.digits_lt_base (by decide) hd),
      Nat.ofDigits_digits]

theorem numeralValueSpec_append_two (l : List Char) (a b : Char) :
    numeralValueSpec (l ++ [a, b]) =
      numeralValueSpec l * 100 + 10 * (a.toNat - 48) + (b.toNat - 48) := by
  unfold numeralValueSpec
  rw [List.foldl_append]
  simp only [List.foldl_cons, List.foldl_nil]
  omega

/-- Removing the separators from the grouping of a string of digits gives the
string back. -/
theorem stripSeparatorsSpec_grouped : ∀ l : List Char, (∀ c ∈ l, c.isDigit = true) →
    stripSeparatorsSpec (groupThousandsSpec l) = l := by
  intro l
  induction l with
  | nil =>
    intro _
    rfl
  | cons d rest ih =>
    intro h
    have hd := isDigit_not_separator d (h d (List.mem_cons_self _ _))
    have hrest := ih (fun c hc => h c (List.mem_cons_of_mem _ hc))
    unfold stripSeparatorsSpec at hrest ⊢
    rw [groupThousandsSpec_cons]
    split_ifs
    · simp [List.filter_cons, hd, hrest]
    · simp [List.filter_cons, hd, hrest]

theorem stripSeparatorsSpec_amountBodySpec (c : Nat) :
    stripSeparatorsSpec (amountBodySpec c) =
      decimalNumeralSpec (c / 100) ++
        [Nat.digitChar (c % 100 / 10 % 10), Nat.digitChar (c % 100 % 10)] := by
  have h1 := stripSeparatorsSpec_grouped _ (decimalNumeralSpec_isDigit (c / 100))
  have d1 := isDigit_not_separator _ (digitChar_isDigit (c % 100 / 10 % 10) (by omega)).1
  have d2 := isDigit_not_separator _ (digitChar_isDigit (c % 100 % 10) (by omega)).1
  unfold stripSeparatorsSpec at h1 ⊢
  unfold amountBodySpec
  rw [List.filter_append, h1]
  simp [List.filter_cons, d1, d2]

/-- The digits of the rendered amount denote the amount. -/
theorem numeralValueSpec_amountBodySpec (c : Nat) :
    numeralValueSpec (stripSeparatorsSpec (amountBodySpec c)) = c := by
  rw [stripSeparatorsSpec_amountBodySpec, numeralValueSpec_append_two,
    numeralValueSpec_decimalNumeralSpec,
    (digitChar_isDigit (c % 100 / 10 % 10) (by omega)).2,
    (digitChar_isDigit (c % 100 % 10) (by omega)).2]
  omega

theorem stripSeparatorsSpec_amountBodySpec_isDigit (c : Nat) :
    ∀ x ∈ stripSeparatorsSpec (amountBodySpec c), x.isDigit = true := by
  intro x hx
  rw [stripSeparatorsSpec_amountBodySpec] at hx
  rcases List.mem_append.mp hx with h | h
  · exact decimalNumeralSpec_isDigit _ x h
  · simp only [List.mem_cons, List.mem_singleton, List.not_mem_nil, or_false] at h
    rcases h with rfl | rfl
    · exact (digitChar_isDigit (c % 100 / 10 % 10) (by omega)).1
    · exact (digitChar_isDigit (c % 100 % 10) (by omega)).1

theorem commaTailSpec_append (gs : List (List Char)) (g : List Char) :
    commaTailSpec (gs ++ [g]) = commaTailSpec gs ++ ',' :: g := by
  induction gs with
  | nil => simp [commaTailSpec]
  | cons x gs ih => simp [commaTailSpec, ih]

/-- The grouped numeral is a first group of one to three digits followed by
groups of exactly three digits, each behind a comma. -/
theorem groupThousandsSpec_groups (n : Nat) :
    ∃ (first : List Char) (groups : List (List Char)),
      groupThousandsSpec (decimalNumeralSpec n) = first ++ commaTailSpec groups ∧
      (1 ≤ first.length ∧ first.length ≤ 3 ∧ ∀ c ∈ first, c.isDigit = true) ∧
      (∀ g ∈ groups, g.length = 3 ∧ ∀ c ∈ g, c.isDigit = true) := by
  induction n using Nat.strong_induction_on with
  | _ n ih =>
    by_cases h : n < 1000
    · refine ⟨decimalNumeralSpec n, [], ?_, ⟨?_, ?_, decimalNumeralSpec_isDigit n⟩, ?_⟩
      · rw [groupThousandsSpec_small n h]
        simp [commaTailSpec]
      · by_cases h10 : n < 10
        · rw [decimalNumeralSpec_lt_ten n h10]
          simp
        · by_cases h100 : n < 100
          · rw [decimalNumeralSpec_lt_hundred n (by omega) h100]
            simp
          · rw [decimalNumeralSpec_lt_thousand n (by omega) h]
            simp
      · by_cases h10 : n < 10
        · rw [decimalNumeralSpec_lt_ten n h10]
          simp
        · by_cases h100 : n < 100
          · rw [decimalNumeralSpec_lt_hundred n (by omega) h100]
            simp
          · rw [decimalNumeralSpec_lt_thousand n (by omega) h]
            simp
      · intro g hg
        cases hg
    · obtain ⟨first, groups, e, hfirst, hgroups⟩ := ih (n / 1000) (by omega)
      refine ⟨first, groups ++ [[Nat.digitChar (n % 1000 / 100),
        Nat.digitChar (n % 1000 / 10 % 10), Nat.digitChar (n % 1000 % 10)]], ?_, hfirst, ?_⟩
      · rw [decimalNumeralSpec_ge_thousand n (by omega),
          groupThousandsSpec_append _ _ _ _ (decimalNumeralSpec_ne_nil _), e,
          commaTailSpec_append, List.append_assoc]
      · intro g hg
        rcases List.mem_append.mp hg with hg | hg
        · exact hgroups g hg
        · rw [List.mem_singleton.mp hg]
          refine ⟨rfl, ?_⟩
          intro c hc
          simp only [List.mem_cons, List.mem_singleton, List.not_mem_nil, or_false] at hc
          rcases hc with rfl | rfl | rfl
          · exact (digitChar_isDigit _ (by omega)).1
          · exact (digitChar_isDigit _ (by omega)).1
          · exact (digitChar_isDigit _ (by omega)).1

/-- On a non-negative `int64` amount, `FormatCurrency` with a depth bound of at
least `7` returns the prefix of the code followed by the rendered amount. -/
theorem FormatCurrency_body (f c : Nat) (code : String) (hmax : (c : Int) ≤ maxInt64)
    (hf : 6 ≤ f) :
    FormatCurrency (f + 1) (c : Int) code =
      some (currencyPrefixSpec code ++ String.mk (amountBodySpec c)) := by
  have hq := quo64_natCast c 100 hmax
  have hr := rem64_natCast c 100 hmax
  simp only [Nat.cast_ofNat] at hq hr
  have hmajor : c / 100 < 1000 ^ (f + 1) := by
    have hc : c / 100 < 1000 ^ 7 := by
      unfold maxInt64 at hmax
      norm_num
      omega
    exact lt_of_lt_of_le hc (Nat.pow_le_pow_right (by decide) (by omega))
  have hmax2 : ((c / 100 : Nat) : Int) ≤ maxInt64 := by
    unfold maxInt64 at hmax ⊢
    omega
  have hminor : c % 100 < 100 := Nat.mod_lt c (by decide)
  have hnn : ¬ ((c % 100 : Nat) : Int) < 0 := by omega
  have hbody : ∀ symbol : String,
      formatWithSymbol (f + 1) ((c / 100 : Nat) : Int) ((c % 100 : Nat) : Int) symbol =
        some (symbol ++ String.mk (amountBodySpec c)) := by
    intro symbol
    rw [formatWithSymbol_eq f (c / 100) (c % 100) symbol hmajor hmax2 hminor]
    refine congrArg some ?_
    apply String.ext
    simp [String.data_append, groupedSpec, twoDigitsSpec, amountBodySpec]
  unfold FormatCurrency currencyPrefixSpec
  simp only [hq, hr, if_neg hnn]
  split_ifs <;> exact hbody _

/-- C39: `FormatCurrency` is lossless on non-negative amounts. For every `int64`
amount `cents ≥ 0` and every currency code the result (with recursion depth at
least 7) is the prefix of the code followed by a first group of one to three
digits, groups of exactly three digits each behind a comma, a point and exactly
two digits; removing every `,` and the `.` from what follows the prefix leaves a
string of decimal digits whose value is `cents`; and for a fixed code two
non-negative amounts with the same rendering are equal. -/
theorem FormatCurrency_lossless (fuel : Nat) (cents : Int) (code : String)
    (h0 : 0 ≤ cents) (hmax : cents ≤ maxInt64) (hf : 7 ≤ fuel) :
    (∃ (first : List Char) (groups : List (List Char)) (minor : List Char),
      FormatCurrency fuel cents code =
        some (currencyPrefixSpec code ++
          String.mk (first ++ commaTailSpec groups ++ '.' :: minor)) ∧
      (∀ c ∈ stripSeparatorsSpec (first ++ commaTailSpec groups ++ '.' :: minor),
        c.isDigit = true) ∧
      (numeralValueSpec (stripSeparatorsSpec
        (first ++ commaTailSpec groups ++ '.' :: minor)) : Int) = cents ∧
      (minor.length = 2 ∧ ∀ c ∈ minor, c.isDigit = true) ∧
      (1 ≤ first.length ∧ first.length ≤ 3 ∧ ∀ c ∈ first, c.isDigit = true) ∧
      (∀ g ∈ groups, g.length = 3 ∧ ∀ c ∈ g, c.isDigit = true)) ∧
    (∀ cents2 : Int, 0 ≤ cents2 → cents2 ≤ maxInt64 →
      FormatCurrency fuel cents2 code = FormatCurrency fuel cents code → cents2 = cents) := by
  obtain ⟨c, rfl⟩ := Int.eq_ofNat_of_zero_le h0
  obtain ⟨f, rfl⟩ : ∃ f, fuel = f + 1 := ⟨fuel - 1, by omega⟩
  have hb := FormatCurrency_body f c code hmax (by omega)
  constructor
  · obtain ⟨first, groups, e, hfirst, hgroups⟩ := groupThousandsSpec_groups (c / 100)
    have hbody : amountBodySpec c = first ++ commaTailSpec groups ++
        '.' :: [Nat.digitChar (c % 100 / 10 % 10), Nat.digitChar (c % 100 % 10)] := by
      unfold amountBodySpec
      rw [e]
    refine ⟨first, groups,
      [Nat.digitChar (c % 100 / 10 % 10), Nat.digitChar (c % 100 % 10)], ?_, ?_, ?_,
      ⟨rfl, ?_⟩, hfirst, hgroups⟩
    · rw [hb, hbody]
    · rw [← hbody]
      exact stripSeparatorsSpec_amountBodySpec_isDigit c
    · rw [← hbody, numeralValueSpec_amountBodySpec]
    · intro x hx
      simp only [List.mem_cons, List.mem_singleton, List.not_mem_nil, or_false] at hx
      rcases hx with rfl | rfl
      · exact (digitChar_isDigit _ (by omega)).1
      · exact (digitChar_isDigit _ (by omega)).1
  · intro cents2 h2 hmax2 heq
    obtain ⟨c2, rfl⟩ := Int.eq_ofNat_of_zero_le h2
    rw [hb, FormatCurrency_body f c2 code hmax2 (by omega)] at heq
    have h3 := congrArg String.data (Option.some.inj heq)
    rw [String.data_append, String.data_append] at h3
    have h4 : amountBodySpec c2 = amountBodySpec c := List.append_cancel_left h3
    have h5 := congrArg (fun l => numeralValueSpec (stripSeparatorsSpec l)) h4
    simp only [numeralValueSpec_amountBodySpec] at h5
    rw [h5]

/-- C39 (witness): `123456789` minor units of a code without a symbol are
rendered `GBP 1,234,567.89`, and no other non-negative amount is. -/
theorem FormatCurrency_lossless_witness :
    FormatCurrency 7 123456789 "GBP" = some "GBP 1,234,567.89" ∧
    numeralValueSpec (stripSeparatorsSpec "1,234,567.89".data) = 123456789 ∧
    (∀ cents2 : Int, 0 ≤ cents2 → cents2 ≤ maxInt64 →
      FormatCurrency 7 cents2 "GBP" = FormatCurrency 7 123456789 "GBP" →
      cents2 = 123456789) :=
  ⟨by decide, by decide,
    (FormatCurrency_lossless 7 123456789 "GBP" (by decide) (by decide) (by decide)).2⟩

theorem quo64_neg_natCast (c : Nat) (hc : (c : Int) ≤ 9223372036854775808) :
    quo64 (-(c : Int)) 100 = -((c / 100 : Nat) : Int) := by
  unfold quo64
  rw [Int.neg_tdiv, Int.tdiv_eq_ediv (Int.ofNat_nonneg c) (by decide)]
  unfold wrap64
  omega

theorem rem64_neg_natCast (c : Nat) :
    rem64 (-(c : Int)) 100 = -((c % 100 : Nat) : Int) := by
  unfold rem64
  rw [Int.tmod_def, Int.neg_tdiv, Int.tdiv_eq_ediv (Int.ofNat_nonneg c) (by decide)]
  unfold wrap64
  omega

/-- On a negative `int64` amount `-c`, `FormatCurrency` with a depth bound of at
least `7` returns the prefix of the code, a minus sign when the major part is
not zero, and the rendering of `c`. -/
theorem FormatCurrency_neg_body (f c : Nat) (code : String)
    (hc : (c : Int) ≤ 9223372036854775808) (hf : 6 ≤ f) :
    FormatCurrency (f + 1) (-(c : Int)) code =
      some (currencyPrefixSpec code ++ (if 100 ≤ c then "-" else "") ++
        String.mk (amountBodySpec c)) := by
  obtain ⟨g, rfl⟩ : ∃ g, f = g + 1 := ⟨f - 1, by omega⟩
  have hq := quo64_neg_natCast c hc
  have hr := rem64_neg_natCast c
  have hmajor : c / 100 < 1000 ^ (g + 1) := by
    have h6 : c / 100 < 1000 ^ 6 := by
      norm_num
      omega
    exact lt_of_lt_of_le h6 (Nat.pow_le_pow_right (by decide) (by omega))
  have hmax2 : ((c / 100 : Nat) : Int) ≤ maxInt64 := by
    unfold maxInt64
    omega
  have hminor : (if -((c % 100 : Nat) : Int) < 0 then neg64 (-((c % 100 : Nat) : Int))
      else -((c % 100 : Nat) : Int)) = ((c % 100 : Nat) : Int) := by
    split_ifs with h
    · unfold neg64 wrap64
      omega
    · omega
  have hnum : formatNumber (g + 1 + 1) (-((c / 100 : Nat) : Int)) =
      some ((if 100 ≤ c then "-" else "") ++ groupedSpec (c / 100)) := by
    by_cases h100 : 100 ≤ c
    · have hneg : -((c / 100 : Nat) : Int) < 0 := by omega
      have hn : neg64 (-((c / 100 : Nat) : Int)) = ((c / 100 : Nat) : Int) := by
        unfold neg64 wrap64
        omega
      rw [if_pos h100]
      unfold formatNumber
      rw [if_pos hneg, hn, formatNumber_eq g (c / 100) hmajor hmax2]
      rfl
    · have hz : c / 100 = 0 := by omega
      rw [if_neg h100, hz]
      rfl
  have hbody : ∀ symbol : String,
      formatWithSymbol (g + 1 + 1) (-((c / 100 : Nat) : Int)) ((c % 100 : Nat) : Int) symbol =
        some (symbol ++ (if 100 ≤ c then "-" else "") ++ String.mk (amountBodySpec c)) := by
    intro symbol
    unfold formatWithSymbol
    rw [hnum, padZero_eq (c % 100) (Nat.mod_lt c (by decide))]
    refine congrArg some ?_
    apply String.ext
    simp [String.data_append, groupedSpec, twoDigitsSpec, amountBodySpec]
  generalize (if 100 ≤ c then "-" else "") = sign at hbody ⊢
  unfold FormatCurrency currencyPrefixSpec
  simp only [hq, hr, hminor]
  split_ifs <;> exact hbody _

/-- The recursion of `formatNumber` on the minimum `int64` value itself never
ends: its negation is the value again. `FormatCurrency` never passes it, the
major part being a hundredth of an `int64`. -/
theorem formatNumber_minInt64 (fuel : Nat) : formatNumber fuel minInt64 = none := by
  induction fuel with
  | zero => rfl
  | succ fuel ih =>
    have hn : neg64 minInt64 = minInt64 := by decide
    have hlt : minInt64 < 0 := by decide
    unfold formatNumber
    rw [if_pos hlt, hn, ih]
    rfl

/-- C40: `FormatCurrency` returns a string for every `int64` amount, the minimum
`int64` value included: with any recursion depth of at least 7 it returns a
result, the same for every such depth. The major part `cents / 100` is above the
minimum `int64` value, so its negation is representable, and on every `int64`
`n ≥ 1000` the recursive call of `formatNumber` is on `n / 1000`, non-negative
and strictly below `n`. -/
theorem FormatCurrency_total (fuel : Nat) (cents : Int) (code : String)
    (h : inInt64 cents) (hf : 7 ≤ fuel) :
    (∃ s, FormatCurrency fuel cents code = some s) ∧
    (∀ fuel2, 7 ≤ fuel2 → FormatCurrency fuel2 cents code = FormatCurrency fuel cents code) ∧
    (minInt64 < quo64 cents 100 ∧ neg64 (quo64 cents 100) = -(quo64 cents 100) ∧
      inInt64 (-(quo64 cents 100))) ∧
    (∀ n, inInt64 n → 1000 ≤ n → 0 ≤ quo64 n 1000 ∧ quo64 n 1000 < n) := by
  obtain ⟨f, rfl⟩ : ∃ f, fuel = f + 1 := ⟨fuel - 1, by omega⟩
  unfold inInt64 minInt64 maxInt64 at h
  have hclosed : ∃ s, ∀ k, 6 ≤ k → FormatCurrency (k + 1) cents code = some s := by
    by_cases h0 : 0 ≤ cents
    · obtain ⟨c, rfl⟩ := Int.eq_ofNat_of_zero_le h0
      exact ⟨_, fun k hk => FormatCurrency_body k c code (by unfold maxInt64; omega) hk⟩
    · obtain ⟨c, hc⟩ := Int.eq_ofNat_of_zero_le (show 0 ≤ -cents by omega)
      have e : cents = -(c : Int) := by omega
      subst e
      exact ⟨_, fun k hk => FormatCurrency_neg_body k c code (by omega) hk⟩
  obtain ⟨s, hs⟩ := hclosed
  have hmajor : minInt64 < quo64 cents 100 ∧ quo64 cents 100 ≤ maxInt64 := by
    unfold minInt64 maxInt64
    by_cases h0 : 0 ≤ cents
    · unfold quo64
      rw [Int.tdiv_eq_ediv h0 (by decide)]
      unfold wrap64
      omega
    · obtain ⟨c, hc⟩ := Int.eq_ofNat_of_zero_le (show 0 ≤ -cents by omega)
      have e : cents = -(c : Int) := by omega
      subst e
      rw [quo64_neg_natCast c (by omega)]
      omega
  refine ⟨⟨s, hs f (by omega)⟩, ?_, ⟨hmajor.1, ?_, ?_⟩, ?_⟩
  · intro fuel2 hf2
    obtain ⟨k, rfl⟩ : ∃ k, fuel2 = k + 1 := ⟨fuel2 - 1, by omega⟩
    rw [hs k (by omega), hs f (by omega)]
  · obtain ⟨m1, m2⟩ := hmajor
    unfold minInt64 at m1
    unfold maxInt64 at m2
    generalize quo64 cents 100 = q at m1 m2
    unfold neg64 wrap64
    omega
  · obtain ⟨m1, m2⟩ := hmajor
    unfold minInt64 at m1
    unfold maxInt64 at m2
    unfold inInt64 minInt64 maxInt64
    omega
  · intro n hn h1000
    unfold inInt64 minInt64 maxInt64 at hn
    unfold quo64
    rw [Int.tdiv_eq_ediv (by omega) (by decide)]
    unfold wrap64
    omega

/-- C40 (witness): the minimum `int64` value of `USD`. -/
theorem FormatCurrency_total_witness :
    inInt64 minInt64 ∧
    FormatCurrency 7 minInt64 "USD" = some "$-92,233,720,368,547,758.08" ∧
    ∃ s, FormatCurrency 7 minInt64 "USD" = some s :=
  ⟨by decide, by decide,
    (FormatCurrency_total 7 minInt64 "USD" (by decide) (by decide)).1⟩

end SubFlow
